import Mathlib

/-!
Relocation engine of the in-memory ELF linker/loader (`ELFObject.hxx`)

A shallow embedding of `ELFObject<Bitwidth>::relocateARM`, `relocateX86_64`,
`relocateX86_32`, `relocateMIPS` and `relocate`, followed by theorems about
them.

Conventions of the embedding

* An `int32_t` / `uint32_t` value is its 32-bit pattern, a `Nat` below `2^32`.
  Addition, subtraction and left shift wrap modulo `2^32` (two's complement,
  as the compiled code behaves); `>>` on `int32_t` is the arithmetic shift;
  signed comparisons go through `toInt32`.
* A pointer (`void *`) is a `Nat`; `0` is the null pointer.
* A section buffer is a list of bytes; an instruction word is read and
  written little-endian at a byte offset.
* A function returns `Except Fault σ`: `.error f` is an abort (a failed
  `rsl_assert`, which stops the process, or `abort()`), or the distinguished
  `Fault.undefinedAccess` for an access the C++ code performs outside an
  object (out-of-range index, null dereference, mismatching `static_cast`).
* The collaborators that are not part of `ELFObject.hxx` (symbol lookup
  callback, stub allocator, GOT manager, common allocator) are parameters,
  collected in `Env`.
-/

namespace LinkLoader

/-! ## 32-bit machine arithmetic -/

/-- Truncation of a natural number to a 32-bit pattern. -/
def u32 (x : Nat) : Nat := x % 4294967296

/-- The value of a 32-bit pattern read as `int32_t`. -/
def toInt32 (x : Nat) : Int :=
  if x % 4294967296 < 2147483648 then ((x % 4294967296 : Nat) : Int)
  else ((x % 4294967296 : Nat) : Int) - 4294967296

/-- The 32-bit two's complement pattern of an integer. -/
def ofInt32 (z : Int) : Nat := (z % 4294967296).toNat

/-- The C expression `a + b` on 32-bit operands. -/
def add32 (a b : Nat) : Nat := (a + b) % 4294967296

/-- The C expression `a - b` on 32-bit operands. -/
def sub32 (a b : Nat) : Nat := (a % 4294967296 + (4294967296 - b % 4294967296)) % 4294967296

/-- The C expression `a << k` on a 32-bit operand. -/
def shl32 (a k : Nat) : Nat := (a <<< k) % 4294967296

/-- The C expression `a >> k` on an `int32_t` operand (arithmetic shift). -/
def asr32 (a k : Nat) : Nat := ofInt32 (toInt32 a / 2 ^ k)

/-- The C cast `(short)a` converted back to `int32_t`: sign extension of the
low 16 bits. -/
def short (a : Nat) : Nat :=
  if a % 65536 < 32768 then a % 65536 else a % 65536 + 4294901760

/-- The macro `SIGN_EXTEND(x, l)` of `relocateARM`:
`(((x)^(1<<((l)-1)))-(1<<(l-1)))`. -/
def SIGN_EXTEND (x l : Nat) : Nat := sub32 (x ^^^ (1 <<< (l - 1))) (1 <<< (l - 1))

/-- The conversion `(void *)S` of an `int32_t` value to a pointer of
`ptrBits` bits: the value is sign-extended. -/
def ptrOfInt32 (ptrBits : Nat) (s : Nat) : Nat := (toInt32 s % 2 ^ ptrBits).toNat

/-! ## Section buffers -/

/-- The byte at index `i` of a buffer (`0` outside of it). -/
def byteAt (buf : List Nat) (i : Nat) : Nat := (buf.getD i 0) % 256

/-- The load `*inst` of a 32-bit word at byte offset `off`. -/
def read32 (buf : List Nat) (off : Nat) : Nat :=
  byteAt buf off + 256 * byteAt buf (off + 1) + 65536 * byteAt buf (off + 2)
    + 16777216 * byteAt buf (off + 3)

/-- The store `*inst = v` of a 32-bit word at byte offset `off`. -/
def write32 (buf : List Nat) (off : Nat) (v : Nat) : List Nat :=
  (((buf.set off (v % 256)).set (off + 1) (v / 256 % 256)).set (off + 2)
    (v / 65536 % 256)).set (off + 3) (v / 16777216 % 256)

/-! ## Constants of `ELF.h` -/

/-- Modelled from the spec: `ELF.h` is not among the sources; relocation type
codes follow the standard ELF ABI values of each machine (ARM). -/
def R_ARM_ABS32 : Nat := 2
/-- Modelled from the spec: standard ARM ABI code of `R_ARM_CALL`. -/
def R_ARM_CALL : Nat := 28
/-- Modelled from the spec: standard ARM ABI code of `R_ARM_MOVW_ABS_NC`. -/
def R_ARM_MOVW_ABS_NC : Nat := 43
/-- Modelled from the spec: standard ARM ABI code of `R_ARM_MOVT_ABS`. -/
def R_ARM_MOVT_ABS : Nat := 44
/-- Modelled from the spec: standard i386 psABI code of `R_386_32`. -/
def R_386_32 : Nat := 1
/-- Modelled from the spec: standard i386 psABI code of `R_386_PC32`. -/
def R_386_PC32 : Nat := 2
/-- Modelled from the spec: standard MIPS32 psABI code of `R_MIPS_NONE`. -/
def R_MIPS_NONE : Nat := 0
/-- Modelled from the spec: standard MIPS32 psABI code of `R_MIPS_16`. -/
def R_MIPS_16 : Nat := 1
/-- Modelled from the spec: standard MIPS32 psABI code of `R_MIPS_32`. -/
def R_MIPS_32 : Nat := 2
/-- Modelled from the spec: standard MIPS32 psABI code of `R_MIPS_26`. -/
def R_MIPS_26 : Nat := 4
/-- Modelled from the spec: standard MIPS32 psABI code of `R_MIPS_HI16`. -/
def R_MIPS_HI16 : Nat := 5
/-- Modelled from the spec: standard MIPS32 psABI code of `R_MIPS_LO16`. -/
def R_MIPS_LO16 : Nat := 6
/-- Modelled from the spec: standard MIPS32 psABI code of `R_MIPS_GOT16`. -/
def R_MIPS_GOT16 : Nat := 9
/-- Modelled from the spec: standard MIPS32 psABI code of `R_MIPS_CALL16`. -/
def R_MIPS_CALL16 : Nat := 11
/-- Modelled from the spec: standard MIPS32 psABI code of `R_MIPS_GPREL32`. -/
def R_MIPS_GPREL32 : Nat := 12
/-- Modelled from the spec: standard MIPS32 psABI code of `R_MIPS_JALR`. -/
def R_MIPS_JALR : Nat := 37

/-- Modelled from the spec: ELF symbol type `STT_NOTYPE` (standard value). -/
def STT_NOTYPE : Nat := 0
/-- Modelled from the spec: ELF symbol type `STT_OBJECT` (standard value). -/
def STT_OBJECT : Nat := 1
/-- Modelled from the spec: ELF symbol type `STT_FUNC` (standard value). -/
def STT_FUNC : Nat := 2
/-- Modelled from the spec: ELF symbol binding `STB_LOCAL` (standard value). -/
def STB_LOCAL : Nat := 0

/-- Modelled from the spec: section index sentinel `SHN_UNDEF`. -/
def SHN_UNDEF : Nat := 0
/-- Modelled from the spec: section index sentinel `SHN_ABS`. -/
def SHN_ABS : Nat := 65521
/-- Modelled from the spec: section index sentinel `SHN_COMMON`. -/
def SHN_COMMON : Nat := 65522
/-- Modelled from the spec: section index sentinel `SHN_XINDEX`. -/
def SHN_XINDEX : Nat := 65535

/-- Modelled from the spec: section header type `SHT_PROGBITS`. -/
def SHT_PROGBITS : Nat := 1
/-- Modelled from the spec: section header type `SHT_RELA`. -/
def SHT_RELA : Nat := 4
/-- Modelled from the spec: section header type `SHT_NOBITS`. -/
def SHT_NOBITS : Nat := 8
/-- Modelled from the spec: section header type `SHT_REL`. -/
def SHT_REL : Nat := 9

/-- Modelled from the spec: machine kind `EM_386`. -/
def EM_386 : Nat := 3
/-- Modelled from the spec: machine kind `EM_MIPS`. -/
def EM_MIPS : Nat := 8
/-- Modelled from the spec: machine kind `EM_ARM`. -/
def EM_ARM : Nat := 40
/-- Modelled from the spec: machine kind `EM_X86_64`. -/
def EM_X86_64 : Nat := 62

/-! ## Data model -/

/-- The ways in which the relocation engine stops without returning. -/
inductive Fault where
  /-- The assertion `rsl_assert(0 && "Not implemented relocation type.")` -/
  | notImplementedRelocType
  /-- The assertion `rsl_assert(0 && "Wrong type for R_ARM_CALL relocation.")` -/
  | wrongCallSymbolType
  /-- The assertion `rsl_assert(0 && "We should get function address at previous ...")` -/
  | noFunctionAddress
  /-- The abort after `"unable to get stub layout."` -/
  | noStubLayout
  /-- The abort after `"unable to allocate stub."`, or `"cannot allocate stub."` -/
  | cannotAllocateStub
  /-- The assertion `"Stub is still too far"`, or `"stub is too far."` -/
  | stubTooFar
  /-- The assertion `"R_MIPS_16 overflow."` -/
  | mips16Overflow
  /-- The assertion `"R_MIPS_26 addend is not zero."` -/
  | mips26AddendNotZero
  /-- The assertion `"R_MIPS_GOT16 addend is not 0."` -/
  | got16AddendNotZero
  /-- The assertion `"R_MIPS_CALL16 addend is not 0."` -/
  | call16AddendNotZero
  /-- The assertion `rsl_assert(Bitwidth == ...)` at the head of a relocator -/
  | wrongBitwidth
  /-- The assertion `rsl_assert(symtab && "Symtab is required.")` -/
  | symtabRequired
  /-- The assertion `rsl_assert(reltab && "Relocation section can't be NULL.")` -/
  | relocationSectionNull
  /-- The assertion `rsl_assert(need_rel && "Need be relocated section can't be NULL.")` -/
  | needRelSectionNull
  /-- The assertion `rsl_assert(0 && "Only support ARM, MIPS, X86, and X86_64 relocation.")` -/
  | unsupportedMachine
  /-- The assertion `rsl_assert("Allocate memory for common variable fail!")` -/
  | commonAllocationFailed
  /-- An access outside an object: undefined behaviour of the C++ code. -/
  | undefinedAccess
  deriving DecidableEq, Repr

/-- Equality of results is decidable, so that concrete runs can be compared. -/
instance instDecidableEqExcept {ε α : Type} [DecidableEq ε] [DecidableEq α] :
    DecidableEq (Except ε α)
  | .ok a, .ok b => if h : a = b then isTrue (by rw [h]) else isFalse (fun e => h (by cases e; rfl))
  | .error a, .error b =>
    if h : a = b then isTrue (by rw [h]) else isFalse (fun e => h (by cases e; rfl))
  | .ok _, .error _ => isFalse (fun e => by cases e)
  | .error _, .ok _ => isFalse (fun e => by cases e)

/-- Modelled from the spec: `ELFSymbol.h` is not among the sources. A symbol
of the symbol table: name, type, binding, section index, value, size, and its
mutable resolved address (`0` while unresolved). -/
structure ELFSymbol where
  name : String
  type : Nat
  binding : Nat
  sectionIndex : Nat
  value : Nat
  size : Nat
  address : Nat
  deriving DecidableEq, Repr

/-- Modelled from the spec: `ELFSymbol::getAddress` is not among the sources;
it reads the symbol's resolved address (null while unresolved). -/
def ELFSymbol.getAddress (sym : ELFSymbol) : Nat := sym.address

/-- Modelled from the spec: `ELFReloc.h` is not among the sources. A
relocation entry: offset into the target section, symbol table index, type
code, and the addend, meaningful for RELA tables only. -/
structure ELFReloc where
  offset : Nat
  symTabIndex : Nat
  type : Nat
  addend : Int
  deriving DecidableEq, Repr

/-- Modelled from the spec: `ELFSectionProgBits.h` is not among the sources. A
PROGBITS section materialised in memory: the runtime address of its first
byte, its bytes, and the pointer returned by `getStubLayout()` (`0` when there
is none). -/
structure ELFSectionProgBits where
  address : Nat
  buf : List Nat
  stubLayout : Nat
  deriving DecidableEq, Repr

/-- The observable calls made by the relocation engine, in order. -/
inductive Event where
  /-- a call `find_sym(context, name)` -/
  | findSym (name : String)
  /-- a call `sym->setAddress(addr)` on the symbol at `symIndex` -/
  | setAddress (symIndex : Nat) (addr : Nat)
  /-- a call `initSHNCommonDataSize(size)` -/
  | initCommon (size : Nat)
  /-- a call `protect()` on the section at `sectionIndex` -/
  | protect (sectionIndex : Nat)
  deriving DecidableEq, Repr

/-- Modelled from the spec: `GOT.h` is not among the sources. The global
offset table, as far as the engine sees it: the interned
`(symbol index, address)` pairs. -/
abbrev GOT := List (Nat × Nat)

/-- Modelled from the spec: the collaborators of the relocation engine, none
of which is among the sources: the host's pointer width, the symbol lookup
callback, the stub allocator, the GOT manager and the common allocator. -/
structure Env where
  /-- width of a host pointer and of `size_t`, in bits -/
  ptrBits : Nat
  /-- the caller's symbol lookup; `0` is "not found" -/
  find_sym : String → Nat
  /-- the method `StubLayout::allocateStub` of the stub layout at the given pointer -/
  allocateStub : Nat → Nat → Nat
  /-- the call `search_got(symbol_index, addr, bind)` on the current table -/
  search_got : GOT → Nat → Nat → Nat → Nat × GOT
  /-- the value of `got_address()` -/
  got_address : Nat
  /-- the constant `GP_OFFSET` -/
  GP_OFFSET : Nat
  /-- the call `initSHNCommonDataSize(size)`: `false` reports failure -/
  initSHNCommonDataSize : Nat → Bool

/-- What a relocator works on: the symbol table, the text section being
patched, the `missingSymbols` flag, the GOT and the calls made so far. -/
structure RelocState where
  symtab : List ELFSymbol
  text : ELFSectionProgBits
  missingSymbols : Bool
  got : GOT
  trace : List Event
  deriving DecidableEq, Repr

/-- Whether the word at byte offset `off` lies inside the text buffer. -/
def RelocState.inBounds (st : RelocState) (off : Nat) : Prop :=
  off + 4 ≤ st.text.buf.length

instance (st : RelocState) (off : Nat) : Decidable (st.inBounds off) := by
  unfold RelocState.inBounds; infer_instance

/-- The load `*inst` at byte offset `off` of the text section. -/
def RelocState.load (st : RelocState) (off : Nat) : Nat := read32 st.text.buf off

/-- The store `*inst = v` at byte offset `off` of the text section. -/
def RelocState.store (st : RelocState) (off v : Nat) : RelocState :=
  { st with text := { st.text with buf := write32 st.text.buf off v } }

/-- Modelled from the spec: `ELFSymbol::setAddress` is not among the sources;
the call `sym->setAddress(addr)` on the symbol at index `idx` stores the
resolved address, and is recorded in the trace. -/
def RelocState.setAddress (st : RelocState) (idx addr : Nat) : RelocState :=
  { st with
    symtab := st.symtab.modify (fun sym => { sym with address := addr }) idx
    trace := st.trace ++ [Event.setAddress idx addr] }

/-- The call `find_sym(context, name)`, recorded in the trace. -/
def RelocState.findSym (env : Env) (st : RelocState) (name : String) : Nat × RelocState :=
  (env.find_sym name, { st with trace := st.trace ++ [Event.findSym name] })

/-- The assignment `missingSymbols = true` when `cond` holds. -/
def RelocState.markMissing (st : RelocState) (cond : Bool) : RelocState :=
  if cond then { st with missingSymbols := true } else st

/-- The store `*inst = v`, undefined when the word lies outside the buffer. -/
def RelocState.storeChecked (st : RelocState) (off v : Nat) : Except Fault RelocState :=
  if st.inBounds off then .ok (st.store off v) else .error Fault.undefinedAccess

/-- The block run for an unresolved symbol by `relocateX86_64`,
`relocateX86_32` and `relocateMIPS`:
`S = (Inst_t)find_sym(context, sym->getName()); if (!S) missingSymbols = true;
sym->setAddress((void *)S);`. Returns the new `S` and the new state. -/
def resolveSymbol (env : Env) (st : RelocState) (idx : Nat) (name : String) :
    Nat × RelocState :=
  let r := st.findSym env name
  let S := u32 r.1
  (S, (r.2.markMissing (S == 0)).setAddress idx (ptrOfInt32 env.ptrBits S))

/-- The loop `for (size_t i = 0; i < reltab->size(); ++i)` of the four
relocators; the body receives the entry and the entries after it. -/
def forEachReloc (body : ELFReloc → List ELFReloc → RelocState → Except Fault RelocState) :
    List ELFReloc → RelocState → Except Fault RelocState
  | [], st => .ok st
  | rel :: rest, st =>
    match body rel rest st with
    | .error f => .error f
    | .ok st1 => forEachReloc body rest st1

/-- The iterations of the loop of a relocator over the entries `mid` of a
table in which the entries `post` follow them: the loop of `forEachReloc`,
stopped before `post`. -/
def forEachRelocBefore
    (body : ELFReloc → List ELFReloc → RelocState → Except Fault RelocState) :
    List ELFReloc → List ELFReloc → RelocState → Except Fault RelocState
  | [], _, st => .ok st
  | rel :: mid, post, st =>
    match body rel (mid ++ post) st with
    | .error f => .error f
    | .ok st1 => forEachRelocBefore body mid post st1

/-! ## `relocateARM` -/

/-- The symbol-type switch of the `R_ARM_CALL` case: returns `callee_addr`
and the state after a possible `find_sym` / `setAddress`. -/
def armCallee (env : Env) (rel : ELFReloc) (sym : ELFSymbol) (st : RelocState) :
    Except Fault (Nat × RelocState) :=
  let callee_addr := sym.getAddress
  if sym.type = STT_FUNC then
    if callee_addr = 0 then .error Fault.noFunctionAddress else .ok (callee_addr, st)
  else if sym.type = STT_NOTYPE then
    if callee_addr = 0 then
      let r := st.findSym env sym.name
      .ok (r.1, (r.2.markMissing (r.1 == 0)).setAddress rel.symTabIndex r.1)
    else .ok (callee_addr, st)
  else .error Fault.wrongCallSymbolType

/-- The body of the loop of `relocateARM` for one relocation entry. -/
def relocateARM_entry (env : Env) (rel : ELFReloc) (st : RelocState) :
    Except Fault RelocState :=
  match st.symtab[rel.symTabIndex]? with
  | none => .error Fault.undefinedAccess
  | some sym =>
    let P := u32 (st.text.address + rel.offset)
    let S := u32 sym.getAddress
    if rel.type = R_ARM_ABS32 then
      if st.inBounds rel.offset then
        let A := st.load rel.offset
        .ok (st.store rel.offset (add32 S A))
      else .error Fault.undefinedAccess
    else if rel.type = R_ARM_CALL then
      if st.inBounds rel.offset then
        let A := SIGN_EXTEND (st.load rel.offset &&& 0xFFFFFF) 24
        match armCallee env rel sym st with
        | .error f => .error f
        | .ok (callee_addr, st1) =>
          if st1.text.stubLayout = 0 then .error Fault.noStubLayout
          else
            let stub := env.allocateStub st1.text.stubLayout callee_addr
            if stub = 0 then .error Fault.cannotAllocateStub
            else
              let S := u32 stub
              let result := add32 (sub32 (asr32 S 2) (asr32 P 2)) A
              if result > 0x007fffff ∧ result < 0xff800000 then .error Fault.stubTooFar
              else
                .ok (st1.store rel.offset
                  ((result &&& 0x00FFFFFF) ||| (st1.load rel.offset &&& 0xFF000000)))
      else .error Fault.undefinedAccess
    else if rel.type = R_ARM_MOVT_ABS ∨ rel.type = R_ARM_MOVW_ABS_NC then
      let r :=
        if S = 0 ∧ sym.type = STT_NOTYPE then
          let q := st.findSym env sym.name
          (u32 q.1, (q.2.markMissing (q.1 == 0)).setAddress rel.symTabIndex q.1)
        else (S, st)
      let S := if rel.type = R_ARM_MOVT_ABS then asr32 r.1 16 else r.1
      let st1 := r.2
      if st1.inBounds rel.offset then
        let inst := st1.load rel.offset
        let A := ((inst &&& 0xF0000) >>> 4) ||| (inst &&& 0xFFF)
        let result := add32 S A
        .ok (st1.store rel.offset
          ((((result &&& 0xF000) <<< 4) ||| (result &&& 0xFFF)) ||| (inst &&& 0xFFF0F000)))
      else .error Fault.undefinedAccess
    else .error Fault.notImplementedRelocType

/-! ## `relocateX86_64` -/

/-- The body of the loop of `relocateX86_64` for one relocation entry. -/
def relocateX86_64_entry (env : Env) (rel : ELFReloc) (st : RelocState) :
    Except Fault RelocState :=
  match st.symtab[rel.symTabIndex]? with
  | none => .error Fault.undefinedAccess
  | some sym =>
    let P := u32 (st.text.address + rel.offset)
    let A := ofInt32 rel.addend
    let S := u32 sym.getAddress
    let r := if S = 0 then resolveSymbol env st rel.symTabIndex sym.name else (S, st)
    let S := r.1
    let st1 := r.2
    if rel.type = 1 then st1.storeChecked rel.offset (add32 S A)
    else if rel.type = 2 then st1.storeChecked rel.offset (sub32 (add32 S A) P)
    else if rel.type = 10 ∨ rel.type = 11 then st1.storeChecked rel.offset (add32 S A)
    else .error Fault.notImplementedRelocType

/-! ## `relocateX86_32` -/

/-- The body of the loop of `relocateX86_32` for one relocation entry. -/
def relocateX86_32_entry (env : Env) (rel : ELFReloc) (st : RelocState) :
    Except Fault RelocState :=
  match st.symtab[rel.symTabIndex]? with
  | none => .error Fault.undefinedAccess
  | some sym =>
    if st.inBounds rel.offset then
      let P := u32 (st.text.address + rel.offset)
      let A := st.load rel.offset
      let S := u32 sym.getAddress
      let r := if S = 0 then resolveSymbol env st rel.symTabIndex sym.name else (S, st)
      let S := r.1
      let st1 := r.2
      if rel.type = R_386_PC32 then .ok (st1.store rel.offset (sub32 (add32 S A) P))
      else if rel.type = R_386_32 then .ok (st1.store rel.offset (add32 S A))
      else .error Fault.notImplementedRelocType
    else .error Fault.undefinedAccess

/-! ## `relocateMIPS` -/

/-- The forward scan of the `R_MIPS_HI16` and `R_MIPS_GOT16` cases: the nearest
entry after the current one whose type is `R_MIPS_LO16` and whose symbol is
the current symbol. Symbols are compared by address in the source, that is by
their index in the symbol table. -/
def findLO16 (rest : List ELFReloc) (symIdx : Nat) : Option ELFReloc :=
  rest.find? (fun this_rel => this_rel.type == R_MIPS_LO16 && this_rel.symTabIndex == symIdx)

/-- The effect of the forward scan on `A`: `A += (short)(*this_inst & 0xFFFF)`
for the entry found, nothing when there is none. -/
def addLO16 (st : RelocState) (rest : List ELFReloc) (symIdx A : Nat) : Except Fault Nat :=
  match findLO16 rest symIdx with
  | none => .ok A
  | some this_rel =>
    if st.inBounds this_rel.offset then
      .ok (add32 A (short (st.load this_rel.offset &&& 0xFFFF)))
    else .error Fault.undefinedAccess

/-- The tail shared by the far-call and the shared-library branches of the
`R_MIPS_26` case: allocate a stub for `target`, `sym->setAddress(stub)`,
`*inst |= ((S >> 2) & 0x3FFFFFF)` and the assertion that the stub is in range. -/
def mipsBranchToStub (env : Env) (rel : ELFReloc) (st : RelocState) (P target : Nat) :
    Except Fault RelocState :=
  if st.text.stubLayout = 0 then .error Fault.undefinedAccess
  else
    let stub := env.allocateStub st.text.stubLayout target
    if stub = 0 then .error Fault.cannotAllocateStub
    else
      let st1 := st.setAddress rel.symTabIndex stub
      let S := u32 stub
      let st2 := st1.store rel.offset (st1.load rel.offset ||| (asr32 S 2 &&& 0x3FFFFFF))
      if asr32 (add32 P 4) 28 = asr32 S 28 then .ok st2 else .error Fault.stubTooFar

/-- The common setup of the loop body of `relocateMIPS`, after `P`, `A` and
`S` are read: `need_stub` and, for an unresolved symbol other than `_gp_disp`,
the lookup through `find_sym`. Returns `need_stub`, `S` and the state. -/
def mipsSetup (env : Env) (rel : ELFReloc) (sym : ELFSymbol) (st : RelocState) :
    Bool × Nat × RelocState :=
  let S := u32 sym.getAddress
  if S = 0 ∧ sym.name ≠ "_gp_disp" then
    let r := resolveSymbol env st rel.symTabIndex sym.name
    (true, r.1, r.2)
  else (false, S, st)

/-- The case `R_MIPS_16` of `relocateMIPS`. -/
def mipsCase16 (rel : ELFReloc) (A S : Nat) (st : RelocState) : Except Fault RelocState :=
  let off := rel.offset
  let st1 := st.store off (st.load off &&& 0xFFFF0000)
  let A := A &&& 0xFFFF
  let A := add32 S (short A)
  if toInt32 A ≥ -32768 ∧ toInt32 A ≤ 32767 then
    .ok (st1.store off (st1.load off ||| (A &&& 0xFFFF)))
  else .error Fault.mips16Overflow

/-- The case `R_MIPS_26` of `relocateMIPS`. -/
def mipsCase26 (env : Env) (rel : ELFReloc) (sym : ELFSymbol) (P A S : Nat)
    (need_stub : Bool) (st : RelocState) : Except Fault RelocState :=
  let off := rel.offset
  let st1 := st.store off (st.load off &&& 0xFC000000)
  if need_stub = false then
    let A := shl32 (A &&& 0x3FFFFFF) 2
    if sym.binding = STB_LOCAL then
      let A := A ||| (add32 P 4 &&& 0xF0000000)
      let A := add32 A S
      .ok (st1.store off (st1.load off ||| (asr32 A 2 &&& 0x3FFFFFF)))
    else
      let A := if A &&& 0x08000000 ≠ 0 then A ||| 0xF0000000 else A
      let A := add32 A S
      let st2 := st1.store off (st1.load off ||| (asr32 A 2 &&& 0x3FFFFFF))
      if asr32 (add32 P 4) 28 ≠ asr32 A 28 then
        mipsBranchToStub env rel st2 P (ptrOfInt32 env.ptrBits A)
      else .ok st2
  else
    let A := shl32 (A &&& 0x3FFFFFF) 2
    if A = 0 then mipsBranchToStub env rel st1 P (ptrOfInt32 env.ptrBits S)
    else .error Fault.mips26AddendNotZero

/-- The case `R_MIPS_HI16` of `relocateMIPS`. -/
def mipsCaseHI16 (env : Env) (rel : ELFReloc) (rest : List ELFReloc) (sym : ELFSymbol)
    (P A S : Nat) (st : RelocState) : Except Fault RelocState :=
  let off := rel.offset
  let st1 := st.store off (st.load off &&& 0xFFFF0000)
  let A := shl32 (A &&& 0xFFFF) 16
  match addLO16 st1 rest rel.symTabIndex A with
  | .error f => .error f
  | .ok A =>
    let q :=
      if sym.name = "_gp_disp" then
        let S := sub32 (add32 (u32 env.got_address) env.GP_OFFSET) P
        (S, st1.setAddress rel.symTabIndex (ptrOfInt32 env.ptrBits S))
      else (S, st1)
    let S := q.1
    let st2 := q.2
    .ok (st2.store off (st2.load off ||| (asr32 (add32 (add32 S A) 0x8000) 16 &&& 0xFFFF)))

/-- The case `R_MIPS_LO16` of `relocateMIPS`. For `_gp_disp` the address is
read again from the symbol, which the common setup has left alone. -/
def mipsCaseLO16 (rel : ELFReloc) (sym : ELFSymbol) (A S : Nat) (st : RelocState) :
    Except Fault RelocState :=
  let off := rel.offset
  let st1 := st.store off (st.load off &&& 0xFFFF0000)
  let A := A &&& 0xFFFF
  let S := if sym.name = "_gp_disp" then u32 sym.getAddress else S
  .ok (st1.store off (st1.load off ||| (add32 S A &&& 0xFFFF)))

/-- The cases `R_MIPS_GOT16` and `R_MIPS_CALL16` of `relocateMIPS`. -/
def mipsCaseGOT16 (env : Env) (rel : ELFReloc) (rest : List ELFReloc) (sym : ELFSymbol)
    (A S : Nat) (st : RelocState) : Except Fault RelocState :=
  let off := rel.offset
  let st1 := st.store off (st.load off &&& 0xFFFF0000)
  let A := A &&& 0xFFFF
  let a : Except Fault Nat :=
    if rel.type = R_MIPS_GOT16 then
      if sym.binding = STB_LOCAL then addLO16 st1 rest rel.symTabIndex (shl32 A 16)
      else if A = 0 then .ok A else .error Fault.got16AddendNotZero
    else if A = 0 then .ok A else .error Fault.call16AddendNotZero
  match a with
  | .error f => .error f
  | .ok A =>
    let g := env.search_got st1.got rel.symTabIndex
      (ptrOfInt32 env.ptrBits (add32 S A)) sym.binding
    let got_index := g.1
    let got_offset := sub32 (shl32 got_index 2) env.GP_OFFSET
    let st2 := { st1 with got := g.2 }
    .ok (st2.store off (st2.load off ||| (got_offset &&& 0xFFFF)))

/-- The body of the loop of `relocateMIPS` for one relocation entry; `rest`
are the entries that follow it in the table. -/
def relocateMIPS_entry (env : Env) (rel : ELFReloc) (rest : List ELFReloc) (st : RelocState) :
    Except Fault RelocState :=
  match st.symtab[rel.symTabIndex]? with
  | none => .error Fault.undefinedAccess
  | some sym =>
    if st.inBounds rel.offset then
      let P := u32 (st.text.address + rel.offset)
      let A := st.load rel.offset
      let r := mipsSetup env rel sym st
      let need_stub := r.1
      let S := r.2.1
      let st := r.2.2
      if rel.type = R_MIPS_NONE ∨ rel.type = R_MIPS_JALR then .ok st
      else if rel.type = R_MIPS_16 then mipsCase16 rel A S st
      else if rel.type = R_MIPS_32 then .ok (st.store rel.offset (add32 S A))
      else if rel.type = R_MIPS_26 then mipsCase26 env rel sym P A S need_stub st
      else if rel.type = R_MIPS_HI16 then mipsCaseHI16 env rel rest sym P A S st
      else if rel.type = R_MIPS_LO16 then mipsCaseLO16 rel sym A S st
      else if rel.type = R_MIPS_GOT16 ∨ rel.type = R_MIPS_CALL16 then
        mipsCaseGOT16 env rel rest sym A S st
      else if rel.type = R_MIPS_GPREL32 then
        .ok (st.store rel.offset
          (sub32 (add32 A S) (add32 (u32 env.got_address) env.GP_OFFSET)))
      else .error Fault.notImplementedRelocType
    else .error Fault.undefinedAccess

/-! ## The object and `relocate` -/

/-- Modelled from the spec: `ELFSectionHeader.h` is not among the sources. A
section header, as far as `relocate` reads it: type and name. -/
structure ELFSectionHeader where
  type : Nat
  name : String
  deriving DecidableEq, Repr

/-- Modelled from the spec: the section classes are not among the sources. A
section of the section table `stab`. -/
inductive ELFSection where
  /-- a PROGBITS section -/
  | progBits (sec : ELFSectionProgBits)
  /-- a NOBITS section -/
  | noBits (size : Nat)
  /-- the symbol table -/
  | symTab (symbols : List ELFSymbol)
  /-- a REL or RELA relocation table -/
  | relTable (relocs : List ELFReloc)
  /-- any other section (string table, ...) -/
  | other
  deriving DecidableEq, Repr

/-- Modelled from the spec: `ELFObject.h` is not among the sources. The
object: the template parameter `Bitwidth`, the machine kind of the header, the section header table `shtab`, the sections `stab` (an entry may be
null), the flag `missingSymbols`, the GOT and the calls made so far. -/
structure ELFObject where
  bitwidth : Nat
  machine : Nat
  shtab : List ELFSectionHeader
  stab : List (Option ELFSection)
  missingSymbols : Bool
  got : GOT
  trace : List Event
  deriving DecidableEq, Repr

/-- Modelled from the spec: `ELFSectionHeaderTable::getByName` is not among
the sources; it looks a section header up by its name. The result is the
index of the header found. -/
def getByName : List ELFSectionHeader → String → Option Nat
  | [], _ => none
  | sh :: rest, str => if sh.name = str then some 0 else (getByName rest str).map (· + 1)

/-- The method `getSectionByName(str)`:
`stab[getSectionHeaderTable()->getByName(str)->getIndex()]`, with the index. -/
def ELFObject.getSectionByName (obj : ELFObject) (str : String) :
    Except Fault (Nat × Option ELFSection) :=
  match getByName obj.shtab str with
  | none => .error Fault.undefinedAccess
  | some idx =>
    match obj.stab[idx]? with
    | none => .error Fault.undefinedAccess
    | some sec => .ok (idx, sec)

/-- Modelled from the spec: `utils/rsl_assert.h` is not among the sources. The
macro `rsl_assert(EXPR)` aborts with a diagnostic when `EXPR` is false, and
does nothing otherwise. -/
def rsl_assert (expr : Bool) (f : Fault) : Except Fault Unit :=
  if expr then .ok () else .error f

/-- The truth value of a string literal used as a condition: the literal is a
non-null `char const *`, which converts to `true`. -/
def stringLiteral (_text : String) : Bool := true

/-- The head of each relocator and its return: the assertion on `Bitwidth`,
the lookup of `.symtab` with its assertion, then `run` on the symbol table and
the text section (the section at index `textIdx`), whose results are written
back into the object. -/
def ELFObject.runRelocator (obj : ELFObject) (bitwidth : Nat) (textIdx : Nat)
    (text : ELFSectionProgBits) (run : RelocState → Except Fault RelocState) :
    Except Fault ELFObject :=
  if obj.bitwidth ≠ bitwidth then .error Fault.wrongBitwidth
  else
    match obj.getSectionByName ".symtab" with
    | .error f => .error f
    | .ok (_, none) => .error Fault.symtabRequired
    | .ok (symIdx, some (ELFSection.symTab symbols)) =>
      match run { symtab := symbols, text := text, missingSymbols := obj.missingSymbols,
                  got := obj.got, trace := obj.trace } with
      | .error f => .error f
      | .ok st =>
        .ok { obj with
              stab := (obj.stab.set symIdx (some (ELFSection.symTab st.symtab))).set textIdx
                (some (ELFSection.progBits st.text))
              missingSymbols := st.missingSymbols
              got := st.got
              trace := st.trace }
    | .ok (_, some _) => .error Fault.undefinedAccess

/-- The method `relocateARM`. -/
def ELFObject.relocateARM (env : Env) (obj : ELFObject) (reltab : List ELFReloc)
    (textIdx : Nat) (text : ELFSectionProgBits) : Except Fault ELFObject :=
  obj.runRelocator 32 textIdx text
    (forEachReloc (fun rel _ st => relocateARM_entry env rel st) reltab)

/-- The method `relocateX86_64`. -/
def ELFObject.relocateX86_64 (env : Env) (obj : ELFObject) (reltab : List ELFReloc)
    (textIdx : Nat) (text : ELFSectionProgBits) : Except Fault ELFObject :=
  obj.runRelocator 64 textIdx text
    (forEachReloc (fun rel _ st => relocateX86_64_entry env rel st) reltab)

/-- The method `relocateX86_32`. -/
def ELFObject.relocateX86_32 (env : Env) (obj : ELFObject) (reltab : List ELFReloc)
    (textIdx : Nat) (text : ELFSectionProgBits) : Except Fault ELFObject :=
  obj.runRelocator 32 textIdx text
    (forEachReloc (fun rel _ st => relocateX86_32_entry env rel st) reltab)

/-- The method `relocateMIPS`. -/
def ELFObject.relocateMIPS (env : Env) (obj : ELFObject) (reltab : List ELFReloc)
    (textIdx : Nat) (text : ELFSectionProgBits) : Except Fault ELFObject :=
  obj.runRelocator 32 textIdx text (forEachReloc (relocateMIPS_entry env) reltab)

/-- The first loop of `relocate`: the sum `SHNCommonDataSize` over the symbols
of type `STT_OBJECT`, in `size_t` arithmetic. -/
def commonDataSize (env : Env) (shtab : List ELFSectionHeader) :
    List ELFSymbol → Nat → Except Fault Nat
  | [], acc => .ok acc
  | sym :: rest, acc =>
    if sym.type ≠ STT_OBJECT then commonDataSize env shtab rest acc
    else
      let idx := sym.sectionIndex
      if idx = SHN_COMMON then
        let align := sym.value
        commonDataSize env shtab rest ((acc + (sym.size + align)) % 2 ^ env.ptrBits)
      else if idx = SHN_ABS ∨ idx = SHN_UNDEF ∨ idx = SHN_XINDEX then
        commonDataSize env shtab rest acc
      else
        match shtab[idx]? with
        | none => .error Fault.undefinedAccess
        | some sh =>
          if sh.type = SHT_NOBITS then
            let align := 16
            commonDataSize env shtab rest ((acc + (sym.size + align)) % 2 ^ env.ptrBits)
          else commonDataSize env shtab rest acc

/-- The body of the second loop of `relocate` for the section index `i`. -/
def ELFObject.relocateSection (env : Env) (obj : ELFObject) (i : Nat) :
    Except Fault ELFObject :=
  match obj.shtab[i]? with
  | none => .error Fault.undefinedAccess
  | some sh =>
    if sh.type ≠ SHT_REL ∧ sh.type ≠ SHT_RELA then .ok obj
    else
      match obj.stab[i]? with
      | none => .error Fault.undefinedAccess
      | some none => .error Fault.relocationSectionNull
      | some (some (ELFSection.relTable reltab)) =>
        let need_rel_name := if sh.type = SHT_REL then sh.name.drop 4 else sh.name.drop 5
        match obj.getSectionByName need_rel_name with
        | .error f => .error f
        | .ok (_, none) => .error Fault.needRelSectionNull
        | .ok (textIdx, some (ELFSection.progBits need_rel)) =>
          if obj.machine = EM_ARM then obj.relocateARM env reltab textIdx need_rel
          else if obj.machine = EM_386 then obj.relocateX86_32 env reltab textIdx need_rel
          else if obj.machine = EM_X86_64 then obj.relocateX86_64 env reltab textIdx need_rel
          else if obj.machine = EM_MIPS then obj.relocateMIPS env reltab textIdx need_rel
          else .error Fault.unsupportedMachine
        | .ok (_, some _) => .error Fault.undefinedAccess
      | some (some _) => .error Fault.undefinedAccess

/-- The second loop of `relocate`, over the section indices. -/
def ELFObject.relocateSections (env : Env) : List Nat → ELFObject → Except Fault ELFObject
  | [], obj => .ok obj
  | i :: rest, obj =>
    match obj.relocateSection env i with
    | .error f => .error f
    | .ok obj1 => ELFObject.relocateSections env rest obj1

/-- The third loop of `relocate`: `protect()` on every PROGBITS or NOBITS
section that is not null. -/
def ELFObject.protectSections : List Nat → ELFObject → Except Fault ELFObject
  | [], obj => .ok obj
  | i :: rest, obj =>
    match obj.shtab[i]? with
    | none => .error Fault.undefinedAccess
    | some sh =>
      if sh.type = SHT_PROGBITS ∨ sh.type = SHT_NOBITS then
        match obj.stab[i]? with
        | some (some _) =>
          ELFObject.protectSections rest { obj with trace := obj.trace ++ [Event.protect i] }
        | _ => ELFObject.protectSections rest obj
      else ELFObject.protectSections rest obj

/-- The method `relocate(find_sym, context)`. -/
def ELFObject.relocate (env : Env) (obj : ELFObject) : Except Fault ELFObject :=
  match obj.getSectionByName ".symtab" with
  | .error f => .error f
  | .ok (_, none) => .error Fault.symtabRequired
  | .ok (_, some (ELFSection.symTab symbols)) =>
    match commonDataSize env obj.shtab symbols 0 with
    | .error f => .error f
    | .ok SHNCommonDataSize =>
      let obj1 := { obj with trace := obj.trace ++ [Event.initCommon SHNCommonDataSize] }
      let checked : Except Fault Unit :=
        if ¬ env.initSHNCommonDataSize SHNCommonDataSize then
          rsl_assert (stringLiteral "Allocate memory for common variable fail!")
            Fault.commonAllocationFailed
        else .ok ()
      match checked with
      | .error f => .error f
      | .ok _ =>
        match ELFObject.relocateSections env (List.range obj1.stab.length) obj1 with
        | .error f => .error f
        | .ok obj2 => ELFObject.protectSections (List.range obj2.stab.length) obj2
  | .ok (_, some _) => .error Fault.undefinedAccess

/-- The text section of `st1` is the one of `st` up to the contents of its
buffer: same address, same size, same stub layout. -/
def SameFrame (st st1 : RelocState) : Prop :=
  st1.text.address = st.text.address ∧ st1.text.buf.length = st.text.buf.length ∧
    st1.text.stubLayout = st.text.stubLayout

/-! ## Concrete inputs -/

/-- A host with 32-bit pointers: `find_sym` knows `foo` only, the stub
allocator returns the target itself, `search_got` appends. -/
def exEnv : Env :=
  { ptrBits := 32
    find_sym := fun n => if n = "foo" then 0x10000000 else 0
    allocateStub := fun _ target => target
    search_got := fun g i a _ => (g.length, g ++ [(i, a)])
    got_address := 0x30000000
    GP_OFFSET := 0x7FF0
    initSHNCommonDataSize := fun _ => true }

/-- The undefined symbol `foo`: no type, global binding, not yet resolved. -/
def exFoo : ELFSymbol :=
  { name := "foo", type := STT_NOTYPE, binding := 1, sectionIndex := SHN_UNDEF,
    value := 0, size := 0, address := 0 }

/-- A text section at address `0x20000000` holding the words `0xDEADBEEF`
and `0`. -/
def exText : ELFSectionProgBits :=
  { address := 0x20000000, buf := [0xEF, 0xBE, 0xAD, 0xDE, 0, 0, 0, 0], stubLayout := 1 }

/-- A relocator state over `exText` with the symbol table `[foo]`. -/
def exState : RelocState :=
  { symtab := [exFoo], text := exText, missingSymbols := false, got := [], trace := [] }

/-- An entry of the given type at offset 0 against symbol 0, addend `-4`. -/
def exReloc (type : Nat) : ELFReloc :=
  { offset := 0, symTabIndex := 0, type := type, addend := -4 }

/-- A host with 64-bit pointers whose `find_sym` places `bar` at `0x400100`. -/
def exEnv64 : Env :=
  { ptrBits := 64
    find_sym := fun n => if n = "bar" then 0x400100 else 0
    allocateStub := fun _ target => target
    search_got := fun g i a _ => (g.length, g ++ [(i, a)])
    got_address := 0
    GP_OFFSET := 0x7FF0
    initSHNCommonDataSize := fun _ => true }

/-- The undefined symbol `bar`, not yet resolved. -/
def exBar : ELFSymbol :=
  { name := "bar", type := STT_NOTYPE, binding := 1, sectionIndex := SHN_UNDEF,
    value := 0, size := 0, address := 0 }

/-- A relocator state whose text section, four zero bytes, sits at address
`0x400200`, with the symbol table `[bar]`. -/
def exState64 : RelocState :=
  { symtab := [exBar], text := { address := 0x400200, buf := [0, 0, 0, 0], stubLayout := 0 },
    missingSymbols := false, got := [], trace := [] }

/-- The function symbol `fn`, defined in the object at address `0x20001000`. -/
def exFn : ELFSymbol :=
  { name := "fn", type := STT_FUNC, binding := 1, sectionIndex := 1,
    value := 0x1000, size := 0, address := 0x20001000 }

/-- A relocator state whose text section at `0x20000000` holds the ARM
instruction `BL` with the 24-bit immediate `0xFFFFFE` (addend of -8 bytes),
with the symbol table `[fn]`. -/
def exArmBL : RelocState :=
  { symtab := [exFn]
    text := { address := 0x20000000, buf := [0xFE, 0xFF, 0xFF, 0xEB], stubLayout := 1 }
    missingSymbols := false, got := [], trace := [] }

/-- The same state with the 24-bit immediate of the `BL` instruction zero. -/
def exArmBL0 : RelocState :=
  { symtab := [exFn]
    text := { address := 0x20000000, buf := [0, 0, 0, 0xEB], stubLayout := 1 }
    missingSymbols := false, got := [], trace := [] }

/-- The external symbol `ext`, global, resolved to `0x800000`. -/
def exExt : ELFSymbol :=
  { name := "ext", type := STT_NOTYPE, binding := 1, sectionIndex := SHN_UNDEF,
    value := 0, size := 0, address := 0x800000 }

/-- A relocator state whose text section holds the MIPS instruction
`lw $25, 0($28)` (`0x8F990000`), with the symbol table `[ext]` and an empty
GOT. -/
def exMipsCall : RelocState :=
  { symtab := [exExt]
    text := { address := 0x20000000, buf := [0, 0, 0x99, 0x8F], stubLayout := 1 }
    missingSymbols := false, got := [], trace := [] }

/-- The data symbol `var`, defined in the object and resolved to
`0x12345678`. -/
def exVar : ELFSymbol :=
  { name := "var", type := STT_OBJECT, binding := 1, sectionIndex := 2,
    value := 0, size := 4, address := 0x12345678 }

/-- A relocator state whose text section holds the MIPS instructions
`lui $1, 0` (`0x3C010000`) at offset 0 and `addiu $1, $1, 0` (`0x24210000`) at
offset 4, with the symbol table `[var]`. -/
def exMipsPair : RelocState :=
  { symtab := [exVar]
    text := { address := 0x20000000, buf := [0, 0, 0x01, 0x3C, 0, 0, 0x21, 0x24],
              stubLayout := 1 }
    missingSymbols := false, got := [], trace := [] }

/-- An `R_MIPS_HI16` entry at offset 0 against symbol 0. -/
def exHi : ELFReloc := { offset := 0, symTabIndex := 0, type := R_MIPS_HI16, addend := 0 }

/-- An `R_MIPS_LO16` entry at offset 4 against symbol 0. -/
def exLo : ELFReloc := { offset := 4, symTabIndex := 0, type := R_MIPS_LO16, addend := 0 }

/-- An `R_MIPS_32` entry at offset 4, the patch site of `exLo`, against
symbol 0. -/
def exMid32 : ELFReloc := { offset := 4, symTabIndex := 0, type := R_MIPS_32, addend := 0 }

/-- An `R_MIPS_LO16` entry at offset 1, whose word overlaps the one of
`exHi`, against symbol 0. -/
def exLoOverlap : ELFReloc :=
  { offset := 1, symTabIndex := 0, type := R_MIPS_LO16, addend := 0 }

/-- The environment `exEnv` with a common allocator that reports failure. -/
def exEnvNoCommon : Env := { exEnv with initSHNCommonDataSize := fun _ => false }

/-- A common symbol `buf` of type `STT_OBJECT`: 4 bytes, alignment 4. -/
def exCommon : ELFSymbol :=
  { name := "buf", type := STT_OBJECT, binding := 1, sectionIndex := SHN_COMMON,
    value := 4, size := 4, address := 0 }

/-- An i386 object with the sections `.text` (the word `0xDEADBEEF`),
`.symtab` (`foo` and the common symbol `buf`) and `.rel.text` (one `R_386_32`
entry at offset 0 against `foo`). -/
def exObj386 : ELFObject :=
  { bitwidth := 32
    machine := EM_386
    shtab := [{ type := 0, name := "" }, { type := SHT_PROGBITS, name := ".text" },
              { type := 2, name := ".symtab" }, { type := SHT_REL, name := ".rel.text" }]
    stab := [some ELFSection.other, some (ELFSection.progBits exText),
             some (ELFSection.symTab [exFoo, exCommon]),
             some (ELFSection.relTable [exReloc R_386_32])]
    missingSymbols := false
    got := []
    trace := [] }

/-- The relocator state `exState` with the symbol table `[bar]`: `find_sym`
of `exEnv` does not know `bar`. -/
def exStateBar : RelocState := { exState with symtab := [exBar] }

/-- The undefined symbol `_gp_disp`, not resolved. -/
def exGpDisp : ELFSymbol :=
  { name := "_gp_disp", type := STT_NOTYPE, binding := 1, sectionIndex := SHN_UNDEF,
    value := 0, size := 0, address := 0 }

/-- The relocator state `exMipsPair` with the symbol table `[_gp_disp]`. -/
def exMipsGp : RelocState := { exMipsPair with symtab := [exGpDisp] }

/-- A relocator state whose text section holds the ARM instructions
`movw r0, #0` (`0xE3000000`) at offset 0 and `movt r0, #0` (`0xE3400000`) at
offset 4, with the symbol table `[var]`. -/
def exArmMov : RelocState :=
  { symtab := [exVar]
    text := { address := 0x20000000, buf := [0, 0, 0, 0xE3, 0, 0, 0x40, 0xE3], stubLayout := 1 }
    missingSymbols := false, got := [], trace := [] }

/-- An `R_ARM_MOVT_ABS` entry at offset 4 against symbol 0. -/
def exMovt : ELFReloc := { offset := 4, symTabIndex := 0, type := R_ARM_MOVT_ABS, addend := 0 }

/-- The local function symbol `loc`, resolved to `0x20000100`. -/
def exLocal : ELFSymbol :=
  { name := "loc", type := STT_FUNC, binding := STB_LOCAL, sectionIndex := 1,
    value := 0x100, size := 0, address := 0x20000100 }

/-- A relocator state whose text section at `0x20000000` holds the MIPS
instruction `jal` with the 26-bit field `0x10` (`0x0C000010`, addend `0x40`),
with the symbol table `[loc]`. -/
def exMipsJal : RelocState :=
  { symtab := [exLocal]
    text := { address := 0x20000000, buf := [0x10, 0, 0, 0x0C], stubLayout := 1 }
    missingSymbols := false, got := [], trace := [] }

/-- The environment `exEnv` with a stub allocator that places every stub at
`0x20001000`. -/
def exEnvStub : Env := { exEnv with allocateStub := fun _ _ => 0x20001000 }

/-- The external symbol `far`, global, resolved to `0x10000000`. -/
def exFar : ELFSymbol :=
  { name := "far", type := STT_FUNC, binding := 1, sectionIndex := SHN_UNDEF,
    value := 0, size := 0, address := 0x10000000 }

/-- A relocator state whose text section at `0x20000000` holds the MIPS
instruction `jal` with the 26-bit field `1` (`0x0C000001`, addend 4), with the
symbol table `[far]`. -/
def exMipsJalFar : RelocState :=
  { symtab := [exFar]
    text := { address := 0x20000000, buf := [1, 0, 0, 0x0C], stubLayout := 1 }
    missingSymbols := false, got := [], trace := [] }

/-- A relocator state whose text section at `0x20000000` holds the MIPS
instruction `jal` with the 26-bit field `0` (`0x0C000000`), with the symbol
table `[foo]`, `foo` not yet resolved. -/
def exMipsJal0 : RelocState :=
  { symtab := [exFoo]
    text := { address := 0x20000000, buf := [0, 0, 0, 0x0C], stubLayout := 1 }
    missingSymbols := false, got := [], trace := [] }

/-- A relocator state whose text section sits at `0x7FFFF000`, right below
the middle of the 32-bit address space, and holds `BL` with the immediate 0;
the symbol table holds the function `fn` at `0x80000000`. -/
def exArmBoundary : RelocState :=
  { symtab := [{ exFn with address := 0x80000000 }]
    text := { address := 0x7FFFF000, buf := [0, 0, 0, 0xEB], stubLayout := 1 }
    missingSymbols := false, got := [], trace := [] }

/-- A relocator state whose text section holds `lui $1, 0` at offset 0,
`addiu $1, $1, 0` at offset 4 and `lui $1, 0` at offset 8, with the symbol
table `[_gp_disp]`. -/
def exMipsGp3 : RelocState :=
  { symtab := [exGpDisp]
    text := { address := 0x20000000,
              buf := [0, 0, 0x01, 0x3C, 0, 0, 0x21, 0x24, 0, 0, 0x01, 0x3C], stubLayout := 1 }
    missingSymbols := false, got := [], trace := [] }

/-- An `R_MIPS_HI16` entry at offset 8 against symbol 0. -/
def exHi8 : ELFReloc := { offset := 8, symTabIndex := 0, type := R_MIPS_HI16, addend := 0 }

/-- The state `exMipsGp` after the entry `exHi`: the `lui` word has the
immediate `0x1000` and `_gp_disp` is cached at `0x10007FF0`. -/
def exMipsGpHi : RelocState :=
  { exMipsGp with
    symtab := [{ exGpDisp with address := 0x10007FF0 }]
    text := { exMipsGp.text with buf := [0, 0x10, 0x01, 0x3C, 0, 0, 0x21, 0x24] }
    trace := [Event.setAddress 0 0x10007FF0] }

/-- Whether an event is a call `setAddress` on the symbol at index `idx`. -/
def Event.isSetAddress (idx : Nat) : Event → Bool
  | Event.setAddress j _ => j == idx
  | _ => false

/-- The number of calls `setAddress` on the symbol at index `idx` recorded in
a trace. -/
def setAddressCount (idx : Nat) (tr : List Event) : Nat := tr.countP (Event.isSetAddress idx)

/-- The symbol at index `idx` is resolved: the low 32 bits of its address,
which the relocators read as `S`, are not zero. -/
def RelocState.resolved (st : RelocState) (idx : Nat) : Prop :=
  ∃ sym, st.symtab[idx]? = some sym ∧ sym.address % 4294967296 ≠ 0

/-- A host with 64-bit pointers whose `find_sym` places `bar` at
`0x180400100` and `foo` at `0x100000000`: two addresses above 4 GiB, the
second one with a zero low word. -/
def exEnv64High : Env :=
  { exEnv64 with find_sym := fun n => if n = "bar" then 0x180400100 else
      if n = "foo" then 0x100000000 else 0 }

/-- The relocator state `exState64` with the symbol table `[foo]`. -/
def exState64Foo : RelocState := { exState64 with symtab := [exFoo] }

/-- The state in which a lookup that fails leaves a relocator:
`find_sym(context, name)` has been called, `missingSymbols` is set and
`setAddress` has stored null in the symbol at index `idx`. -/
def RelocState.afterFailedLookup (st : RelocState) (idx : Nat) (name : String) : RelocState :=
  { st with
    symtab := st.symtab.modify (fun y => { y with address := 0 }) idx
    missingSymbols := true
    trace := st.trace ++ [Event.findSym name, Event.setAddress idx 0] }

/-- Symbol `idx` can be resolved: if its address is still unresolved (zero low
32 bits), `find_sym` knows its name (non-zero low 32 bits of the value). -/
def Resolvable (env : Env) (st : RelocState) (idx : Nat) : Prop :=
  ∀ sym : ELFSymbol, st.symtab[idx]? = some sym → sym.address % 4294967296 = 0 →
    env.find_sym sym.name % 4294967296 ≠ 0

/-- The relation between a state and a later state of the same table in which
symbol `i` has kept its name and has either been left alone, with no call
`setAddress` on it, or gone from unresolved to resolved with exactly one call
`setAddress` on it. -/
def CachedOnce (i : Nat) (st st1 : RelocState) : Prop :=
  (st1.symtab[i]?).map (fun s => s.name) = (st.symtab[i]?).map (fun s => s.name) ∧
    ((st1.symtab[i]? = st.symtab[i]? ∧
        setAddressCount i st1.trace = setAddressCount i st.trace) ∨
      (¬ st.resolved i ∧ st1.resolved i ∧
        setAddressCount i st1.trace = setAddressCount i st.trace + 1))

/-- The calls of the block run for an unresolved symbol: between `st` and
`st1` either nothing has been called, or the symbol `idx`, unresolved in `st`,
has been looked up once and `setAddress` has stored a value `a` with the low
32 bits of the value of `find_sym`. -/
def OneLookup (env : Env) (idx : Nat) (st st1 : RelocState) : Prop :=
  (st1.symtab = st.symtab ∧ st1.trace = st.trace) ∨
  ∃ (sym : ELFSymbol) (a : Nat), st.symtab[idx]? = some sym ∧
    sym.address % 4294967296 = 0 ∧
    a % 4294967296 = env.find_sym sym.name % 4294967296 ∧
    st1.symtab = st.symtab.modify (fun s => { s with address := a }) idx ∧
    st1.trace = st.trace ++ [Event.findSym sym.name, Event.setAddress idx a]

/-- Whether an entry of `relocateMIPS`, in the state in which the loop reaches
it, sets the address of its symbol by itself, apart from the lookup of the
common setup: an `R_MIPS_HI16` entry on `_gp_disp`, which stores the value
computed from its own patch address, and an `R_MIPS_26` entry that branches to
a stub, that is one whose symbol has just been looked up (`need_stub`) or
whose symbol is not local and whose target lies outside the 256 MiB region of
`P + 4`. -/
def mipsSetsAddress (rel : ELFReloc) (st : RelocState) : Bool :=
  match st.symtab[rel.symTabIndex]? with
  | none => false
  | some sym =>
    let P := u32 (st.text.address + rel.offset)
    let A := shl32 (st.load rel.offset &&& 0x3FFFFFF) 2
    let S := u32 sym.getAddress
    decide ((rel.type = R_MIPS_HI16 ∧ sym.name = "_gp_disp") ∨
      (rel.type = R_MIPS_26 ∧
        ((S = 0 ∧ sym.name ≠ "_gp_disp") ∨
          (sym.binding ≠ STB_LOCAL ∧
            asr32 (add32 P 4) 28 ≠
              asr32 (add32 (if A &&& 0x08000000 ≠ 0 then A ||| 0xF0000000 else A) S) 28))))

/-- No entry on symbol `i` sets the address of the symbol by itself
(`mipsSetsAddress`) when the loop of `relocateMIPS` reaches it, as far as the
loop runs over the table. -/
def mipsKeepsAddress (env : Env) (i : Nat) : List ELFReloc → RelocState → Bool
  | [], _ => true
  | rel :: rest, st =>
    (!(decide (rel.symTabIndex = i) && mipsSetsAddress rel st)) &&
      match relocateMIPS_entry env rel rest st with
      | .ok st1 => mipsKeepsAddress env i rest st1
      | .error _ => true

/-- A relocator state with three symbols, `_gp_disp` and `foo`, both
unresolved, and the local function `loc`, resolved, over a text section at
`0x20000000` that holds `lui $1, 0`, `addiu $1, $1, 0`, a zero word and `jal`
with the 26-bit field `0x10`. -/
def exThreeSymbols : RelocState :=
  { symtab := [exGpDisp, exFoo, exLocal]
    text :=
      { address := 0x20000000
        buf := [0, 0, 0x01, 0x3C, 0, 0, 0x21, 0x24, 0, 0, 0, 0, 0x10, 0, 0, 0x0C]
        stubLayout := 1 }
    missingSymbols := false, got := [], trace := [] }

/-- The state `exThreeSymbols` with the symbol table `[bar, foo]`. -/
def exBarFoo : RelocState := { exThreeSymbols with symtab := [exBar, exFoo] }

/-- An entry of the given type at offset 8 against symbol 1. -/
def exRelocFoo (type : Nat) : ELFReloc :=
  { offset := 8, symTabIndex := 1, type := type, addend := 0 }

/-- An `R_MIPS_26` entry at offset 12 against symbol 2. -/
def exJalLoc : ELFReloc := { offset := 12, symTabIndex := 2, type := R_MIPS_26, addend := 0 }

/-- The state `exMipsJal0` (`jal 0`, symbol table `[foo]`) with a zero word
after the instruction. -/
def exMipsJalData : RelocState :=
  { exMipsJal0 with text := { exMipsJal0.text with buf := [0, 0, 0, 0x0C, 0, 0, 0, 0] } }

/-- The state `exBarFoo` after the i386 table `[R_386_32 bar @0, R_386_32 foo
@8, R_386_PC32 foo @8]`. -/
def exBarFooDone : RelocState :=
  { exBarFoo with
    symtab := [exBar, { exFoo with address := 0x10000000 }]
    text := { exBarFoo.text with
      buf := [0, 0, 0x01, 0x3C, 0, 0, 0x21, 0x24, 0xF8, 0xFF, 0xFF, 0xFF, 0x10, 0, 0, 0x0C] }
    missingSymbols := true
    trace := [Event.findSym "bar", Event.setAddress 0 0, Event.findSym "foo",
      Event.setAddress 1 0x10000000] }

/-- The state `exThreeSymbols` after the MIPS table `[HI16 _gp_disp @0, LO16
_gp_disp @4, HI16 _gp_disp @0, 32 foo @8, LO16 foo @8, 26 loc @12]`. -/
def exThreeSymbolsDone : RelocState :=
  { exThreeSymbols with
    symtab := [{ exGpDisp with address := 0x10007FF0 },
      { exFoo with address := 0x10000000 }, exLocal]
    text := { exThreeSymbols.text with
      buf := [0, 0x20, 0x01, 0x3C, 0xF0, 0x7F, 0x21, 0x24, 0, 0, 0, 0x10, 0x50, 0, 0, 0x0C] }
    trace := [Event.setAddress 0 0x10007FF0, Event.setAddress 0 0x10007FF0,
      Event.findSym "foo", Event.setAddress 1 0x10000000] }

/-! ## Lemmas on section buffers -/

theorem byteAt_set (buf : List Nat) (j x i : Nat) :
    byteAt (buf.set j x) i = if j = i ∧ j < buf.length then x % 256 else byteAt buf i := by
  unfold byteAt
  rw [List.getD_eq_getElem?_getD, List.getD_eq_getElem?_getD, List.getElem?_set]
  by_cases h1 : j = i
  · subst h1
    by_cases h2 : j < buf.length
    · simp [h2]
    · have h3 : buf[j]? = none := List.getElem?_eq_none (by omega)
      simp [h2, h3]
  · simp [h1]

theorem length_write32 (buf : List Nat) (off v : Nat) :
    (write32 buf off v).length = buf.length := by
  simp [write32]

theorem byteAt_write32 (buf : List Nat) (off v i : Nat) (h : off + 4 ≤ buf.length) :
    byteAt (write32 buf off v) i =
      if i = off then v % 256 else if i = off + 1 then v / 256 % 256
      else if i = off + 2 then v / 65536 % 256
      else if i = off + 3 then v / 16777216 % 256 else byteAt buf i := by
  unfold write32
  simp only [byteAt_set, List.length_set]
  split_ifs <;> omega

theorem read32_lt (buf : List Nat) (off : Nat) : read32 buf off < 4294967296 := by
  unfold read32 byteAt; omega

theorem read32_write32 (buf : List Nat) (off v : Nat) (h : off + 4 ≤ buf.length) :
    read32 (write32 buf off v) off = v % 4294967296 := by
  unfold read32
  simp only [byteAt_write32 _ _ _ _ h]
  simp
  omega

theorem load_lt (st : RelocState) (off : Nat) : st.load off < 4294967296 :=
  read32_lt _ _

theorem load_store (st : RelocState) (off v : Nat) (h : st.inBounds off) :
    (st.store off v).load off = v % 4294967296 :=
  read32_write32 _ _ _ h

theorem inBounds_store (st : RelocState) (off v off2 : Nat) :
    (st.store off v).inBounds off2 ↔ st.inBounds off2 := by
  simp [RelocState.inBounds, RelocState.store, length_write32]

theorem text_setAddress (st : RelocState) (idx addr : Nat) :
    (st.setAddress idx addr).text = st.text := rfl

theorem text_markMissing (st : RelocState) (c : Bool) : (st.markMissing c).text = st.text := by
  unfold RelocState.markMissing; split <;> rfl

theorem text_findSym (env : Env) (st : RelocState) (name : String) :
    (st.findSym env name).2.text = st.text := rfl

theorem text_resolveSymbol (env : Env) (st : RelocState) (idx : Nat) (name : String) :
    (resolveSymbol env st idx name).2.text = st.text := by
  simp [resolveSymbol, text_setAddress, text_markMissing, text_findSym]

theorem fst_resolveSymbol (env : Env) (st : RelocState) (idx : Nat) (name : String) :
    (resolveSymbol env st idx name).1 = env.find_sym name % 4294967296 := rfl

theorem load_eq_of_text (st1 st2 : RelocState) (h : st1.text = st2.text) (off : Nat) :
    st1.load off = st2.load off := by
  unfold RelocState.load; rw [h]

theorem inBounds_of_text (st1 st2 : RelocState) (h : st1.text = st2.text) (off : Nat) :
    st1.inBounds off ↔ st2.inBounds off := by
  unfold RelocState.inBounds; rw [h]

/-- What the common setup of `relocateMIPS` returns: the text and the GOT are
left alone, and `S` is the cached low word, or the low word of the value of
`find_sym` when the cached one is zero and the symbol is not `_gp_disp`. -/
theorem mipsSetup_spec (env : Env) (rel : ELFReloc) (sym : ELFSymbol) (st : RelocState) :
    (mipsSetup env rel sym st).2.2.text = st.text ∧
    (mipsSetup env rel sym st).2.2.got = st.got ∧
    (mipsSetup env rel sym st).2.1 =
      (if sym.address % 2 ^ 32 = 0 ∧ sym.name ≠ "_gp_disp"
        then env.find_sym sym.name % 2 ^ 32 else sym.address % 2 ^ 32) := by
  unfold mipsSetup
  by_cases h0 : sym.address % 2 ^ 32 = 0 ∧ sym.name ≠ "_gp_disp"
  · have h3 : (u32 sym.getAddress = 0 ∧ sym.name ≠ "_gp_disp") := h0
    simp only [h3, h0, and_self, if_true, ne_eq, not_false_eq_true]
    refine ⟨text_resolveSymbol _ _ _ _, ?_, rfl⟩
    simp [resolveSymbol, RelocState.setAddress, RelocState.markMissing, RelocState.findSym]
    split <;> rfl
  · have h3 : ¬ (u32 sym.getAddress = 0 ∧ sym.name ≠ "_gp_disp") := h0
    simp only [h3, h0, if_false]
    simp [u32, ELFSymbol.getAddress]

/-! ## Absolute and PC-relative relocations -/

/-- C1: absolute relocations. For an entry of type `R_386_32`, `R_ARM_ABS32`
or `R_MIPS_32` whose word lies inside the text buffer, the loop body returns
normally and the word at the entry's offset is then `(S + A) mod 2^32`, where
`A` is the word stored there before and `S` is the low 32 bits of the symbol
address used for the entry: the cached address, or the value returned by
`find_sym` when the relocator resolves the symbol (i386: the cached low word
is zero; MIPS: the cached low word is zero and the name is not `_gp_disp`;
`R_ARM_ABS32` never resolves). -/
theorem absolute_relocation_word (env : Env) (rel : ELFReloc) (rest : List ELFReloc)
    (st : RelocState) (sym : ELFSymbol) (hsym : st.symtab[rel.symTabIndex]? = some sym)
    (hin : st.inBounds rel.offset) :
    (rel.type = R_386_32 →
      ∃ st1, relocateX86_32_entry env rel st = .ok st1 ∧
        st1.load rel.offset =
          ((if sym.address % 2 ^ 32 = 0 then env.find_sym sym.name % 2 ^ 32
            else sym.address % 2 ^ 32) + st.load rel.offset) % 2 ^ 32) ∧
    (rel.type = R_ARM_ABS32 →
      ∃ st1, relocateARM_entry env rel st = .ok st1 ∧
        st1.load rel.offset = (sym.address % 2 ^ 32 + st.load rel.offset) % 2 ^ 32) ∧
    (rel.type = R_MIPS_32 →
      ∃ st1, relocateMIPS_entry env rel rest st = .ok st1 ∧
        st1.load rel.offset =
          ((if sym.address % 2 ^ 32 = 0 ∧ sym.name ≠ "_gp_disp"
            then env.find_sym sym.name % 2 ^ 32
            else sym.address % 2 ^ 32) + st.load rel.offset) % 2 ^ 32) := by
  refine ⟨?_, ?_, ?_⟩
  · intro ht
    have h12 : R_386_32 ≠ R_386_PC32 := by decide
    unfold relocateX86_32_entry
    simp only [hsym, hin, ht, if_true, h12, if_false]
    refine ⟨_, rfl, ?_⟩
    by_cases h0 : sym.address % 2 ^ 32 = 0
    · have h1 : u32 sym.getAddress = 0 := h0
      simp only [h1, h0, if_true]
      rw [load_store _ _ _ ((inBounds_of_text _ _ (text_resolveSymbol _ _ _ _) _).2 hin)]
      simp [add32, fst_resolveSymbol]
    · have h1 : ¬ u32 sym.getAddress = 0 := h0
      simp only [h1, h0, if_false]
      rw [load_store _ _ _ hin]
      simp [add32, u32, ELFSymbol.getAddress]
  · intro ht
    unfold relocateARM_entry
    simp only [hsym, hin, ht, if_true]
    refine ⟨_, rfl, ?_⟩
    rw [load_store _ _ _ hin]
    simp [add32, u32, ELFSymbol.getAddress]
  · intro ht
    have h1 : ¬ (R_MIPS_32 = R_MIPS_NONE ∨ R_MIPS_32 = R_MIPS_JALR) := by decide
    have h2 : R_MIPS_32 ≠ R_MIPS_16 := by decide
    obtain ⟨htext, _, hS⟩ := mipsSetup_spec env rel sym st
    unfold relocateMIPS_entry
    simp only [hsym, hin, ht, if_true, h1, h2, if_false]
    refine ⟨_, rfl, ?_⟩
    rw [load_store _ _ _ ((inBounds_of_text _ _ htext _).2 hin), hS]
    simp [add32]

/-- Witness of C1: the word `0xDEADBEEF` patched against the unresolved symbol
`foo`, which `find_sym` places at `0x10000000`. -/
theorem absolute_relocation_word_witness :
    (∃ st1, relocateX86_32_entry exEnv (exReloc R_386_32) exState = .ok st1 ∧
      st1.load 0 = 0xEEADBEEF) ∧
    (∃ st1, relocateARM_entry exEnv (exReloc R_ARM_ABS32) exState = .ok st1 ∧
      st1.load 0 = 0xDEADBEEF) ∧
    (∃ st1, relocateMIPS_entry exEnv (exReloc R_MIPS_32) [] exState = .ok st1 ∧
      st1.load 0 = 0xEEADBEEF) := by
  refine ⟨?_, ?_, ?_⟩
  · obtain ⟨s, h1, h2⟩ := (absolute_relocation_word exEnv (exReloc R_386_32) [] exState exFoo
      (by decide) (by decide)).1 rfl
    exact ⟨s, h1, h2.trans (by decide)⟩
  · obtain ⟨s, h1, h2⟩ := (absolute_relocation_word exEnv (exReloc R_ARM_ABS32) [] exState exFoo
      (by decide) (by decide)).2.1 rfl
    exact ⟨s, h1, h2.trans (by decide)⟩
  · obtain ⟨s, h1, h2⟩ := (absolute_relocation_word exEnv (exReloc R_MIPS_32) [] exState exFoo
      (by decide) (by decide)).2.2 rfl
    exact ⟨s, h1, h2.trans (by decide)⟩

/-- C2: PC-relative relocations. For an entry of type `R_386_PC32`, or of type
2 (`R_X86_64_PC32`) in `relocateX86_64`, whose word lies inside the text
buffer, the loop body returns normally and the word at the entry's offset is
then `(S + A - P) mod 2^32`, where `P` is the low 32 bits of the runtime
address of the word, `S` the low 32 bits of the resolved symbol address (the
cached one, or the value of `find_sym` when its low word is zero) and `A` the
original word (i386) or the addend of the RELA entry (x86-64). -/
theorem pc_relative_relocation_word (env : Env) (rel : ELFReloc) (st : RelocState)
    (sym : ELFSymbol) (hsym : st.symtab[rel.symTabIndex]? = some sym)
    (hin : st.inBounds rel.offset) :
    (rel.type = R_386_PC32 →
      ∃ st1, relocateX86_32_entry env rel st = .ok st1 ∧
        (st1.load rel.offset : Int) =
          (((if sym.address % 2 ^ 32 = 0 then env.find_sym sym.name % 2 ^ 32
             else sym.address % 2 ^ 32 : Nat) : Int) + (st.load rel.offset : Int)
            - (((st.text.address + rel.offset) % 2 ^ 32 : Nat) : Int)) % 2 ^ 32) ∧
    (rel.type = 2 →
      ∃ st1, relocateX86_64_entry env rel st = .ok st1 ∧
        (st1.load rel.offset : Int) =
          (((if sym.address % 2 ^ 32 = 0 then env.find_sym sym.name % 2 ^ 32
             else sym.address % 2 ^ 32 : Nat) : Int) + rel.addend
            - (((st.text.address + rel.offset) % 2 ^ 32 : Nat) : Int)) % 2 ^ 32) := by
  refine ⟨?_, ?_⟩
  · intro ht
    unfold relocateX86_32_entry
    simp only [hsym, hin, ht, if_true]
    refine ⟨_, rfl, ?_⟩
    by_cases h0 : sym.address % 2 ^ 32 = 0
    · have h1 : u32 sym.getAddress = 0 := h0
      simp only [h1, h0, if_true]
      rw [load_store _ _ _ ((inBounds_of_text _ _ (text_resolveSymbol _ _ _ _) _).2 hin),
        fst_resolveSymbol]
      simp only [sub32, add32, u32]
      omega
    · have h1 : ¬ u32 sym.getAddress = 0 := h0
      simp only [h1, h0, if_false]
      rw [load_store _ _ _ hin]
      simp only [sub32, add32, u32, ELFSymbol.getAddress]
      omega
  · intro ht
    have h21 : (2 : Nat) ≠ 1 := by decide
    unfold relocateX86_64_entry
    simp only [hsym, ht, if_true, h21, if_false]
    by_cases h0 : sym.address % 2 ^ 32 = 0
    · have h1 : u32 sym.getAddress = 0 := h0
      have hin2 := (inBounds_of_text _ _
        (text_resolveSymbol env st rel.symTabIndex sym.name) rel.offset).2 hin
      simp only [h1, h0, if_true, RelocState.storeChecked, hin2]
      refine ⟨_, rfl, ?_⟩
      rw [load_store _ _ _ hin2, fst_resolveSymbol]
      simp only [sub32, add32, u32, ofInt32]
      omega
    · have h1 : ¬ u32 sym.getAddress = 0 := h0
      simp only [h1, h0, if_false, RelocState.storeChecked, hin, if_true]
      refine ⟨_, rfl, ?_⟩
      rw [load_store _ _ _ hin]
      simp only [sub32, add32, u32, ofInt32, ELFSymbol.getAddress]
      omega

/-- Witness of C2: with `S = 0x400100`, addend `-4` and `P = 0x400200` the
x86-64 word becomes `-0x104`; with `S = 0x10000000`, the word `0xDEADBEEF` and
`P = 0x20000000` the i386 word becomes `0xCEADBEEF`. -/
theorem pc_relative_relocation_word_witness :
    (∃ st1, relocateX86_32_entry exEnv (exReloc R_386_PC32) exState = .ok st1 ∧
      st1.load 0 = 0xCEADBEEF) ∧
    (∃ st1, relocateX86_64_entry exEnv64 (exReloc 2) exState64 = .ok st1 ∧
      toInt32 (st1.load 0) = -0x104) := by
  refine ⟨?_, ?_⟩
  · obtain ⟨s, h1, h2⟩ := (pc_relative_relocation_word exEnv (exReloc R_386_PC32) exState exFoo
      (by decide) (by decide)).1 rfl
    refine ⟨s, h1, ?_⟩
    have h3 : (s.load 0 : Int) = 0xCEADBEEF := h2.trans (by decide)
    exact_mod_cast h3
  · obtain ⟨s, h1, h2⟩ := (pc_relative_relocation_word exEnv64 (exReloc 2) exState64 exBar
      (by decide) (by decide)).2 rfl
    refine ⟨s, h1, ?_⟩
    have h3 : (s.load 0 : Int) = 0xFFFFFEFC := h2.trans (by decide)
    have h4 : s.load 0 = 0xFFFFFEFC := by exact_mod_cast h3
    rw [h4]
    decide

/-! ## Lemmas on bit fields -/

theorem and_field (x k n : Nat) :
    x &&& ((2 ^ n - 1) * 2 ^ k) = (x / 2 ^ k % 2 ^ n) * 2 ^ k := by
  apply Nat.eq_of_testBit_eq
  intro i
  rw [Nat.testBit_and, Nat.mul_comm (2 ^ n - 1), Nat.mul_comm _ (2 ^ k),
    Nat.testBit_mul_pow_two, Nat.testBit_mul_pow_two, Nat.testBit_two_pow_sub_one,
    Nat.testBit_mod_two_pow, ← Nat.shiftRight_eq_div_pow, Nat.testBit_shiftRight]
  by_cases h : i ≥ k
  · have : k + (i - k) = i := by omega
    simp [h, this, Bool.and_comm]
  · simp [h]

theorem or_field (a b k : Nat) (h : b < 2 ^ k) : (a * 2 ^ k) ||| b = a * 2 ^ k + b := by
  rw [Nat.mul_comm, ← Nat.mul_add_lt_is_or h]

theorem testBit_eq_false_of_lt (x k i : Nat) (h : x < 2 ^ k) (hi : k ≤ i) :
    x.testBit i = false :=
  Nat.testBit_lt_two_pow (Nat.lt_of_lt_of_le h (Nat.pow_le_pow_right (by decide) hi))

theorem testBit_two_pow_add (y k i : Nat) (h : y < 2 ^ k) :
    (2 ^ k + y).testBit i = (y.testBit i ^^ decide (k = i)) := by
  rcases Nat.lt_trichotomy i k with hlt | heq | hgt
  · rw [Nat.testBit_two_pow_add_gt hlt]
    have : ¬ k = i := by omega
    simp [this]
  · subst heq
    rw [Nat.testBit_two_pow_add_eq, testBit_eq_false_of_lt y i i h (Nat.le_refl _)]
    simp
  · have h1 : 2 ^ k + y < 2 ^ (k + 1) := by rw [Nat.pow_succ]; omega
    rw [testBit_eq_false_of_lt _ (k + 1) i h1 (by omega),
      testBit_eq_false_of_lt y k i h (by omega)]
    have : ¬ k = i := by omega
    simp [this]

theorem xor_top (x k : Nat) (h : x < 2 ^ (k + 1)) :
    x ^^^ 2 ^ k = if x < 2 ^ k then x + 2 ^ k else x - 2 ^ k := by
  apply Nat.eq_of_testBit_eq
  intro i
  rw [Nat.testBit_xor, Nat.testBit_two_pow]
  split
  · rename_i hlt
    rw [Nat.add_comm, testBit_two_pow_add _ _ _ hlt]
  · rename_i hge
    have h2 : 2 ^ (k + 1) = 2 * 2 ^ k := by rw [Nat.pow_succ]; omega
    have hy : x - 2 ^ k < 2 ^ k := by omega
    have hx : x = 2 ^ k + (x - 2 ^ k) := by omega
    conv_lhs => rw [hx]
    rw [testBit_two_pow_add _ _ _ hy]
    cases (x - 2 ^ k).testBit i <;> cases decide (k = i) <;> rfl

theorem and_FFFFFF (x : Nat) : x &&& 0xFFFFFF = x % 16777216 :=
  Nat.and_pow_two_sub_one_eq_mod x 24

theorem and_FFFF (x : Nat) : x &&& 0xFFFF = x % 65536 :=
  Nat.and_pow_two_sub_one_eq_mod x 16

theorem and_FF000000 (x : Nat) : x &&& 0xFF000000 = (x / 16777216 % 256) * 16777216 :=
  and_field x 24 8

theorem and_FFFF0000 (x : Nat) : x &&& 0xFFFF0000 = (x / 65536 % 65536) * 65536 :=
  and_field x 16 16

theorem SIGN_EXTEND_24 (x : Nat) :
    SIGN_EXTEND (x &&& 0xFFFFFF) 24 =
      ofInt32 (if x % 16777216 < 8388608 then (x % 16777216 : Nat)
        else (x % 16777216 : Nat) - 16777216) := by
  have hx : x % 16777216 < 2 ^ (23 + 1) := by
    have : (2 : Nat) ^ (23 + 1) = 16777216 := by norm_num
    omega
  have h1 := xor_top (x % 16777216) 23 hx
  have h2 : (2 : Nat) ^ 23 = 8388608 := by norm_num
  rw [h2] at h1
  have h3 : (1 : Nat) <<< (24 - 1) = 8388608 := by decide
  unfold SIGN_EXTEND
  rw [and_FFFFFF, h3, h1]
  unfold sub32 ofInt32
  split <;> omega

theorem asr32_two (x : Nat) : asr32 x 2 = ofInt32 (toInt32 x / 4) := by
  unfold asr32; norm_num

theorem arm_call_result (S P inst : Nat) :
    add32 (sub32 (asr32 S 2) (asr32 P 2)) (SIGN_EXTEND (inst &&& 0xFFFFFF) 24) =
      ((toInt32 S / 4 - toInt32 P / 4 +
        (if inst % 16777216 < 8388608 then ((inst % 16777216 : Nat) : Int)
          else ((inst % 16777216 : Nat) : Int) - 16777216)) % 4294967296).toNat := by
  rw [SIGN_EXTEND_24, asr32_two, asr32_two]
  unfold add32 sub32 ofInt32
  split <;> omega

theorem or_field_24 (a b : Nat) (h : b < 16777216) :
    (a * 16777216) ||| b = a * 16777216 + b :=
  or_field a b 24 h

theorem or_field_16 (a b : Nat) (h : b < 65536) : (a * 65536) ||| b = a * 65536 + b :=
  or_field a b 16 h

theorem arm_call_patch (result inst : Nat) (h : inst < 4294967296) :
    (result &&& 0x00FFFFFF) ||| (inst &&& 0xFF000000) =
      inst / 16777216 * 16777216 + result % 16777216 := by
  rw [Nat.lor_comm, and_FF000000, and_FFFFFF, or_field_24 _ _ (by omega)]
  omega
theorem armCallee_ok (env : Env) (rel : ELFReloc) (sym : ELFSymbol) (st : RelocState)
    (hty : (sym.type = STT_FUNC ∧ sym.address ≠ 0) ∨ sym.type = STT_NOTYPE) :
    ∃ st1, armCallee env rel sym st =
        .ok (if sym.address = 0 then env.find_sym sym.name else sym.address, st1) ∧
      st1.text = st.text := by
  unfold armCallee
  rcases hty with ⟨h1, h2⟩ | h1
  · have h3 : ¬ sym.getAddress = 0 := h2
    simp only [h1, h2, h3, if_true, if_false]
    exact ⟨st, rfl, rfl⟩
  · have h0 : STT_NOTYPE ≠ STT_FUNC := by decide
    by_cases h2 : sym.address = 0
    · have h3 : sym.getAddress = 0 := h2
      simp only [h1, h0, h2, h3, if_true, if_false]
      exact ⟨_, rfl, by simp [text_setAddress, text_markMissing, text_findSym]⟩
    · have h3 : ¬ sym.getAddress = 0 := h2
      simp only [h1, h0, h2, h3, if_true, if_false]
      exact ⟨st, rfl, rfl⟩

theorem arm_call_entry_eq (env : Env) (rel : ELFReloc) (st : RelocState) (sym : ELFSymbol)
    (hsym : st.symtab[rel.symTabIndex]? = some sym) (hin : st.inBounds rel.offset)
    (ht : rel.type = R_ARM_CALL)
    (hty : (sym.type = STT_FUNC ∧ sym.address ≠ 0) ∨ sym.type = STT_NOTYPE)
    (hlayout : st.text.stubLayout ≠ 0) (stub : Nat)
    (hstub : env.allocateStub st.text.stubLayout
      (if sym.address = 0 then env.find_sym sym.name else sym.address) = stub)
    (hnz : stub ≠ 0) :
    ∃ st1 : RelocState, st1.text = st.text ∧
      relocateARM_entry env rel st =
        if add32 (sub32 (asr32 (u32 stub) 2) (asr32 (u32 (st.text.address + rel.offset)) 2))
              (SIGN_EXTEND (st.load rel.offset &&& 0xFFFFFF) 24) > 0x007fffff ∧
            add32 (sub32 (asr32 (u32 stub) 2) (asr32 (u32 (st.text.address + rel.offset)) 2))
              (SIGN_EXTEND (st.load rel.offset &&& 0xFFFFFF) 24) < 0xff800000
        then .error Fault.stubTooFar
        else .ok (st1.store rel.offset
          ((add32 (sub32 (asr32 (u32 stub) 2) (asr32 (u32 (st.text.address + rel.offset)) 2))
              (SIGN_EXTEND (st.load rel.offset &&& 0xFFFFFF) 24) &&& 0x00FFFFFF) |||
            (st.load rel.offset &&& 0xFF000000))) := by
  obtain ⟨st1, hc, htext⟩ := armCallee_ok env rel sym st hty
  refine ⟨st1, htext, ?_⟩
  have h0 : R_ARM_CALL ≠ R_ARM_ABS32 := by decide
  unfold relocateARM_entry
  simp only [hsym, ht, h0, hin, if_true, if_false, hc, htext, hlayout, hstub, hnz,
    load_eq_of_text st1 st htext]

/-! ## `R_ARM_CALL` -/

/-- C4: `R_ARM_CALL`. For an entry whose word lies inside the text buffer,
whose symbol is `STT_FUNC` with a non-null address or `STT_NOTYPE`, and for
which the stub allocator returns the non-null `stub`: with `A` the
sign-extended low 24 bits of the original instruction, `S` and `P` the low 32
bits of the stub address and of the patch address read as `int32_t`, and
`result = (S >> 2) - (P >> 2) + A` in 32-bit arithmetic (`>>` is the shift of
the signed operands of the source), the loop body aborts if and only if
`0x007FFFFF < result < 0xFF800000` (with "Stub is still too far"), and
otherwise the patched instruction is
`(original & 0xFF000000) | (result & 0x00FFFFFF)`. -/
theorem arm_call_range_check (env : Env) (rel : ELFReloc) (st : RelocState) (sym : ELFSymbol)
    (hsym : st.symtab[rel.symTabIndex]? = some sym) (hin : st.inBounds rel.offset)
    (ht : rel.type = R_ARM_CALL)
    (hty : (sym.type = STT_FUNC ∧ sym.address ≠ 0) ∨ sym.type = STT_NOTYPE)
    (hlayout : st.text.stubLayout ≠ 0) (stub : Nat)
    (hstub : env.allocateStub st.text.stubLayout
      (if sym.address = 0 then env.find_sym sym.name else sym.address) = stub)
    (hnz : stub ≠ 0) :
    let inst := st.load rel.offset
    let A : Int := if inst % 16777216 < 8388608 then ((inst % 16777216 : Nat) : Int)
      else ((inst % 16777216 : Nat) : Int) - 16777216
    let S : Int := toInt32 (stub % 4294967296)
    let P : Int := toInt32 ((st.text.address + rel.offset) % 4294967296)
    let result : Nat := ((S / 4 - P / 4 + A) % 4294967296).toNat
    ((∃ f, relocateARM_entry env rel st = .error f) ↔
      (0x007FFFFF < result ∧ result < 0xFF800000)) ∧
    ((0x007FFFFF < result ∧ result < 0xFF800000) →
      relocateARM_entry env rel st = .error Fault.stubTooFar) ∧
    (¬ (0x007FFFFF < result ∧ result < 0xFF800000) →
      ∃ st1, relocateARM_entry env rel st = .ok st1 ∧
        st1.load rel.offset = (inst &&& 0xFF000000) ||| (result &&& 0x00FFFFFF)) := by
  intro inst A S P result
  obtain ⟨st1, htext, heq⟩ := arm_call_entry_eq env rel st sym hsym hin ht hty hlayout stub hstub hnz
  have hres : add32 (sub32 (asr32 (u32 stub) 2) (asr32 (u32 (st.text.address + rel.offset)) 2))
      (SIGN_EXTEND (st.load rel.offset &&& 0xFFFFFF) 24) = result := arm_call_result _ _ _
  rw [hres] at heq
  have hin1 : st1.inBounds rel.offset := (inBounds_of_text st1 st htext _).2 hin
  by_cases hc : 0x007FFFFF < result ∧ result < 0xFF800000
  · have hc2 : result > 0x007fffff ∧ result < 0xff800000 := hc
    rw [if_pos hc2] at heq
    refine ⟨⟨fun _ => hc, fun _ => ⟨_, heq⟩⟩, fun _ => heq, fun h => absurd hc h⟩
  · have hc2 : ¬ (result > 0x007fffff ∧ result < 0xff800000) := hc
    rw [if_neg hc2] at heq
    refine ⟨⟨fun ⟨f, hf⟩ => ?_, fun h => absurd h hc⟩, fun h => absurd h hc, fun _ => ⟨_, heq, ?_⟩⟩
    · rw [heq] at hf; cases hf
    · rw [load_store _ _ _ hin1, Nat.lor_comm (inst &&& 0xFF000000)]
      have hlt := load_lt st rel.offset
      have hp := arm_call_patch result (st.load rel.offset) hlt
      show ((result &&& 0x00FFFFFF) ||| (st.load rel.offset &&& 0xFF000000)) % 4294967296 = _
      rw [hp]
      omega

/-- Witness of C4: against `foo`, resolved to `0x10000000` and 256 MiB below
the patch address, the body aborts; against `fn`, 4 KiB above it, the
instruction `0xEBFFFFFE` becomes `0xEB0003FE`. -/
theorem arm_call_range_check_witness :
    relocateARM_entry exEnv (exReloc R_ARM_CALL) exState = .error Fault.stubTooFar ∧
    (∃ st1, relocateARM_entry exEnv (exReloc R_ARM_CALL) exArmBL = .ok st1 ∧
      st1.load 0 = 0xEB0003FE) := by
  refine ⟨?_, ?_⟩
  · exact (arm_call_range_check exEnv (exReloc R_ARM_CALL) exState exFoo (by decide)
      (by decide) rfl (Or.inr rfl) (by decide) 0x10000000 (by decide) (by decide)).2.1
      (by decide)
  · obtain ⟨s, h1, h2⟩ := (arm_call_range_check exEnv (exReloc R_ARM_CALL) exArmBL exFn
      (by decide) (by decide) rfl (Or.inl (by decide)) (by decide) 0x20001000 (by decide)
      (by decide)).2.2 (by decide)
    exact ⟨s, h1, h2.trans (by decide)⟩

theorem arm_call_ok_inv (env : Env) (rel : ELFReloc) (st st1 : RelocState) (sym : ELFSymbol)
    (hsym : st.symtab[rel.symTabIndex]? = some sym) (ht : rel.type = R_ARM_CALL)
    (hok : relocateARM_entry env rel st = .ok st1) :
    st.inBounds rel.offset ∧
    ((sym.type = STT_FUNC ∧ sym.address ≠ 0) ∨ sym.type = STT_NOTYPE) ∧
    st.text.stubLayout ≠ 0 ∧
    env.allocateStub st.text.stubLayout
      (if sym.address = 0 then env.find_sym sym.name else sym.address) ≠ 0 := by
  have h0 : R_ARM_CALL ≠ R_ARM_ABS32 := by decide
  have hin : st.inBounds rel.offset := by
    by_contra hn
    unfold relocateARM_entry at hok
    simp only [hsym, ht, h0, hn, if_true, if_false] at hok
    cases hok
  have hty : (sym.type = STT_FUNC ∧ sym.address ≠ 0) ∨ sym.type = STT_NOTYPE := by
    by_contra hn
    have h1 : armCallee env rel sym st = .error Fault.noFunctionAddress ∨
        armCallee env rel sym st = .error Fault.wrongCallSymbolType := by
      unfold armCallee
      by_cases hf : sym.type = STT_FUNC
      · have h2 : sym.getAddress = 0 := by
          by_contra h3
          exact hn (Or.inl ⟨hf, h3⟩)
        simp [hf, h2]
      · have h2 : ¬ sym.type = STT_NOTYPE := fun h => hn (Or.inr h)
        simp [hf, h2]
    unfold relocateARM_entry at hok
    rcases h1 with h1 | h1 <;>
      · simp only [hsym, ht, h0, hin, if_true, if_false, h1] at hok
        cases hok
  obtain ⟨st2, hc, htext⟩ := armCallee_ok env rel sym st hty
  refine ⟨hin, hty, ?_, ?_⟩
  · intro hn
    unfold relocateARM_entry at hok
    simp only [hsym, ht, h0, hin, if_true, if_false, hc, htext, hn] at hok
    cases hok
  · intro hn
    by_cases hl : st.text.stubLayout = 0
    · unfold relocateARM_entry at hok
      simp only [hsym, ht, h0, hin, if_true, if_false, hc, htext, hl] at hok
      cases hok
    · unfold relocateARM_entry at hok
      simp only [hsym, ht, h0, hin, if_true, if_false, hc, htext, hl, hn] at hok
      cases hok
theorem toInt32_facts (x : Nat) :
    (toInt32 x - (x : Int)) % 4294967296 = 0 ∧ -2147483648 ≤ toInt32 x ∧
      toInt32 x < 2147483648 := by
  unfold toInt32
  split <;> omega

theorem toInt32_aligned (x : Nat) (h : x % 4 = 0) : toInt32 x = 4 * (toInt32 x / 4) := by
  unfold toInt32
  split <;> omega

theorem arm_target_arith (s p : Int) (S P a b A R r : Int)
    (hS : (S - s) % 4294967296 = 0) (hP : (P - p) % 4294967296 = 0)
    (hSa : S = 4 * a) (hPb : P = 4 * b)
    (hR : R = (a - b + A) % 4294967296)
    (hw : ¬ (8388607 < R ∧ R < 4286578688))
    (hr : r = if R % 16777216 < 8388608 then R % 16777216 else R % 16777216 - 16777216) :
    4 * r ≤ 33554428 ∧ -33554432 ≤ 4 * r ∧
      (p + 8 + 4 * r) % 4294967296 = (s + 8 + 4 * A) % 4294967296 := by
  have h1 : 0 ≤ R ∧ R < 4294967296 := by omega
  have h2 : r = R ∨ r = R - 4294967296 := by
    split_ifs at hr <;> omega
  have h3 : -8388608 ≤ r ∧ r ≤ 8388607 := by
    split_ifs at hr <;> omega
  have h4 : (r - (a - b + A)) % 4294967296 = 0 := by omega
  refine ⟨by omega, by omega, ?_⟩
  omega

/-- C5, the claim as stated fails: the instruction `BL` with immediate 0 at
`P = 0x20000000`, against the function `fn` at `0x20001000` whose stub is at
`0x20001000` too, is relocated without abort to `0xEB000400`; the branch
target of the patched instruction, `P + 8 + 4 * 0x400 = 0x20001008`, is
neither the callee nor the stub. -/
theorem arm_call_branch_target_counterexample :
    relocateARM_entry exEnv (exReloc R_ARM_CALL) exArmBL0 =
      .ok (exArmBL0.store 0 0xEB000400) ∧
    exEnv.allocateStub exArmBL0.text.stubLayout exFn.address = 0x20001000 ∧
    (0x20000000 + 8 + 4 * ((exArmBL0.store 0 0xEB000400).load 0 % 16777216)) % 4294967296
      = 0x20001008 ∧
    (0x20001008 : Nat) ≠ exFn.address ∧
    (0x20001008 : Nat) ≠ exEnv.allocateStub exArmBL0.text.stubLayout exFn.address := by
  decide

/-- C5, amended: for an `R_ARM_CALL` entry relocated without abort, with the
patch address `P` and the stub 4-byte aligned, let `A` be the sign-extended
low 24 bits of the original instruction and `d` four times the sign-extended
low 24 bits of the patched one. Then `-2^25 ≤ d ≤ 2^25 - 4` (the target
`P + 8 + d` is within 32 MiB of `P + 8`), the target equals
`stub + 8 + 4 * A` modulo `2^32`, and it is the stub itself when the original
immediate is `0xFFFFFE` (`A = -2`, an addend of -8 bytes). -/
theorem arm_call_branch_target (env : Env) (rel : ELFReloc) (st st1 : RelocState)
    (sym : ELFSymbol) (hsym : st.symtab[rel.symTabIndex]? = some sym)
    (ht : rel.type = R_ARM_CALL)
    (hok : relocateARM_entry env rel st = .ok st1)
    (stub : Nat)
    (hstub : env.allocateStub st.text.stubLayout
      (if sym.address = 0 then env.find_sym sym.name else sym.address) = stub)
    (hP : (st.text.address + rel.offset) % 4 = 0) (hS : stub % 4 = 0) :
    let P : Int := (((st.text.address + rel.offset) % 4294967296 : Nat) : Int)
    let A : Int := if st.load rel.offset % 16777216 < 8388608
      then ((st.load rel.offset % 16777216 : Nat) : Int)
      else ((st.load rel.offset % 16777216 : Nat) : Int) - 16777216
    let d : Int := 4 * (if st1.load rel.offset % 16777216 < 8388608
      then ((st1.load rel.offset % 16777216 : Nat) : Int)
      else ((st1.load rel.offset % 16777216 : Nat) : Int) - 16777216)
    d ≤ 33554428 ∧ -33554432 ≤ d ∧
    (P + 8 + d) % 4294967296 = ((stub : Int) + 8 + 4 * A) % 4294967296 ∧
    (st.load rel.offset % 16777216 = 0xFFFFFE →
      (P + 8 + d) % 4294967296 = ((stub % 4294967296 : Nat) : Int)) := by
  intro P A d
  obtain ⟨hin, hty, hlayout, hnz⟩ := arm_call_ok_inv env rel st st1 sym hsym ht hok
  rw [hstub] at hnz
  obtain ⟨_, h2, h3⟩ :=
    arm_call_range_check env rel st sym hsym hin ht hty hlayout stub hstub hnz
  have hSf := toInt32_facts (stub % 4294967296)
  have hPf := toInt32_facts ((st.text.address + rel.offset) % 4294967296)
  have hSa := toInt32_aligned (stub % 4294967296) (by omega)
  have hPa := toInt32_aligned ((st.text.address + rel.offset) % 4294967296) (by omega)
  by_cases hc : 0x007FFFFF < ((toInt32 (stub % 4294967296) / 4 -
      toInt32 ((st.text.address + rel.offset) % 4294967296) / 4 + A) % 4294967296).toNat ∧
      ((toInt32 (stub % 4294967296) / 4 -
      toInt32 ((st.text.address + rel.offset) % 4294967296) / 4 + A) % 4294967296).toNat
        < 0xFF800000
  · have := h2 hc
    rw [hok] at this
    cases this
  · obtain ⟨st2, h4, h5⟩ := h3 hc
    rw [hok] at h4
    cases h4
    have hlt := load_lt st rel.offset
    have hp := arm_call_patch ((toInt32 (stub % 4294967296) / 4 -
      toInt32 ((st.text.address + rel.offset) % 4294967296) / 4 + A) % 4294967296).toNat
      (st.load rel.offset) hlt
    rw [Nat.lor_comm] at h5
    have h6 := h5.trans hp
    clear h2 h3 h5 hp
    generalize hRdef : (toInt32 (stub % 4294967296) / 4 -
      toInt32 ((st.text.address + rel.offset) % 4294967296) / 4 + A) % 4294967296 = R
      at hc h6
    have hR0 : 0 ≤ R ∧ R < 4294967296 := by rw [← hRdef]; omega
    have hw1 : ((st1.load rel.offset % 16777216 : Nat) : Int) = R % 16777216 := by omega
    have hw : ¬ (8388607 < R ∧ R < 4286578688) := by omega
    obtain ⟨c1, c2, c3⟩ := arm_target_arith (stub : Int) P
      (toInt32 (stub % 4294967296))
      (toInt32 ((st.text.address + rel.offset) % 4294967296))
      (toInt32 (stub % 4294967296) / 4)
      (toInt32 ((st.text.address + rel.offset) % 4294967296) / 4) A R
      (if st1.load rel.offset % 16777216 < 8388608
        then ((st1.load rel.offset % 16777216 : Nat) : Int)
        else ((st1.load rel.offset % 16777216 : Nat) : Int) - 16777216)
      (by omega) hPf.1 hSa hPa hRdef.symm hw
      (by rw [← hw1]; split_ifs <;> first | rfl | omega)
    refine ⟨c1, c2, c3, fun hFE => ?_⟩
    rw [c3]
    have hA : A = -2 := by
      simp only [A, hFE]
      norm_num
    rw [hA]
    omega

/-- Witness of C5 (amended): the instruction `0xEBFFFFFE` at `0x20000000`
against `fn`, whose stub is at `0x20001000`, is patched to `0xEB0003FE`, whose
branch target is `0x20001000`. -/
theorem arm_call_branch_target_witness :
    relocateARM_entry exEnv (exReloc R_ARM_CALL) exArmBL =
      .ok (exArmBL.store 0 0xEB0003FE) ∧
    ((((exArmBL.text.address + (exReloc R_ARM_CALL).offset) % 4294967296 : Nat) : Int) + 8 +
      4 * (if (exArmBL.store 0 0xEB0003FE).load (exReloc R_ARM_CALL).offset % 16777216 < 8388608
        then (((exArmBL.store 0 0xEB0003FE).load (exReloc R_ARM_CALL).offset % 16777216 : Nat)
          : Int)
        else (((exArmBL.store 0 0xEB0003FE).load (exReloc R_ARM_CALL).offset % 16777216 : Nat)
          : Int) - 16777216)) % 4294967296 = ((0x20001000 % 4294967296 : Nat) : Int) := by
  have hok : relocateARM_entry exEnv (exReloc R_ARM_CALL) exArmBL =
      .ok (exArmBL.store 0 0xEB0003FE) := by decide
  exact ⟨hok, (arm_call_branch_target exEnv (exReloc R_ARM_CALL) exArmBL
    (exArmBL.store 0 0xEB0003FE) exFn (by decide) rfl hok 0x20001000 (by decide)
    (by decide) (by decide)).2.2.2 (by decide)⟩

/-! ## MIPS: patching the low halfword -/

theorem low16_patch_value (inst g : Nat) (h : inst < 4294967296) :
    ((inst &&& 0xFFFF0000) % 4294967296 ||| (g &&& 0xFFFF)) % 4294967296 =
      inst / 65536 * 65536 + g % 65536 := by
  rw [and_FFFF0000, and_FFFF]
  have h1 : inst / 65536 % 65536 * 65536 % 4294967296 = inst / 65536 * 65536 := by omega
  rw [h1, or_field_16 _ _ (by omega)]
  omega

/-- The two stores of the MIPS cases that patch a low halfword:
`*inst &= 0xFFFF0000` and later `*inst |= (g & 0xFFFF)`, possibly with calls
in between that leave the text alone. -/
theorem load_low16_patch (st st2 : RelocState) (off g : Nat) (hin : st.inBounds off)
    (h2 : st2.text = (st.store off (st.load off &&& 0xFFFF0000)).text) :
    (st2.store off (st2.load off ||| (g &&& 0xFFFF))).load off =
      st.load off / 65536 * 65536 + g % 65536 := by
  have hin1 : (st.store off (st.load off &&& 0xFFFF0000)).inBounds off :=
    (inBounds_store _ _ _ _).2 hin
  have hin2 : st2.inBounds off := (inBounds_of_text _ _ h2 _).2 hin1
  rw [load_store _ _ _ hin2, load_eq_of_text _ _ h2, load_store _ _ _ hin]
  exact low16_patch_value _ _ (load_lt _ _)

theorem got_offset_low16 (k gp : Nat) :
    ((sub32 (shl32 k 2) gp % 65536 : Nat) : Int) = (4 * (k : Int) - gp) % 65536 := by
  unfold sub32 shl32
  rw [Nat.shiftLeft_eq]
  omega

theorem mipsCaseGOT16_spec (env : Env) (rel : ELFReloc) (rest : List ELFReloc)
    (sym : ELFSymbol) (A S : Nat) (st : RelocState) (hin : st.inBounds rel.offset)
    (hS : S < 4294967296)
    (ht : rel.type = R_MIPS_CALL16 ∨ (rel.type = R_MIPS_GOT16 ∧ sym.binding ≠ STB_LOCAL)) :
    (A % 65536 ≠ 0 →
      mipsCaseGOT16 env rel rest sym A S st = .error Fault.call16AddendNotZero ∨
      mipsCaseGOT16 env rel rest sym A S st = .error Fault.got16AddendNotZero) ∧
    (A % 65536 = 0 →
      ∃ st1, mipsCaseGOT16 env rel rest sym A S st = .ok st1 ∧
        st1.load rel.offset = st.load rel.offset / 65536 * 65536 +
          sub32 (shl32 (env.search_got st.got rel.symTabIndex
            (ptrOfInt32 env.ptrBits S) sym.binding).1 2) env.GP_OFFSET % 65536) := by
  have hne : R_MIPS_CALL16 ≠ R_MIPS_GOT16 := by decide
  refine ⟨fun hA => ?_, fun hA => ?_⟩
  · have hA2 : ¬ (A &&& 0xFFFF = 0) := by rw [and_FFFF]; exact hA
    unfold mipsCaseGOT16
    rcases ht with ht | ⟨ht, hb⟩
    · left; simp only [ht, hne, if_false, hA2]
    · right; simp only [ht, hb, if_true, if_false, hA2]
  · have hA2 : A &&& 0xFFFF = 0 := by rw [and_FFFF]; exact hA
    have hadd : add32 S 0 = S := by unfold add32; omega
    have key : mipsCaseGOT16 env rel rest sym A S st =
        .ok (({ st.store rel.offset (st.load rel.offset &&& 0xFFFF0000) with
            got := (env.search_got st.got rel.symTabIndex
              (ptrOfInt32 env.ptrBits S) sym.binding).2 } : RelocState).store rel.offset
          (({ st.store rel.offset (st.load rel.offset &&& 0xFFFF0000) with
            got := (env.search_got st.got rel.symTabIndex
              (ptrOfInt32 env.ptrBits S) sym.binding).2 } : RelocState).load rel.offset |||
            (sub32 (shl32 (env.search_got st.got rel.symTabIndex
              (ptrOfInt32 env.ptrBits S) sym.binding).1 2) env.GP_OFFSET &&& 0xFFFF))) := by
      unfold mipsCaseGOT16
      rcases ht with ht | ⟨ht, hb⟩
      · simp only [ht, hne, if_false, hA2, if_true, hadd]
        rfl
      · simp only [ht, hb, if_true, if_false, hA2, hadd]
        rfl
    refine ⟨_, key, ?_⟩
    exact load_low16_patch st _ rel.offset _ hin rfl

/-- C6: `R_MIPS_CALL16`, and `R_MIPS_GOT16` on a symbol whose binding is not
`STB_LOCAL`. If the low 16 bits of the original instruction are not zero the
loop body aborts (with the assertion on the addend of its case); otherwise it
returns, the patched instruction keeps its upper 16 bits, and its low 16 bits
are `(4 * k - GP_OFFSET) mod 2^16`, `k` being the index returned by
`search_got(symbol index, (void *)S, binding)` on the current GOT, with `S`
the resolved low word of the symbol address. -/
theorem mips_call16_got16 (env : Env) (rel : ELFReloc) (rest : List ELFReloc)
    (st : RelocState) (sym : ELFSymbol) (hsym : st.symtab[rel.symTabIndex]? = some sym)
    (hin : st.inBounds rel.offset)
    (ht : rel.type = R_MIPS_CALL16 ∨ (rel.type = R_MIPS_GOT16 ∧ sym.binding ≠ STB_LOCAL)) :
    (st.load rel.offset % 65536 ≠ 0 →
      relocateMIPS_entry env rel rest st = .error Fault.call16AddendNotZero ∨
      relocateMIPS_entry env rel rest st = .error Fault.got16AddendNotZero) ∧
    (st.load rel.offset % 65536 = 0 →
      ∃ st1, relocateMIPS_entry env rel rest st = .ok st1 ∧
        st1.load rel.offset / 65536 = st.load rel.offset / 65536 ∧
        ((st1.load rel.offset % 65536 : Nat) : Int) =
          (4 * (((env.search_got st.got rel.symTabIndex
            (ptrOfInt32 env.ptrBits
              (if sym.address % 4294967296 = 0 ∧ sym.name ≠ "_gp_disp"
                then env.find_sym sym.name % 4294967296 else sym.address % 4294967296))
            sym.binding).1 : Nat) : Int) - (env.GP_OFFSET : Int)) % 65536) := by
  obtain ⟨htext, hgot, hS⟩ := mipsSetup_spec env rel sym st
  have h232 : (2 : Nat) ^ 32 = 4294967296 := by norm_num
  rw [h232] at hS
  have hSlt : (mipsSetup env rel sym st).2.1 < 4294967296 := by
    rw [hS]; split <;> omega
  have hin2 : (mipsSetup env rel sym st).2.2.inBounds rel.offset :=
    (inBounds_of_text _ _ htext _).2 hin
  have hload : (mipsSetup env rel sym st).2.2.load rel.offset = st.load rel.offset :=
    load_eq_of_text _ _ htext _
  have hentry : relocateMIPS_entry env rel rest st =
      mipsCaseGOT16 env rel rest sym (st.load rel.offset) (mipsSetup env rel sym st).2.1
        (mipsSetup env rel sym st).2.2 := by
    unfold relocateMIPS_entry
    rcases ht with ht | ⟨ht, _⟩
    · have d1 : ¬ (R_MIPS_CALL16 = R_MIPS_NONE ∨ R_MIPS_CALL16 = R_MIPS_JALR) := by decide
      have d2 : R_MIPS_CALL16 ≠ R_MIPS_16 := by decide
      have d3 : R_MIPS_CALL16 ≠ R_MIPS_32 := by decide
      have d4 : R_MIPS_CALL16 ≠ R_MIPS_26 := by decide
      have d5 : R_MIPS_CALL16 ≠ R_MIPS_HI16 := by decide
      have d6 : R_MIPS_CALL16 ≠ R_MIPS_LO16 := by decide
      simp only [hsym, hin, ht, if_true, if_false, d1, d2, d3, d4, d5, d6, or_true]
    · have d1 : ¬ (R_MIPS_GOT16 = R_MIPS_NONE ∨ R_MIPS_GOT16 = R_MIPS_JALR) := by decide
      have d2 : R_MIPS_GOT16 ≠ R_MIPS_16 := by decide
      have d3 : R_MIPS_GOT16 ≠ R_MIPS_32 := by decide
      have d4 : R_MIPS_GOT16 ≠ R_MIPS_26 := by decide
      have d5 : R_MIPS_GOT16 ≠ R_MIPS_HI16 := by decide
      have d6 : R_MIPS_GOT16 ≠ R_MIPS_LO16 := by decide
      simp only [hsym, hin, ht, if_true, if_false, d1, d2, d3, d4, d5, d6, true_or]
  obtain ⟨c1, c2⟩ := mipsCaseGOT16_spec env rel rest sym (st.load rel.offset)
    (mipsSetup env rel sym st).2.1 (mipsSetup env rel sym st).2.2 hin2 hSlt ht
  rw [hentry]
  refine ⟨c1, fun hz => ?_⟩
  obtain ⟨st1, h1, h2⟩ := c2 hz
  refine ⟨st1, h1, ?_, ?_⟩
  · rw [h2, hload]; omega
  · rw [h2, hload, hgot, hS, ← got_offset_low16]
    congr 1
    omega

/-- Witness of C6: `R_MIPS_CALL16` on `ext`, resolved to `0x800000`, with an
empty GOT and `GP_OFFSET = 0x7FF0`: slot 0, immediate `0x8010`; and on the word
`0xDEADBEEF`, whose low halfword is not zero, the body aborts. -/
theorem mips_call16_got16_witness :
    (∃ st1, relocateMIPS_entry exEnv (exReloc R_MIPS_CALL16) [] exMipsCall = .ok st1 ∧
      st1.load 0 / 65536 = 0x8F99 ∧ st1.load 0 % 65536 = 0x8010) ∧
    (relocateMIPS_entry exEnv (exReloc R_MIPS_CALL16) [] exState =
        .error Fault.call16AddendNotZero ∨
      relocateMIPS_entry exEnv (exReloc R_MIPS_CALL16) [] exState =
        .error Fault.got16AddendNotZero) := by
  refine ⟨?_, ?_⟩
  · obtain ⟨s, h1, h2, h3⟩ := (mips_call16_got16 exEnv (exReloc R_MIPS_CALL16) [] exMipsCall
      exExt (by decide) (by decide) (Or.inl rfl)).2 (by decide)
    refine ⟨s, h1, h2.trans (by decide), ?_⟩
    have h4 : ((s.load 0 % 65536 : Nat) : Int) = 0x8010 := h3.trans (by decide)
    exact_mod_cast h4
  · exact (mips_call16_got16 exEnv (exReloc R_MIPS_CALL16) [] exState exFoo (by decide)
      (by decide) (Or.inl rfl)).1 (by decide)

/-! ## The text buffer keeps its place and its size -/

theorem read32_write32_disjoint (buf : List Nat) (off off2 v : Nat)
    (h : off + 4 ≤ buf.length) (hd : off2 + 4 ≤ off ∨ off + 4 ≤ off2) :
    read32 (write32 buf off v) off2 = read32 buf off2 := by
  unfold read32
  simp only [byteAt_write32 _ _ _ _ h]
  have h0 : off2 ≠ off := by omega
  have h1 : off2 ≠ off + 1 := by omega
  have h2 : off2 ≠ off + 2 := by omega
  have h3 : off2 ≠ off + 3 := by omega
  have h4 : off2 + 1 ≠ off := by omega
  have h5 : off2 + 2 ≠ off := by omega
  have h6 : off2 + 3 ≠ off := by omega
  have h7 : off2 + 1 ≠ off + 2 := by omega
  have h8 : off2 + 1 ≠ off + 3 := by omega
  have h9 : off2 + 2 ≠ off + 1 := by omega
  have h10 : off2 + 2 ≠ off + 3 := by omega
  have h11 : off2 + 3 ≠ off + 1 := by omega
  have h12 : off2 + 3 ≠ off + 2 := by omega
  simp [*]

theorem load_store_disjoint (st : RelocState) (off off2 v : Nat) (h : st.inBounds off)
    (hd : off2 + 4 ≤ off ∨ off + 4 ≤ off2) :
    (st.store off v).load off2 = st.load off2 :=
  read32_write32_disjoint _ _ _ _ h hd

theorem SameFrame.refl (st : RelocState) : SameFrame st st := ⟨rfl, rfl, rfl⟩

theorem SameFrame.trans {a b c : RelocState} (h1 : SameFrame a b) (h2 : SameFrame b c) :
    SameFrame a c :=
  ⟨h2.1.trans h1.1, h2.2.1.trans h1.2.1, h2.2.2.trans h1.2.2⟩

theorem SameFrame.of_text {a b : RelocState} (h : b.text = a.text) : SameFrame a b := by
  unfold SameFrame; rw [h]; exact ⟨rfl, rfl, rfl⟩

theorem SameFrame.store (st : RelocState) (off v : Nat) : SameFrame st (st.store off v) :=
  ⟨rfl, length_write32 _ _ _, rfl⟩

theorem SameFrame.inBounds {a b : RelocState} (h : SameFrame a b) (off : Nat) :
    b.inBounds off ↔ a.inBounds off := by
  unfold RelocState.inBounds; rw [h.2.1]

theorem sameFrame_mipsSetup (env : Env) (rel : ELFReloc) (sym : ELFSymbol) (st : RelocState) :
    SameFrame st (mipsSetup env rel sym st).2.2 :=
  SameFrame.of_text (mipsSetup_spec env rel sym st).1

theorem sameFrame_mipsBranchToStub (env : Env) (rel : ELFReloc) (st st1 : RelocState)
    (P target : Nat) (h : mipsBranchToStub env rel st P target = .ok st1) :
    SameFrame st st1 := by
  simp only [mipsBranchToStub] at h
  split_ifs at h
  cases h
  exact (SameFrame.of_text (text_setAddress _ _ _)).trans (SameFrame.store _ _ _)

theorem sameFrame_mipsCase16 (rel : ELFReloc) (A S : Nat) (st st1 : RelocState)
    (h : mipsCase16 rel A S st = .ok st1) : SameFrame st st1 := by
  simp only [mipsCase16] at h
  split_ifs at h
  cases h
  exact (SameFrame.store _ _ _).trans (SameFrame.store _ _ _)

theorem sameFrame_mipsCase26 (env : Env) (rel : ELFReloc) (sym : ELFSymbol) (P A S : Nat)
    (need_stub : Bool) (st st1 : RelocState)
    (h : mipsCase26 env rel sym P A S need_stub st = .ok st1) : SameFrame st st1 := by
  simp only [mipsCase26] at h
  split_ifs at h
  all_goals first
    | (injection h with h
       subst h
       simp [SameFrame, RelocState.store, length_write32])
    | (have h2 := sameFrame_mipsBranchToStub _ _ _ _ _ _ h
       simpa [SameFrame, RelocState.store, length_write32] using h2)

theorem sameFrame_mipsCaseHI16 (env : Env) (rel : ELFReloc) (rest : List ELFReloc)
    (sym : ELFSymbol) (P A S : Nat) (st st1 : RelocState)
    (h : mipsCaseHI16 env rel rest sym P A S st = .ok st1) : SameFrame st st1 := by
  simp only [mipsCaseHI16] at h
  split at h
  · cases h
  · split_ifs at h
    · cases h
      exact (SameFrame.store _ _ _).trans
        ((SameFrame.of_text (text_setAddress _ _ _)).trans (SameFrame.store _ _ _))
    · cases h
      exact (SameFrame.store _ _ _).trans (SameFrame.store _ _ _)

theorem sameFrame_mipsCaseLO16 (rel : ELFReloc) (sym : ELFSymbol) (A S : Nat)
    (st st1 : RelocState) (h : mipsCaseLO16 rel sym A S st = .ok st1) : SameFrame st st1 := by
  simp only [mipsCaseLO16] at h
  cases h
  exact (SameFrame.store _ _ _).trans (SameFrame.store _ _ _)

theorem sameFrame_mipsCaseGOT16 (env : Env) (rel : ELFReloc) (rest : List ELFReloc)
    (sym : ELFSymbol) (A S : Nat) (st st1 : RelocState)
    (h : mipsCaseGOT16 env rel rest sym A S st = .ok st1) : SameFrame st st1 := by
  simp only [mipsCaseGOT16] at h
  split at h
  · cases h
  · cases h
    exact (SameFrame.store _ _ _).trans
      (SameFrame.trans (SameFrame.of_text rfl) (SameFrame.store _ _ _))

theorem sameFrame_relocateMIPS_entry (env : Env) (rel : ELFReloc) (rest : List ELFReloc)
    (st st1 : RelocState) (h : relocateMIPS_entry env rel rest st = .ok st1) :
    SameFrame st st1 := by
  unfold relocateMIPS_entry at h
  split at h
  · cases h
  · rename_i sym hsym
    have h0 := sameFrame_mipsSetup env rel sym st
    by_cases hin : st.inBounds rel.offset
    · simp only [hin, if_true] at h
      by_cases t1 : rel.type = R_MIPS_NONE ∨ rel.type = R_MIPS_JALR
      · rw [if_pos t1] at h; cases h; exact h0
      rw [if_neg t1] at h
      by_cases t2 : rel.type = R_MIPS_16
      · rw [if_pos t2] at h; exact h0.trans (sameFrame_mipsCase16 _ _ _ _ _ h)
      rw [if_neg t2] at h
      by_cases t3 : rel.type = R_MIPS_32
      · rw [if_pos t3] at h; cases h; exact h0.trans (SameFrame.store _ _ _)
      rw [if_neg t3] at h
      by_cases t4 : rel.type = R_MIPS_26
      · rw [if_pos t4] at h; exact h0.trans (sameFrame_mipsCase26 _ _ _ _ _ _ _ _ _ h)
      rw [if_neg t4] at h
      by_cases t5 : rel.type = R_MIPS_HI16
      · rw [if_pos t5] at h; exact h0.trans (sameFrame_mipsCaseHI16 _ _ _ _ _ _ _ _ _ h)
      rw [if_neg t5] at h
      by_cases t6 : rel.type = R_MIPS_LO16
      · rw [if_pos t6] at h; exact h0.trans (sameFrame_mipsCaseLO16 _ _ _ _ _ _ h)
      rw [if_neg t6] at h
      by_cases t7 : rel.type = R_MIPS_GOT16 ∨ rel.type = R_MIPS_CALL16
      · rw [if_pos t7] at h; exact h0.trans (sameFrame_mipsCaseGOT16 _ _ _ _ _ _ _ _ h)
      rw [if_neg t7] at h
      by_cases t8 : rel.type = R_MIPS_GPREL32
      · rw [if_pos t8] at h; cases h; exact h0.trans (SameFrame.store _ _ _)
      rw [if_neg t8] at h
      cases h
    · simp only [hin, if_false] at h
      cases h

theorem sameFrame_forEachRelocBefore
    (body : ELFReloc → List ELFReloc → RelocState → Except Fault RelocState)
    (hbody : ∀ rel rest st st1, body rel rest st = .ok st1 → SameFrame st st1)
    (mid post : List ELFReloc) (st st1 : RelocState)
    (h : forEachRelocBefore body mid post st = .ok st1) : SameFrame st st1 := by
  induction mid generalizing st with
  | nil =>
    unfold forEachRelocBefore at h
    cases h
    exact SameFrame.refl _
  | cons rel mid ih =>
    unfold forEachRelocBefore at h
    split at h
    · cases h
    · rename_i st2 h2
      exact (hbody _ _ _ _ h2).trans (ih _ h)

theorem forEachReloc_append
    (body : ELFReloc → List ELFReloc → RelocState → Except Fault RelocState)
    (mid post : List ELFReloc) (st : RelocState) :
    forEachReloc body (mid ++ post) st =
      match forEachRelocBefore body mid post st with
      | .error f => .error f
      | .ok st1 => forEachReloc body post st1 := by
  induction mid generalizing st with
  | nil => rfl
  | cons rel mid ih =>
    simp only [List.cons_append, forEachReloc, forEachRelocBefore]
    cases body rel (mid ++ post) st with
    | error f => rfl
    | ok st2 => exact ih st2
/-! ## The pair `R_MIPS_HI16` / `R_MIPS_LO16` -/

theorem findLO16_append (mid rest : List ELFReloc) (lo : ELFReloc) (idx : Nat)
    (hnear : ∀ r ∈ mid, ¬ (r.type = R_MIPS_LO16 ∧ r.symTabIndex = idx))
    (hlo : lo.type = R_MIPS_LO16) (hidx : lo.symTabIndex = idx) :
    findLO16 (mid ++ lo :: rest) idx = some lo := by
  induction mid with
  | nil => simp [findLO16, hlo, hidx]
  | cons r mid ih =>
    have h1 := hnear r (List.mem_cons_self _ _)
    have h2 : (r.type == R_MIPS_LO16 && r.symTabIndex == idx) = false := by
      simpa using h1
    have h3 := ih (fun x hx => hnear x (List.mem_cons_of_mem _ hx))
    unfold findLO16 at h3 ⊢
    rw [List.cons_append, List.find?_cons, h2]
    exact h3

theorem asr32_16 (x : Nat) : asr32 x 16 = ofInt32 (toInt32 x / 65536) := by
  unfold asr32; norm_num

theorem shl32_16 (x : Nat) : shl32 (x &&& 0xFFFF) 16 = x % 65536 * 65536 := by
  unfold shl32
  rw [and_FFFF, Nat.shiftLeft_eq]
  omega

theorem mipsEntry_HI16 (env : Env) (hi lo : ELFReloc) (tail : List ELFReloc)
    (st : RelocState) (sym : ELFSymbol) (hsym : st.symtab[hi.symTabIndex]? = some sym)
    (hin : st.inBounds hi.offset) (ht : hi.type = R_MIPS_HI16)
    (hname : sym.name ≠ "_gp_disp")
    (hfind : findLO16 tail hi.symTabIndex = some lo) (hinL : st.inBounds lo.offset)
    (hdisj : lo.offset + 4 ≤ hi.offset ∨ hi.offset + 4 ≤ lo.offset) :
    ∃ st1, relocateMIPS_entry env hi tail st = .ok st1 ∧
      st1.load hi.offset = st.load hi.offset / 65536 * 65536 +
        asr32 (add32 (add32
          (if sym.address % 4294967296 = 0 then env.find_sym sym.name % 4294967296
            else sym.address % 4294967296)
          (add32 (st.load hi.offset % 65536 * 65536) (short (st.load lo.offset % 65536))))
          0x8000) 16 % 65536 ∧
      st1.load lo.offset = st.load lo.offset := by
  obtain ⟨htext, _, hS⟩ := mipsSetup_spec env hi sym st
  have h232 : (2 : Nat) ^ 32 = 4294967296 := by norm_num
  rw [h232] at hS
  simp only [hname, ne_eq, not_false_eq_true, and_true] at hS
  have hfr := sameFrame_mipsSetup env hi sym st
  have hin2 : (mipsSetup env hi sym st).2.2.inBounds hi.offset := (hfr.inBounds _).2 hin
  have hinL2 : (mipsSetup env hi sym st).2.2.inBounds lo.offset := (hfr.inBounds _).2 hinL
  have hload : ∀ off, (mipsSetup env hi sym st).2.2.load off = st.load off :=
    fun off => load_eq_of_text _ _ htext _
  have d1 : ¬ (R_MIPS_HI16 = R_MIPS_NONE ∨ R_MIPS_HI16 = R_MIPS_JALR) := by decide
  have d2 : R_MIPS_HI16 ≠ R_MIPS_16 := by decide
  have d3 : R_MIPS_HI16 ≠ R_MIPS_32 := by decide
  have d4 : R_MIPS_HI16 ≠ R_MIPS_26 := by decide
  have hentry : relocateMIPS_entry env hi tail st =
      mipsCaseHI16 env hi tail sym (u32 (st.text.address + hi.offset)) (st.load hi.offset)
        (mipsSetup env hi sym st).2.1 (mipsSetup env hi sym st).2.2 := by
    unfold relocateMIPS_entry
    simp only [hsym, hin, ht, if_true, if_false, d1, d2, d3, d4]
  generalize (mipsSetup env hi sym st).2.1 = S at hS hentry
  generalize (mipsSetup env hi sym st).2.2 = st0 at hin2 hinL2 hload hentry
  have hinL3 : (st0.store hi.offset (st0.load hi.offset &&& 0xFFFF0000)).inBounds lo.offset :=
    (inBounds_store _ _ _ _).2 hinL2
  have hadd : addLO16 (st0.store hi.offset (st0.load hi.offset &&& 0xFFFF0000)) tail
      hi.symTabIndex (shl32 (st.load hi.offset &&& 0xFFFF) 16) =
      .ok (add32 (st.load hi.offset % 65536 * 65536) (short (st.load lo.offset % 65536))) := by
    unfold addLO16
    simp only [hfind, hinL3, if_true]
    rw [load_store_disjoint _ _ _ _ hin2 hdisj, hload, shl32_16, and_FFFF]
  have hcase : mipsCaseHI16 env hi tail sym (u32 (st.text.address + hi.offset))
      (st.load hi.offset) S st0 =
      .ok ((st0.store hi.offset (st0.load hi.offset &&& 0xFFFF0000)).store hi.offset
        ((st0.store hi.offset (st0.load hi.offset &&& 0xFFFF0000)).load hi.offset |||
          (asr32 (add32 (add32 S (add32 (st.load hi.offset % 65536 * 65536)
            (short (st.load lo.offset % 65536)))) 0x8000) 16 &&& 0xFFFF))) := by
    simp only [mipsCaseHI16, hadd, hname, if_false]
  refine ⟨_, hentry.trans hcase, ?_, ?_⟩
  · rw [load_low16_patch st0 _ hi.offset _ hin2 rfl, hload, hS]
  · rw [load_store_disjoint _ _ _ _ ((inBounds_store _ _ _ _).2 hin2) hdisj,
      load_store_disjoint _ _ _ _ hin2 hdisj, hload]
theorem mipsEntry_LO16 (env : Env) (lo : ELFReloc) (rest : List ELFReloc)
    (st : RelocState) (sym : ELFSymbol) (hsym : st.symtab[lo.symTabIndex]? = some sym)
    (hin : st.inBounds lo.offset) (ht : lo.type = R_MIPS_LO16)
    (hname : sym.name ≠ "_gp_disp") :
    ∃ st1, relocateMIPS_entry env lo rest st = .ok st1 ∧
      st1.load lo.offset = st.load lo.offset / 65536 * 65536 +
        add32 (if sym.address % 4294967296 = 0 then env.find_sym sym.name % 4294967296
            else sym.address % 4294967296) (st.load lo.offset % 65536) % 65536 ∧
      ∀ off2, (off2 + 4 ≤ lo.offset ∨ lo.offset + 4 ≤ off2) →
        st1.load off2 = st.load off2 := by
  obtain ⟨htext, _, hS⟩ := mipsSetup_spec env lo sym st
  have h232 : (2 : Nat) ^ 32 = 4294967296 := by norm_num
  rw [h232] at hS
  simp only [hname, ne_eq, not_false_eq_true, and_true] at hS
  have hfr := sameFrame_mipsSetup env lo sym st
  have hin2 : (mipsSetup env lo sym st).2.2.inBounds lo.offset := (hfr.inBounds _).2 hin
  have hload : ∀ off, (mipsSetup env lo sym st).2.2.load off = st.load off :=
    fun off => load_eq_of_text _ _ htext _
  have d1 : ¬ (R_MIPS_LO16 = R_MIPS_NONE ∨ R_MIPS_LO16 = R_MIPS_JALR) := by decide
  have d2 : R_MIPS_LO16 ≠ R_MIPS_16 := by decide
  have d3 : R_MIPS_LO16 ≠ R_MIPS_32 := by decide
  have d4 : R_MIPS_LO16 ≠ R_MIPS_26 := by decide
  have d5 : R_MIPS_LO16 ≠ R_MIPS_HI16 := by decide
  have hentry : relocateMIPS_entry env lo rest st =
      mipsCaseLO16 lo sym (st.load lo.offset)
        (mipsSetup env lo sym st).2.1 (mipsSetup env lo sym st).2.2 := by
    unfold relocateMIPS_entry
    simp only [hsym, hin, ht, if_true, if_false, d1, d2, d3, d4, d5]
  generalize (mipsSetup env lo sym st).2.1 = S at hS hentry
  generalize (mipsSetup env lo sym st).2.2 = st0 at hin2 hload hentry
  have hcase : mipsCaseLO16 lo sym (st.load lo.offset) S st0 =
      .ok ((st0.store lo.offset (st0.load lo.offset &&& 0xFFFF0000)).store lo.offset
        ((st0.store lo.offset (st0.load lo.offset &&& 0xFFFF0000)).load lo.offset |||
          (add32 S (st.load lo.offset &&& 0xFFFF) &&& 0xFFFF))) := by
    simp only [mipsCaseLO16, hname, if_false]
  refine ⟨_, hentry.trans hcase, ?_, fun off2 hd => ?_⟩
  · rw [load_low16_patch st0 _ lo.offset _ hin2 rfl, hload, hS, and_FFFF]
  · rw [load_store_disjoint _ _ _ _ ((inBounds_store _ _ _ _).2 hin2) hd,
      load_store_disjoint _ _ _ _ hin2 hd, hload]

theorem toInt32_short (a : Nat) :
    toInt32 (short a) =
      if a % 65536 < 32768 then ((a % 65536 : Nat) : Int) else ((a % 65536 : Nat) : Int) - 65536 := by
  unfold toInt32 short
  by_cases h : a % 65536 < 32768
  · simp only [h, if_true]
    split_ifs <;> omega
  · simp only [h, if_false]
    split_ifs <;> omega

theorem hi16_lo16_core (T X : Int) (hp lp : Nat)
    (hX : (X - (T + 32768)) % 4294967296 = 0)
    (hhp : (hp : Int) = (X / 65536) % 65536)
    (hlp : (lp : Int) = T % 65536) :
    ((hp : Int) * 65536 + (if lp < 32768 then (lp : Int) else (lp : Int) - 65536)) % 4294967296
      = T % 4294967296 := by
  split_ifs <;> omega

theorem hi16_lo16_arith (S h0 l0 hp lp : Nat)
    (hl : l0 < 65536)
    (hhp : hp = asr32 (add32 (add32 S (add32 (h0 * 65536) (short l0))) 0x8000) 16 % 65536)
    (hlp : lp = add32 S l0 % 65536) :
    (((hp * 65536 : Nat) : Int) + toInt32 (short lp)) % 4294967296 =
      ((S : Int) + (((h0 * 65536 : Nat) : Int) + toInt32 (short l0))) % 4294967296 := by
  rw [asr32_16] at hhp
  have hs0 := toInt32_facts (short l0)
  have hs1 := toInt32_short l0
  have hx1 := toInt32_facts (add32 (add32 S (add32 (h0 * 65536) (short l0))) 0x8000)
  have hx0 : (((add32 (add32 S (add32 (h0 * 65536) (short l0))) 0x8000 : Nat) : Int) -
      ((S : Int) + h0 * 65536 + (short l0 : Nat) + 32768)) % 4294967296 = 0 := by
    unfold add32
    generalize short l0 = s
    omega
  generalize add32 (add32 S (add32 (h0 * 65536) (short l0))) 0x8000 = x at hhp hx1 hx0
  generalize toInt32 x = X at hhp hx1
  have hlp_lt : lp < 65536 := by omega
  have hs2 := toInt32_short lp
  have hlpm : lp % 65536 = lp := by omega
  rw [hlpm] at hs2
  rw [hs2]
  have hl0m : l0 % 65536 = l0 := by omega
  rw [hl0m] at hs1
  generalize short l0 = s at hs0 hs1 hx0
  generalize toInt32 s = sl at hs0 hs1
  have hX : (X - (((S : Int) + h0 * 65536 + sl) + 32768)) % 4294967296 = 0 := by omega
  have hhp2 : (hp : Int) = (X / 65536) % 65536 := by
    unfold ofInt32 at hhp
    omega
  have hlp2 : (lp : Int) = ((S : Int) + h0 * 65536 + sl) % 65536 := by
    unfold add32 at hlp
    split_ifs at hs1 <;> omega
  have hc := hi16_lo16_core ((S : Int) + h0 * 65536 + sl) X hp lp hX hhp2 hlp2
  have e1 : (((hp * 65536 : Nat) : Int)) = (hp : Int) * 65536 := by push_cast; ring
  have e2 : (S : Int) + (((h0 * 65536 : Nat) : Int) + sl) = (S : Int) + h0 * 65536 + sl := by
    push_cast; ring
  rw [e1, e2]
  exact hc

theorem short_mod (a : Nat) : short (a % 65536) = short a := by
  unfold short
  rw [Nat.mod_mod]

/-- C3, the claim as stated fails. In the table `[HI16 var @0, R_MIPS_32 var
@4, LO16 var @4]` the `R_MIPS_HI16` entry is followed by its nearest
`R_MIPS_LO16` entry on the same symbol `var` (not `_gp_disp`, resolved to
`S = 0x12345678` throughout), the two patch sites 0 and 4 are distinct and
both immediates are 0; the entry in between patches the word of the LO16
entry, and the table ends with the halfwords `0x1234` and `0xACF0`, which
recombine to `0x1233ACF0`, not to `S`. In the table `[HI16 var @0, LO16 var
@1]` the two patch sites are distinct but their words overlap, and the
halfwords `0x8A34` and `0x578A` do not recombine to `S + 0x100` either. -/
theorem mips_hi16_lo16_pair_counterexample :
    ((forEachReloc (relocateMIPS_entry exEnv) [exHi, exMid32, exLo] exMipsPair).toOption.map
        (fun s => (s.load 0 % 65536, s.load 4 % 65536, s.symtab)) =
      some (0x1234, 0xACF0, [exVar]) ∧
      (exMipsPair.load 0 % 65536, exMipsPair.load 4 % 65536) = (0, 0) ∧
      (((0x1234 * 65536 : Nat) : Int) + toInt32 (short 0xACF0)) % 4294967296 ≠
        ((0x12345678 : Int) + (((0 * 65536 : Nat) : Int) + toInt32 (short 0))) % 4294967296) ∧
    ((forEachReloc (relocateMIPS_entry exEnv) [exHi, exLoOverlap] exMipsPair).toOption.map
        (fun s => (s.load 0 % 65536, s.load 1 % 65536, s.symtab)) =
      some (0x8A34, 0x578A, [exVar]) ∧
      (exMipsPair.load 0 % 65536, exMipsPair.load 1 % 65536) = (0, 0x100) ∧
      (((0x8A34 * 65536 : Nat) : Int) + toInt32 (short 0x578A)) % 4294967296 ≠
        ((0x12345678 : Int) + (((0 * 65536 : Nat) : Int) + toInt32 (short 0x100)))
          % 4294967296) := by
  decide

/-- C3, amended: in a table `... hi :: mid ++ lo :: rest`, let `hi` be an
`R_MIPS_HI16` entry and `lo` the nearest `R_MIPS_LO16` entry after it on the
same symbol (no entry of `mid` is one), the symbol not named `_gp_disp`, the
two instruction words inside the buffer and not overlapping, the entries of
`mid` processed without abort and leaving both instruction words as the
`hi` entry left them, and the symbol address used, `S`, the same for both
entries. Then the `lo` entry is processed without abort, and afterwards
`(patched_hi << 16) + sign_extend_16(patched_lo)` equals `S + A_combined`
modulo `2^32`, where `A_combined = (original_hi_imm << 16) +
sign_extend_16(original_lo_imm)`. -/
theorem mips_hi16_lo16_pair (env : Env) (hi lo : ELFReloc) (mid rest : List ELFReloc)
    (st0 st1 st2 : RelocState) (sym sym2 : ELFSymbol) (S : Nat)
    (hhi : hi.type = R_MIPS_HI16) (hlo : lo.type = R_MIPS_LO16)
    (hidx : lo.symTabIndex = hi.symTabIndex)
    (hnear : ∀ r ∈ mid, ¬ (r.type = R_MIPS_LO16 ∧ r.symTabIndex = hi.symTabIndex))
    (hsym : st0.symtab[hi.symTabIndex]? = some sym) (hname : sym.name ≠ "_gp_disp")
    (hinH : st0.inBounds hi.offset) (hinL : st0.inBounds lo.offset)
    (hdisj : lo.offset + 4 ≤ hi.offset ∨ hi.offset + 4 ≤ lo.offset)
    (hrunH : relocateMIPS_entry env hi (mid ++ lo :: rest) st0 = .ok st1)
    (hrunM : forEachRelocBefore (relocateMIPS_entry env) mid (lo :: rest) st1 = .ok st2)
    (hkeepH : st2.load hi.offset = st1.load hi.offset)
    (hkeepL : st2.load lo.offset = st1.load lo.offset)
    (hsym2 : st2.symtab[lo.symTabIndex]? = some sym2) (hname2 : sym2.name ≠ "_gp_disp")
    (hS : S = if sym.address % 4294967296 = 0 then env.find_sym sym.name % 4294967296
      else sym.address % 4294967296)
    (hS2 : S = if sym2.address % 4294967296 = 0 then env.find_sym sym2.name % 4294967296
      else sym2.address % 4294967296) :
    ∃ st3, relocateMIPS_entry env lo rest st2 = .ok st3 ∧
      (((st3.load hi.offset % 65536 * 65536 : Nat) : Int) +
          toInt32 (short (st3.load lo.offset))) % 4294967296 =
        ((S : Int) + (((st0.load hi.offset % 65536 * 65536 : Nat) : Int) +
          toInt32 (short (st0.load lo.offset)))) % 4294967296 := by
  obtain ⟨s1, e1, hH1, hL1⟩ := mipsEntry_HI16 env hi lo (mid ++ lo :: rest) st0 sym hsym hinH
    hhi hname (findLO16_append mid rest lo hi.symTabIndex hnear hlo hidx) hinL hdisj
  rw [hrunH] at e1
  injection e1 with e1
  subst e1
  have f1 := sameFrame_relocateMIPS_entry env hi (mid ++ lo :: rest) st0 st1 hrunH
  have f2 := sameFrame_forEachRelocBefore (relocateMIPS_entry env)
    (sameFrame_relocateMIPS_entry env) mid (lo :: rest) st1 st2 hrunM
  have hinL2 : st2.inBounds lo.offset := ((f1.trans f2).inBounds _).2 hinL
  obtain ⟨st3, e3, hL3, hfr3⟩ := mipsEntry_LO16 env lo rest st2 sym2 hsym2 hinL2 hlo hname2
  refine ⟨st3, e3, ?_⟩
  have hH3 : st3.load hi.offset = st1.load hi.offset := by
    rw [hfr3 hi.offset (by omega), hkeepH]
  rw [← hS] at hH1
  rw [← hS2, hkeepL, hL1] at hL3
  have ha := hi16_lo16_arith S (st0.load hi.offset % 65536) (st0.load lo.offset % 65536)
    (st3.load hi.offset % 65536) (st3.load lo.offset % 65536) (by omega)
    (by rw [hH3, hH1]; omega) (by rw [hL3]; omega)
  rw [short_mod, short_mod] at ha
  exact ha

/-- Witness of C3 (amended): `lui $1, 0` and `addiu $1, $1, 0` against `var`
at `0x12345678`, the LO16 entry right after the HI16 entry: the instructions
become `0x3C011234` and `0x24215678`. -/
theorem mips_hi16_lo16_pair_witness :
    (forEachReloc (relocateMIPS_entry exEnv) [exHi, exLo] exMipsPair).toOption.map
        (fun s => (s.load 0, s.load 4)) = some (0x3C011234, 0x24215678) ∧
    ∃ st3, relocateMIPS_entry exEnv exLo [] (exMipsPair.store 0 0x3C011234) = .ok st3 ∧
      (((st3.load exHi.offset % 65536 * 65536 : Nat) : Int) +
          toInt32 (short (st3.load exLo.offset))) % 4294967296 =
        (((0x12345678 : Nat) : Int) + (((exMipsPair.load exHi.offset % 65536 * 65536 : Nat) : Int) +
          toInt32 (short (exMipsPair.load exLo.offset)))) % 4294967296 :=
  ⟨by decide,
    mips_hi16_lo16_pair exEnv exHi exLo [] [] exMipsPair (exMipsPair.store 0 0x3C011234)
      (exMipsPair.store 0 0x3C011234) exVar exVar 0x12345678 rfl rfl rfl
      (fun _ h => absurd h (List.not_mem_nil _)) (by decide) (by decide) (by decide)
      (by decide) (by decide) (by decide) (by decide) rfl rfl (by decide) (by decide)
      (by decide) (by decide)⟩

/-! ## Unrecognized relocation types -/

theorem armCallee_ne_notImplemented (env : Env) (rel : ELFReloc) (sym : ELFSymbol)
    (st : RelocState) : armCallee env rel sym st ≠ .error Fault.notImplementedRelocType := by
  intro h
  simp only [armCallee] at h
  split_ifs at h <;> cases h

theorem arm_supported_ne_notImplemented (env : Env) (rel : ELFReloc) (st : RelocState)
    (ht : rel.type = R_ARM_ABS32 ∨ rel.type = R_ARM_CALL ∨ rel.type = R_ARM_MOVW_ABS_NC ∨
      rel.type = R_ARM_MOVT_ABS) :
    relocateARM_entry env rel st ≠ .error Fault.notImplementedRelocType := by
  intro h
  unfold relocateARM_entry at h
  split at h
  · cases h
  · rename_i sym hsym
    by_cases t1 : rel.type = R_ARM_ABS32
    · simp only [t1, if_true] at h
      split_ifs at h
      cases h
    by_cases t2 : rel.type = R_ARM_CALL
    · have d : R_ARM_CALL ≠ R_ARM_ABS32 := by decide
      simp only [t2, d, if_true, if_false] at h
      by_cases hin : st.inBounds rel.offset
      · simp only [hin, if_true] at h
        split at h
        · rename_i f hf
          injection h with h
          subst h
          exact armCallee_ne_notImplemented _ _ _ _ hf
        · split_ifs at h <;> cases h
      · simp only [hin, if_false] at h
        cases h
    have t3 : rel.type = R_ARM_MOVT_ABS ∨ rel.type = R_ARM_MOVW_ABS_NC := by
      rcases ht with h1 | h1 | h1 | h1
      · exact absurd h1 t1
      · exact absurd h1 t2
      · exact Or.inr h1
      · exact Or.inl h1
    simp only [t1, t2, t3, if_true, if_false] at h
    split_ifs at h <;> cases h

theorem arm_unsupported (env : Env) (rel : ELFReloc) (st : RelocState) (sym : ELFSymbol)
    (hsym : st.symtab[rel.symTabIndex]? = some sym)
    (ht : ¬ (rel.type = R_ARM_ABS32 ∨ rel.type = R_ARM_CALL ∨ rel.type = R_ARM_MOVW_ABS_NC ∨
      rel.type = R_ARM_MOVT_ABS)) :
    relocateARM_entry env rel st = .error Fault.notImplementedRelocType := by
  have t1 : ¬ rel.type = R_ARM_ABS32 := fun h => ht (Or.inl h)
  have t2 : ¬ rel.type = R_ARM_CALL := fun h => ht (Or.inr (Or.inl h))
  have t3 : ¬ (rel.type = R_ARM_MOVT_ABS ∨ rel.type = R_ARM_MOVW_ABS_NC) := by
    rintro (h | h)
    · exact ht (Or.inr (Or.inr (Or.inr h)))
    · exact ht (Or.inr (Or.inr (Or.inl h)))
  unfold relocateARM_entry
  simp only [hsym, t1, t2, t3, if_false]

theorem x86_64_supported_ne_notImplemented (env : Env) (rel : ELFReloc) (st : RelocState)
    (ht : rel.type = 1 ∨ rel.type = 2 ∨ rel.type = 10 ∨ rel.type = 11) :
    relocateX86_64_entry env rel st ≠ .error Fault.notImplementedRelocType := by
  intro h
  unfold relocateX86_64_entry at h
  split at h
  · cases h
  · simp only [RelocState.storeChecked] at h
    by_cases t1 : rel.type = 1
    · rw [if_pos t1] at h
      split_ifs at h <;> cases h
    rw [if_neg t1] at h
    by_cases t2 : rel.type = 2
    · rw [if_pos t2] at h
      split_ifs at h <;> cases h
    rw [if_neg t2] at h
    have t3 : rel.type = 10 ∨ rel.type = 11 := by
      rcases ht with t | t | t | t
      · exact absurd t t1
      · exact absurd t t2
      · exact Or.inl t
      · exact Or.inr t
    rw [if_pos t3] at h
    split_ifs at h <;> cases h

theorem x86_64_unsupported (env : Env) (rel : ELFReloc) (st : RelocState) (sym : ELFSymbol)
    (hsym : st.symtab[rel.symTabIndex]? = some sym)
    (ht : ¬ (rel.type = 1 ∨ rel.type = 2 ∨ rel.type = 10 ∨ rel.type = 11)) :
    relocateX86_64_entry env rel st = .error Fault.notImplementedRelocType := by
  have t1 : ¬ rel.type = 1 := fun h => ht (Or.inl h)
  have t2 : ¬ rel.type = 2 := fun h => ht (Or.inr (Or.inl h))
  have t3 : ¬ (rel.type = 10 ∨ rel.type = 11) := by
    rintro (h | h)
    · exact ht (Or.inr (Or.inr (Or.inl h)))
    · exact ht (Or.inr (Or.inr (Or.inr h)))
  unfold relocateX86_64_entry
  simp only [hsym, t1, t2, t3, if_false]

theorem x86_32_supported_ne_notImplemented (env : Env) (rel : ELFReloc) (st : RelocState)
    (ht : rel.type = R_386_PC32 ∨ rel.type = R_386_32) :
    relocateX86_32_entry env rel st ≠ .error Fault.notImplementedRelocType := by
  intro h
  unfold relocateX86_32_entry at h
  split at h
  · cases h
  · rcases ht with t | t <;> simp only [t] at h <;> split_ifs at h <;> cases h

theorem x86_32_unsupported (env : Env) (rel : ELFReloc) (st : RelocState) (sym : ELFSymbol)
    (hsym : st.symtab[rel.symTabIndex]? = some sym) (hin : st.inBounds rel.offset)
    (ht : ¬ (rel.type = R_386_PC32 ∨ rel.type = R_386_32)) :
    relocateX86_32_entry env rel st = .error Fault.notImplementedRelocType := by
  have t1 : ¬ rel.type = R_386_PC32 := fun h => ht (Or.inl h)
  have t2 : ¬ rel.type = R_386_32 := fun h => ht (Or.inr h)
  unfold relocateX86_32_entry
  simp only [hsym, hin, t1, t2, if_true, if_false]

theorem mipsBranchToStub_ne_notImplemented (env : Env) (rel : ELFReloc) (st : RelocState)
    (P target : Nat) :
    mipsBranchToStub env rel st P target ≠ .error Fault.notImplementedRelocType := by
  intro h
  simp only [mipsBranchToStub] at h
  split_ifs at h <;> cases h

theorem addLO16_ne_notImplemented (st : RelocState) (rest : List ELFReloc) (idx A : Nat) :
    addLO16 st rest idx A ≠ .error Fault.notImplementedRelocType := by
  intro h
  simp only [addLO16] at h
  split at h
  · cases h
  · split_ifs at h
    cases h

theorem mips_supported_ne_notImplemented (env : Env) (rel : ELFReloc) (rest : List ELFReloc)
    (st : RelocState)
    (ht : rel.type = R_MIPS_NONE ∨ rel.type = R_MIPS_JALR ∨ rel.type = R_MIPS_16 ∨
      rel.type = R_MIPS_32 ∨ rel.type = R_MIPS_26 ∨ rel.type = R_MIPS_HI16 ∨
      rel.type = R_MIPS_LO16 ∨ rel.type = R_MIPS_GOT16 ∨ rel.type = R_MIPS_CALL16 ∨
      rel.type = R_MIPS_GPREL32) :
    relocateMIPS_entry env rel rest st ≠ .error Fault.notImplementedRelocType := by
  intro h
  unfold relocateMIPS_entry at h
  split at h
  · cases h
  · by_cases hin : st.inBounds rel.offset
    · simp only [hin, if_true] at h
      by_cases t1 : rel.type = R_MIPS_NONE ∨ rel.type = R_MIPS_JALR
      · rw [if_pos t1] at h; cases h
      rw [if_neg t1] at h
      by_cases t2 : rel.type = R_MIPS_16
      · rw [if_pos t2] at h
        simp only [mipsCase16] at h
        split_ifs at h
        cases h
      rw [if_neg t2] at h
      by_cases t3 : rel.type = R_MIPS_32
      · rw [if_pos t3] at h; cases h
      rw [if_neg t3] at h
      by_cases t4 : rel.type = R_MIPS_26
      · rw [if_pos t4] at h
        simp only [mipsCase26] at h
        split_ifs at h
        all_goals first
          | cases h
          | exact mipsBranchToStub_ne_notImplemented _ _ _ _ _ h
      rw [if_neg t4] at h
      by_cases t5 : rel.type = R_MIPS_HI16
      · rw [if_pos t5] at h
        simp only [mipsCaseHI16] at h
        split at h
        · rename_i f hf
          injection h with h
          subst h
          exact addLO16_ne_notImplemented _ _ _ _ hf
        · cases h
      rw [if_neg t5] at h
      by_cases t6 : rel.type = R_MIPS_LO16
      · rw [if_pos t6] at h
        simp only [mipsCaseLO16] at h
        cases h
      rw [if_neg t6] at h
      by_cases t7 : rel.type = R_MIPS_GOT16 ∨ rel.type = R_MIPS_CALL16
      · rw [if_pos t7] at h
        simp only [mipsCaseGOT16] at h
        split at h
        · rename_i f hf
          injection h with h
          subst h
          split_ifs at hf
          · exact addLO16_ne_notImplemented _ _ _ _ hf
          all_goals cases hf
        · cases h
      rw [if_neg t7] at h
      by_cases t8 : rel.type = R_MIPS_GPREL32
      · rw [if_pos t8] at h; cases h
      rcases ht with t | t | t | t | t | t | t | t | t | t
      · exact t1 (Or.inl t)
      · exact t1 (Or.inr t)
      · exact t2 t
      · exact t3 t
      · exact t4 t
      · exact t5 t
      · exact t6 t
      · exact t7 (Or.inl t)
      · exact t7 (Or.inr t)
      · exact t8 t
    · simp only [hin, if_false] at h
      cases h

theorem mips_unsupported (env : Env) (rel : ELFReloc) (rest : List ELFReloc)
    (st : RelocState) (sym : ELFSymbol)
    (hsym : st.symtab[rel.symTabIndex]? = some sym) (hin : st.inBounds rel.offset)
    (ht : ¬ (rel.type = R_MIPS_NONE ∨ rel.type = R_MIPS_JALR ∨ rel.type = R_MIPS_16 ∨
      rel.type = R_MIPS_32 ∨ rel.type = R_MIPS_26 ∨ rel.type = R_MIPS_HI16 ∨
      rel.type = R_MIPS_LO16 ∨ rel.type = R_MIPS_GOT16 ∨ rel.type = R_MIPS_CALL16 ∨
      rel.type = R_MIPS_GPREL32)) :
    relocateMIPS_entry env rel rest st = .error Fault.notImplementedRelocType := by
  have t1 : ¬ (rel.type = R_MIPS_NONE ∨ rel.type = R_MIPS_JALR) := by
    rintro (h | h)
    · exact ht (Or.inl h)
    · exact ht (Or.inr (Or.inl h))
  have t2 : ¬ rel.type = R_MIPS_16 := fun h => ht (by simp [h])
  have t3 : ¬ rel.type = R_MIPS_32 := fun h => ht (by simp [h])
  have t4 : ¬ rel.type = R_MIPS_26 := fun h => ht (by simp [h])
  have t5 : ¬ rel.type = R_MIPS_HI16 := fun h => ht (by simp [h])
  have t6 : ¬ rel.type = R_MIPS_LO16 := fun h => ht (by simp [h])
  have t7 : ¬ (rel.type = R_MIPS_GOT16 ∨ rel.type = R_MIPS_CALL16) := by
    rintro (h | h)
    · exact ht (by simp [h])
    · exact ht (by simp [h])
  have t8 : ¬ rel.type = R_MIPS_GPREL32 := fun h => ht (by simp [h])
  unfold relocateMIPS_entry
  simp only [hsym, hin, t1, t2, t3, t4, t5, t6, t7, t8, if_true, if_false]

/-- C9: an unrecognized relocation type is fatal. In each of the four
relocators, an entry (with a symbol in the table and, where the loop body
reads the word before the switch, the word inside the buffer) whose type is
outside the supported set makes the loop body abort with "Not implemented
relocation type."; an entry whose type is in the set never triggers that
abort. -/
theorem unrecognized_type_fatal (env : Env) (rel : ELFReloc) (rest : List ELFReloc)
    (st : RelocState) (sym : ELFSymbol) (hsym : st.symtab[rel.symTabIndex]? = some sym) :
    ((¬ (rel.type = R_ARM_ABS32 ∨ rel.type = R_ARM_CALL ∨ rel.type = R_ARM_MOVW_ABS_NC ∨
          rel.type = R_ARM_MOVT_ABS) →
        relocateARM_entry env rel st = .error Fault.notImplementedRelocType) ∧
      ((rel.type = R_ARM_ABS32 ∨ rel.type = R_ARM_CALL ∨ rel.type = R_ARM_MOVW_ABS_NC ∨
          rel.type = R_ARM_MOVT_ABS) →
        relocateARM_entry env rel st ≠ .error Fault.notImplementedRelocType)) ∧
    ((¬ (rel.type = R_386_PC32 ∨ rel.type = R_386_32) → st.inBounds rel.offset →
        relocateX86_32_entry env rel st = .error Fault.notImplementedRelocType) ∧
      ((rel.type = R_386_PC32 ∨ rel.type = R_386_32) →
        relocateX86_32_entry env rel st ≠ .error Fault.notImplementedRelocType)) ∧
    ((¬ (rel.type = 1 ∨ rel.type = 2 ∨ rel.type = 10 ∨ rel.type = 11) →
        relocateX86_64_entry env rel st = .error Fault.notImplementedRelocType) ∧
      ((rel.type = 1 ∨ rel.type = 2 ∨ rel.type = 10 ∨ rel.type = 11) →
        relocateX86_64_entry env rel st ≠ .error Fault.notImplementedRelocType)) ∧
    ((¬ (rel.type = R_MIPS_NONE ∨ rel.type = R_MIPS_JALR ∨ rel.type = R_MIPS_16 ∨
          rel.type = R_MIPS_32 ∨ rel.type = R_MIPS_26 ∨ rel.type = R_MIPS_HI16 ∨
          rel.type = R_MIPS_LO16 ∨ rel.type = R_MIPS_GOT16 ∨ rel.type = R_MIPS_CALL16 ∨
          rel.type = R_MIPS_GPREL32) → st.inBounds rel.offset →
        relocateMIPS_entry env rel rest st = .error Fault.notImplementedRelocType) ∧
      ((rel.type = R_MIPS_NONE ∨ rel.type = R_MIPS_JALR ∨ rel.type = R_MIPS_16 ∨
          rel.type = R_MIPS_32 ∨ rel.type = R_MIPS_26 ∨ rel.type = R_MIPS_HI16 ∨
          rel.type = R_MIPS_LO16 ∨ rel.type = R_MIPS_GOT16 ∨ rel.type = R_MIPS_CALL16 ∨
          rel.type = R_MIPS_GPREL32) →
        relocateMIPS_entry env rel rest st ≠ .error Fault.notImplementedRelocType)) :=
  ⟨⟨arm_unsupported env rel st sym hsym, arm_supported_ne_notImplemented env rel st⟩,
   ⟨fun ht hin => x86_32_unsupported env rel st sym hsym hin ht,
    x86_32_supported_ne_notImplemented env rel st⟩,
   ⟨x86_64_unsupported env rel st sym hsym, x86_64_supported_ne_notImplemented env rel st⟩,
   ⟨fun ht hin => mips_unsupported env rel rest st sym hsym hin ht,
    mips_supported_ne_notImplemented env rel rest st⟩⟩

/-- Witness of C9: the type code 99, in no supported set, makes each of the
four loop bodies abort. -/
theorem unrecognized_type_fatal_witness :
    relocateARM_entry exEnv (exReloc 99) exState = .error Fault.notImplementedRelocType ∧
    relocateX86_32_entry exEnv (exReloc 99) exState = .error Fault.notImplementedRelocType ∧
    relocateX86_64_entry exEnv (exReloc 99) exState = .error Fault.notImplementedRelocType ∧
    relocateMIPS_entry exEnv (exReloc 99) [] exState = .error Fault.notImplementedRelocType :=
  ⟨(unrecognized_type_fatal exEnv (exReloc 99) [] exState exFoo (by decide)).1.1 (by decide),
   (unrecognized_type_fatal exEnv (exReloc 99) [] exState exFoo (by decide)).2.1.1 (by decide)
     (by decide),
   (unrecognized_type_fatal exEnv (exReloc 99) [] exState exFoo (by decide)).2.2.1.1
     (by decide),
   (unrecognized_type_fatal exEnv (exReloc 99) [] exState exFoo (by decide)).2.2.2.1
     (by decide) (by decide)⟩

/-! ## The driver `relocate` -/

/-- C8, the code at the failing input: with a common allocator that reports
failure for the requested 8 bytes, `relocate` on `exObj386` does not abort:
it goes on to apply the `R_386_32` entry (the word becomes `0xEEADBEEF`) and
to protect `.text`. -/
theorem common_allocation_failure_not_fatal :
    exEnvNoCommon.initSHNCommonDataSize 8 = false ∧
    (exObj386.relocate exEnvNoCommon).toOption.map (fun o => (o.trace, o.stab[1]?)) =
      some ([Event.initCommon 8, Event.findSym "foo", Event.setAddress 0 0x10000000,
             Event.protect 1],
            some (some (ELFSection.progBits
              { exText with buf := [0xEF, 0xBE, 0xAD, 0xEE, 0, 0, 0, 0] }))) := by
  decide

theorem missing_store (st : RelocState) (off v : Nat) :
    (st.store off v).missingSymbols = st.missingSymbols := rfl

theorem missing_setAddress (st : RelocState) (idx addr : Nat) :
    (st.setAddress idx addr).missingSymbols = st.missingSymbols := rfl

theorem missing_markMissing (st : RelocState) (c : Bool) :
    (st.markMissing c).missingSymbols = (c || st.missingSymbols) := by
  unfold RelocState.markMissing
  cases c <;> simp

theorem missing_resolveSymbol (env : Env) (st : RelocState) (idx : Nat) (name : String) :
    (resolveSymbol env st idx name).2.missingSymbols =
      (decide (env.find_sym name % 4294967296 = 0) || st.missingSymbols) := by
  simp only [resolveSymbol, missing_setAddress, missing_markMissing, RelocState.findSym, u32]
  rfl

theorem missing_mipsSetup (env : Env) (rel : ELFReloc) (sym : ELFSymbol) (st : RelocState) :
    (st.missingSymbols = true → (mipsSetup env rel sym st).2.2.missingSymbols = true) ∧
    (sym.address = 0 → sym.name ≠ "_gp_disp" → env.find_sym sym.name = 0 →
      (mipsSetup env rel sym st).2.2.missingSymbols = true) := by
  refine ⟨fun h => ?_, fun h1 h2 h3 => ?_⟩
  · by_cases hc : u32 sym.getAddress = 0 ∧ sym.name ≠ "_gp_disp"
    · simp only [mipsSetup, hc, and_self, if_true, ne_eq, not_false_eq_true]
      simp [missing_resolveSymbol, h]
    · simp only [mipsSetup, hc, if_false]
      exact h
  · have hc : u32 sym.getAddress = 0 ∧ sym.name ≠ "_gp_disp" := by
      simp [u32, ELFSymbol.getAddress, h1, h2]
    simp only [mipsSetup, hc, and_self, if_true, ne_eq, not_false_eq_true]
    simp [missing_resolveSymbol, h3]

theorem missing_mipsBranchToStub (env : Env) (rel : ELFReloc) (st st1 : RelocState)
    (P target : Nat) (h : mipsBranchToStub env rel st P target = .ok st1) :
    st1.missingSymbols = st.missingSymbols := by
  simp only [mipsBranchToStub] at h
  split_ifs at h
  cases h
  rfl

theorem missing_mipsCase16 (rel : ELFReloc) (A S : Nat) (st st1 : RelocState)
    (h : mipsCase16 rel A S st = .ok st1) : st1.missingSymbols = st.missingSymbols := by
  simp only [mipsCase16] at h
  split_ifs at h
  cases h
  rfl

theorem missing_mipsCase26 (env : Env) (rel : ELFReloc) (sym : ELFSymbol) (P A S : Nat)
    (need_stub : Bool) (st st1 : RelocState)
    (h : mipsCase26 env rel sym P A S need_stub st = .ok st1) :
    st1.missingSymbols = st.missingSymbols := by
  simp only [mipsCase26] at h
  split_ifs at h
  all_goals first
    | (injection h with h
       subst h
       simp [RelocState.store])
    | (have h2 := missing_mipsBranchToStub _ _ _ _ _ _ h
       simpa [RelocState.store] using h2)

theorem missing_mipsCaseHI16 (env : Env) (rel : ELFReloc) (rest : List ELFReloc)
    (sym : ELFSymbol) (P A S : Nat) (st st1 : RelocState)
    (h : mipsCaseHI16 env rel rest sym P A S st = .ok st1) :
    st1.missingSymbols = st.missingSymbols := by
  simp only [mipsCaseHI16] at h
  split at h
  · cases h
  · split_ifs at h
    · cases h
      rfl
    · cases h
      rfl

theorem missing_mipsCaseLO16 (rel : ELFReloc) (sym : ELFSymbol) (A S : Nat)
    (st st1 : RelocState) (h : mipsCaseLO16 rel sym A S st = .ok st1) :
    st1.missingSymbols = st.missingSymbols := by
  simp only [mipsCaseLO16] at h
  cases h
  rfl

theorem missing_mipsCaseGOT16 (env : Env) (rel : ELFReloc) (rest : List ELFReloc)
    (sym : ELFSymbol) (A S : Nat) (st st1 : RelocState)
    (h : mipsCaseGOT16 env rel rest sym A S st = .ok st1) :
    st1.missingSymbols = st.missingSymbols := by
  simp only [mipsCaseGOT16] at h
  split at h
  · cases h
  · cases h
    rfl

/-- What a successful pass through the loop body of `relocateMIPS` does to the
flag: the state after the common setup has the same flag as the final one. -/
theorem missing_relocateMIPS_entry (env : Env) (rel : ELFReloc) (rest : List ELFReloc)
    (st st1 : RelocState) (sym : ELFSymbol) (hsym : st.symtab[rel.symTabIndex]? = some sym)
    (h : relocateMIPS_entry env rel rest st = .ok st1) :
    st1.missingSymbols = (mipsSetup env rel sym st).2.2.missingSymbols := by
  unfold relocateMIPS_entry at h
  simp only [hsym] at h
  by_cases hin : st.inBounds rel.offset
  · simp only [hin, if_true] at h
    by_cases t1 : rel.type = R_MIPS_NONE ∨ rel.type = R_MIPS_JALR
    · rw [if_pos t1] at h; cases h; rfl
    rw [if_neg t1] at h
    by_cases t2 : rel.type = R_MIPS_16
    · rw [if_pos t2] at h; exact missing_mipsCase16 _ _ _ _ _ h
    rw [if_neg t2] at h
    by_cases t3 : rel.type = R_MIPS_32
    · rw [if_pos t3] at h; cases h; rfl
    rw [if_neg t3] at h
    by_cases t4 : rel.type = R_MIPS_26
    · rw [if_pos t4] at h; exact missing_mipsCase26 _ _ _ _ _ _ _ _ _ h
    rw [if_neg t4] at h
    by_cases t5 : rel.type = R_MIPS_HI16
    · rw [if_pos t5] at h; exact missing_mipsCaseHI16 _ _ _ _ _ _ _ _ _ h
    rw [if_neg t5] at h
    by_cases t6 : rel.type = R_MIPS_LO16
    · rw [if_pos t6] at h; exact missing_mipsCaseLO16 _ _ _ _ _ _ h
    rw [if_neg t6] at h
    by_cases t7 : rel.type = R_MIPS_GOT16 ∨ rel.type = R_MIPS_CALL16
    · rw [if_pos t7] at h; exact missing_mipsCaseGOT16 _ _ _ _ _ _ _ _ h
    rw [if_neg t7] at h
    by_cases t8 : rel.type = R_MIPS_GPREL32
    · rw [if_pos t8] at h; cases h; rfl
    rw [if_neg t8] at h
    cases h
  · simp only [hin, if_false] at h
    cases h
theorem missing_forEachReloc
    (body : ELFReloc → List ELFReloc → RelocState → Except Fault RelocState)
    (hmono : ∀ rel rest st st1, body rel rest st = .ok st1 → st.missingSymbols = true →
      st1.missingSymbols = true)
    (l : List ELFReloc) (st stF : RelocState) (h : forEachReloc body l st = .ok stF)
    (hst : st.missingSymbols = true) : stF.missingSymbols = true := by
  induction l generalizing st with
  | nil =>
    unfold forEachReloc at h
    cases h
    exact hst
  | cons rel rest ih =>
    unfold forEachReloc at h
    split at h
    · cases h
    · rename_i st1 h1
      exact ih st1 h (hmono _ _ _ _ h1 hst)

/-- An entry that returns with the flag set hands a set flag to the end of the
table, through the remaining entries. -/
theorem missing_table
    (body : ELFReloc → List ELFReloc → RelocState → Except Fault RelocState)
    (hmono : ∀ rel rest st st1, body rel rest st = .ok st1 → st.missingSymbols = true →
      st1.missingSymbols = true)
    (rel : ELFReloc) (post : List ELFReloc) (st : RelocState)
    (hset : ∀ st1, body rel post st = .ok st1 → st1.missingSymbols = true) :
    ∀ stF, forEachReloc body (rel :: post) st = .ok stF → stF.missingSymbols = true := by
  intro stF h
  unfold forEachReloc at h
  split at h
  · cases h
  · rename_i st1 h1
    exact missing_forEachReloc body hmono post st1 stF h (hset st1 h1)

theorem forEachReloc_cons_ok
    (body : ELFReloc → List ELFReloc → RelocState → Except Fault RelocState)
    (rel : ELFReloc) (post : List ELFReloc) (st st1 : RelocState)
    (h : body rel post st = .ok st1) :
    forEachReloc body (rel :: post) st = forEachReloc body post st1 := by
  simp only [forEachReloc, h]

theorem missing_mono_mips (env : Env) (rel : ELFReloc) (rest : List ELFReloc)
    (st st1 : RelocState) (h : relocateMIPS_entry env rel rest st = .ok st1)
    (hst : st.missingSymbols = true) : st1.missingSymbols = true := by
  cases hsym : st.symtab[rel.symTabIndex]? with
  | none =>
    unfold relocateMIPS_entry at h
    simp only [hsym] at h
    cases h
  | some sym =>
    rw [missing_relocateMIPS_entry env rel rest st st1 sym hsym h]
    exact (missing_mipsSetup env rel sym st).1 hst

theorem missing_x86_32 (env : Env) (rel : ELFReloc) (st st1 : RelocState) (sym : ELFSymbol)
    (hsym : st.symtab[rel.symTabIndex]? = some sym)
    (h : relocateX86_32_entry env rel st = .ok st1) :
    st1.missingSymbols =
      (if u32 sym.getAddress = 0 then resolveSymbol env st rel.symTabIndex sym.name
        else (u32 sym.getAddress, st)).2.missingSymbols := by
  unfold relocateX86_32_entry at h
  simp only [hsym] at h
  split_ifs at h <;> (cases h; simp [*, RelocState.store])

theorem missing_mono_x86_32 (env : Env) (rel : ELFReloc) (st st1 : RelocState)
    (h : relocateX86_32_entry env rel st = .ok st1)
    (hst : st.missingSymbols = true) : st1.missingSymbols = true := by
  cases hsym : st.symtab[rel.symTabIndex]? with
  | none =>
    unfold relocateX86_32_entry at h
    simp only [hsym] at h
    cases h
  | some sym =>
    rw [missing_x86_32 env rel st st1 sym hsym h]
    split
    · simp [missing_resolveSymbol, hst]
    · exact hst

theorem missing_x86_64 (env : Env) (rel : ELFReloc) (st st1 : RelocState) (sym : ELFSymbol)
    (hsym : st.symtab[rel.symTabIndex]? = some sym)
    (h : relocateX86_64_entry env rel st = .ok st1) :
    st1.missingSymbols =
      (if u32 sym.getAddress = 0 then resolveSymbol env st rel.symTabIndex sym.name
        else (u32 sym.getAddress, st)).2.missingSymbols := by
  unfold relocateX86_64_entry at h
  simp only [hsym, RelocState.storeChecked] at h
  split_ifs at h <;> (cases h; simp [*, RelocState.store])

theorem missing_mono_x86_64 (env : Env) (rel : ELFReloc) (st st1 : RelocState)
    (h : relocateX86_64_entry env rel st = .ok st1)
    (hst : st.missingSymbols = true) : st1.missingSymbols = true := by
  cases hsym : st.symtab[rel.symTabIndex]? with
  | none =>
    unfold relocateX86_64_entry at h
    simp only [hsym] at h
    cases h
  | some sym =>
    rw [missing_x86_64 env rel st st1 sym hsym h]
    split
    · simp [missing_resolveSymbol, hst]
    · exact hst
theorem missing_armCallee (env : Env) (rel : ELFReloc) (sym : ELFSymbol)
    (st st1 : RelocState) (c : Nat) (h : armCallee env rel sym st = .ok (c, st1)) :
    st1.text = st.text ∧
    (st.missingSymbols = true → st1.missingSymbols = true) ∧
    (sym.type = STT_NOTYPE → sym.address = 0 → env.find_sym sym.name = 0 →
      st1.missingSymbols = true) := by
  simp only [armCallee] at h
  have d : STT_NOTYPE ≠ STT_FUNC := by decide
  by_cases t1 : sym.type = STT_FUNC
  · simp only [t1, if_true] at h
    split_ifs at h
    injection h with h
    injection h with h1 h2
    subst h2
    refine ⟨rfl, fun hst => hst, fun h3 => ?_⟩
    rw [t1] at h3
    exact absurd h3.symm d
  · simp only [t1, if_false] at h
    by_cases t2 : sym.type = STT_NOTYPE
    · simp only [t2, if_true] at h
      by_cases ha : sym.getAddress = 0
      · simp only [ha, if_true] at h
        injection h with h
        injection h with h1 h2
        subst h2
        refine ⟨by simp [text_setAddress, text_markMissing, text_findSym],
          fun hst => ?_, fun _ _ h5 => ?_⟩
        · simp [missing_setAddress, missing_markMissing, RelocState.findSym, hst]
        · simp [missing_setAddress, missing_markMissing, RelocState.findSym, h5]
      · simp only [ha, if_false] at h
        injection h with h
        injection h with h1 h2
        subst h2
        exact ⟨rfl, fun hst => hst, fun _ h4 _ => absurd h4 ha⟩
    · simp only [t2, if_false] at h
      cases h

/-- What a successful pass through the `R_ARM_CALL` case does to the flag. -/
theorem missing_arm_call (env : Env) (rel : ELFReloc) (st st1 : RelocState) (sym : ELFSymbol)
    (hsym : st.symtab[rel.symTabIndex]? = some sym) (ht : rel.type = R_ARM_CALL)
    (h : relocateARM_entry env rel st = .ok st1) :
    (st.missingSymbols = true → st1.missingSymbols = true) ∧
    (sym.type = STT_NOTYPE → sym.address = 0 → env.find_sym sym.name = 0 →
      st1.missingSymbols = true) := by
  have d : R_ARM_CALL ≠ R_ARM_ABS32 := by decide
  unfold relocateARM_entry at h
  simp only [hsym, ht, d, if_true, if_false] at h
  by_cases hin : st.inBounds rel.offset
  · simp only [hin, if_true] at h
    split at h
    · cases h
    · rename_i c st2 hc
      obtain ⟨_, m1, m2⟩ := missing_armCallee env rel sym st st2 c hc
      split_ifs at h
      injection h with h
      subst h
      exact ⟨m1, m2⟩
  · simp only [hin, if_false] at h
    cases h

/-- What a successful pass through the `R_ARM_MOVW_ABS_NC` / `R_ARM_MOVT_ABS`
case does to the flag. -/
theorem missing_arm_movw (env : Env) (rel : ELFReloc) (st st1 : RelocState) (sym : ELFSymbol)
    (hsym : st.symtab[rel.symTabIndex]? = some sym)
    (ht : rel.type = R_ARM_MOVT_ABS ∨ rel.type = R_ARM_MOVW_ABS_NC)
    (h : relocateARM_entry env rel st = .ok st1) :
    (st.missingSymbols = true → st1.missingSymbols = true) ∧
    (sym.type = STT_NOTYPE → sym.address = 0 → env.find_sym sym.name = 0 →
      st1.missingSymbols = true) := by
  have d1 : rel.type ≠ R_ARM_ABS32 := by
    rcases ht with h | h <;> rw [h] <;> decide
  have d2 : rel.type ≠ R_ARM_CALL := by
    rcases ht with h | h <;> rw [h] <;> decide
  unfold relocateARM_entry at h
  simp only [hsym, d1, d2, ht, if_true, if_false] at h
  by_cases hc : u32 sym.getAddress = 0 ∧ sym.type = STT_NOTYPE
  · simp only [hc, and_self, if_true] at h
    split_ifs at h <;>
      (injection h with h
       subst h
       refine ⟨fun hst => ?_, fun _ _ h5 => ?_⟩
       · simp [RelocState.store, missing_setAddress, missing_markMissing,
           RelocState.findSym, hst]
       · simp [RelocState.store, missing_setAddress, missing_markMissing,
           RelocState.findSym, h5])
  · simp only [hc, if_false] at h
    split_ifs at h <;>
      (injection h with h
       subst h
       refine ⟨fun hst => hst, fun h3 h4 _ => ?_⟩
       exact absurd ⟨by simp [u32, ELFSymbol.getAddress, h4], h3⟩ hc)

/-- The `R_ARM_MOVW_ABS_NC` / `R_ARM_MOVT_ABS` case on an in-bounds word
returns normally. -/
theorem arm_movw_ok (env : Env) (rel : ELFReloc) (st : RelocState) (sym : ELFSymbol)
    (hsym : st.symtab[rel.symTabIndex]? = some sym) (hin : st.inBounds rel.offset)
    (ht : rel.type = R_ARM_MOVT_ABS ∨ rel.type = R_ARM_MOVW_ABS_NC) :
    ∃ st1, relocateARM_entry env rel st = .ok st1 := by
  have d1 : rel.type ≠ R_ARM_ABS32 := by
    rcases ht with h | h <;> rw [h] <;> decide
  have d2 : rel.type ≠ R_ARM_CALL := by
    rcases ht with h | h <;> rw [h] <;> decide
  unfold relocateARM_entry
  simp only [hsym, d1, d2, ht, if_true, if_false]
  by_cases hc : u32 sym.getAddress = 0 ∧ sym.type = STT_NOTYPE
  · have hin2 : (((st.findSym env sym.name).2.markMissing
        ((st.findSym env sym.name).1 == 0)).setAddress rel.symTabIndex
        (st.findSym env sym.name).1).inBounds rel.offset :=
      (inBounds_of_text _ _
        (by simp [text_setAddress, text_markMissing, text_findSym]) _).2 hin
    simp only [hc, and_self, if_true, hin2]
    exact ⟨_, rfl⟩
  · simp only [hc, if_false, hin, if_true]
    exact ⟨_, rfl⟩

theorem missing_mono_arm (env : Env) (rel : ELFReloc) (st st1 : RelocState)
    (h : relocateARM_entry env rel st = .ok st1)
    (hst : st.missingSymbols = true) : st1.missingSymbols = true := by
  cases hsym : st.symtab[rel.symTabIndex]? with
  | none =>
    unfold relocateARM_entry at h
    simp only [hsym] at h
    cases h
  | some sym =>
    by_cases t1 : rel.type = R_ARM_ABS32
    · unfold relocateARM_entry at h
      simp only [hsym, t1, if_true] at h
      split_ifs at h
      cases h
      exact hst
    by_cases t2 : rel.type = R_ARM_CALL
    · exact (missing_arm_call env rel st st1 sym hsym t2 h).1 hst
    by_cases t3 : rel.type = R_ARM_MOVT_ABS ∨ rel.type = R_ARM_MOVW_ABS_NC
    · exact (missing_arm_movw env rel st st1 sym hsym t3 h).1 hst
    · unfold relocateARM_entry at h
      simp only [hsym, t1, t2, t3, if_false] at h
      cases h

theorem x86_32_ok (env : Env) (rel : ELFReloc) (st : RelocState) (sym : ELFSymbol)
    (hsym : st.symtab[rel.symTabIndex]? = some sym) (hin : st.inBounds rel.offset)
    (ht : rel.type = R_386_PC32 ∨ rel.type = R_386_32) :
    ∃ st1, relocateX86_32_entry env rel st = .ok st1 := by
  unfold relocateX86_32_entry
  simp only [hsym, hin, if_true]
  rcases ht with t | t
  · simp only [t, if_true]
    exact ⟨_, rfl⟩
  · have d : R_386_32 ≠ R_386_PC32 := by decide
    simp only [t, d, if_true, if_false]
    exact ⟨_, rfl⟩

theorem x86_64_ok (env : Env) (rel : ELFReloc) (st : RelocState) (sym : ELFSymbol)
    (hsym : st.symtab[rel.symTabIndex]? = some sym) (hin : st.inBounds rel.offset)
    (ht : rel.type = 1 ∨ rel.type = 2 ∨ rel.type = 10 ∨ rel.type = 11) :
    ∃ st1, relocateX86_64_entry env rel st = .ok st1 := by
  have hin2 : (if u32 sym.getAddress = 0 then resolveSymbol env st rel.symTabIndex sym.name
      else (u32 sym.getAddress, st)).2.inBounds rel.offset := by
    split
    · exact (inBounds_of_text _ _ (text_resolveSymbol _ _ _ _) _).2 hin
    · exact hin
  unfold relocateX86_64_entry
  simp only [hsym, RelocState.storeChecked, hin2, if_true]
  rcases ht with t | t | t | t <;> simp only [t] <;> split_ifs <;>
    first | exact ⟨_, rfl⟩ | simp_all

theorem mips_simple_ok (env : Env) (rel : ELFReloc) (rest : List ELFReloc) (st : RelocState)
    (sym : ELFSymbol) (hsym : st.symtab[rel.symTabIndex]? = some sym)
    (hin : st.inBounds rel.offset)
    (ht : rel.type = R_MIPS_NONE ∨ rel.type = R_MIPS_JALR ∨ rel.type = R_MIPS_32 ∨
      rel.type = R_MIPS_LO16 ∨ rel.type = R_MIPS_GPREL32) :
    ∃ st1, relocateMIPS_entry env rel rest st = .ok st1 := by
  unfold relocateMIPS_entry
  simp only [hsym, hin, if_true]
  rcases ht with t | t | t | t | t
  · simp only [t, true_or, if_true]
    exact ⟨_, rfl⟩
  · simp only [t, or_true, if_true]
    exact ⟨_, rfl⟩
  · have d1 : ¬ (R_MIPS_32 = R_MIPS_NONE ∨ R_MIPS_32 = R_MIPS_JALR) := by decide
    have d2 : R_MIPS_32 ≠ R_MIPS_16 := by decide
    simp only [t, d1, d2, if_true, if_false]
    exact ⟨_, rfl⟩
  · have d1 : ¬ (R_MIPS_LO16 = R_MIPS_NONE ∨ R_MIPS_LO16 = R_MIPS_JALR) := by decide
    have d2 : R_MIPS_LO16 ≠ R_MIPS_16 := by decide
    have d3 : R_MIPS_LO16 ≠ R_MIPS_32 := by decide
    have d4 : R_MIPS_LO16 ≠ R_MIPS_26 := by decide
    have d5 : R_MIPS_LO16 ≠ R_MIPS_HI16 := by decide
    simp only [t, d1, d2, d3, d4, d5, if_true, if_false, mipsCaseLO16]
    exact ⟨_, rfl⟩
  · have d1 : ¬ (R_MIPS_GPREL32 = R_MIPS_NONE ∨ R_MIPS_GPREL32 = R_MIPS_JALR) := by decide
    have d2 : R_MIPS_GPREL32 ≠ R_MIPS_16 := by decide
    have d3 : R_MIPS_GPREL32 ≠ R_MIPS_32 := by decide
    have d4 : R_MIPS_GPREL32 ≠ R_MIPS_26 := by decide
    have d5 : R_MIPS_GPREL32 ≠ R_MIPS_HI16 := by decide
    have d6 : R_MIPS_GPREL32 ≠ R_MIPS_LO16 := by decide
    have d7 : ¬ (R_MIPS_GPREL32 = R_MIPS_GOT16 ∨ R_MIPS_GPREL32 = R_MIPS_CALL16) := by decide
    simp only [t, d1, d2, d3, d4, d5, d6, d7, if_true, if_false]
    exact ⟨_, rfl⟩

/-- The case `R_ARM_ABS32` never asks `find_sym`: against the unresolved
external `bar`, which `find_sym` does not know, the entry is applied with
`S = 0`, no lookup is made and `missingSymbols` stays false. -/
theorem arm_abs32_skips_lookup :
    exBar.address = 0 ∧ exEnv.find_sym exBar.name = 0 ∧
    relocateARM_entry exEnv (exReloc R_ARM_ABS32) exStateBar = .ok exStateBar ∧
    exStateBar.missingSymbols = false ∧ exStateBar.trace = [] := by
  decide

/-! ## The i386 scenario of the word `0xDEADBEEF` -/

/-- Counterexample to C16 as stated: `relocate` on the i386 object `exObj386`
(`.text` holding `0xDEADBEEF`, one `R_386_32` entry at offset 0 against the
unresolved `foo`, which `find_sym` places at `0x10000000`) leaves the bytes
`EF BE AD EE` at offset 0, the word `0xEEADBEEF`, not `0x0EADBEEF`. -/
theorem i386_absolute_scenario_counterexample :
    exEnv.find_sym "foo" = 0x10000000 ∧ read32 exText.buf 0 = 0xDEADBEEF ∧
    (exObj386.relocate exEnv).toOption.map (fun o => o.stab[1]?) =
      some (some (some (ELFSection.progBits
        { exText with buf := [0xEF, 0xBE, 0xAD, 0xEE, 0, 0, 0, 0] }))) ∧
    read32 [0xEF, 0xBE, 0xAD, 0xEE, 0, 0, 0, 0] 0 = 0xEEADBEEF ∧
    read32 [0xEF, 0xBE, 0xAD, 0xEE, 0, 0, 0, 0] 0 ≠ 0x0EADBEEF := by
  decide

/-- C16 (amended): the i386 scenario. A table made of one `R_386_32` entry at
offset 0 against the unresolved symbol `foo`, run by the loop of
`relocateX86_32` over a text section whose word at offset 0 is `0xDEADBEEF`,
with `find_sym("foo") = 0x10000000`, is processed without abort and leaves
the word `0xEEADBEEF` at offset 0: the sum `0xDEADBEEF + 0x10000000`, which
does not overflow 32 bits. -/
theorem i386_absolute_scenario (env : Env) (rel : ELFReloc) (st : RelocState) (sym : ELFSymbol)
    (hsym : st.symtab[rel.symTabIndex]? = some sym) (hname : sym.name = "foo")
    (hnull : sym.address = 0) (hfind : env.find_sym "foo" = 0x10000000)
    (ht : rel.type = R_386_32) (hoff : rel.offset = 0) (hin : st.inBounds 0)
    (hword : st.load 0 = 0xDEADBEEF) :
    ∃ st1, forEachReloc (fun r _ s => relocateX86_32_entry env r s) [rel] st = .ok st1 ∧
      st1.load 0 = 0xEEADBEEF ∧ st1.load 0 = (0xDEADBEEF + 0x10000000) % 4294967296 := by
  have h12 : R_386_32 ≠ R_386_PC32 := by decide
  have h1 : u32 sym.getAddress = 0 := by simp [u32, ELFSymbol.getAddress, hnull]
  have hin2 : (resolveSymbol env st rel.symTabIndex sym.name).2.inBounds 0 :=
    (inBounds_of_text _ _ (text_resolveSymbol _ _ _ _) _).2 hin
  have hentry : relocateX86_32_entry env rel st =
      .ok ((resolveSymbol env st rel.symTabIndex sym.name).2.store 0
        (add32 (resolveSymbol env st rel.symTabIndex sym.name).1 (st.load 0))) := by
    unfold relocateX86_32_entry
    simp only [hsym, hoff, hin, ht, if_true, h12, if_false, h1]
  have hload : ((resolveSymbol env st rel.symTabIndex sym.name).2.store 0
        (add32 (resolveSymbol env st rel.symTabIndex sym.name).1 (st.load 0))).load 0 =
      0xEEADBEEF := by
    rw [load_store _ _ _ hin2, fst_resolveSymbol, hname, hfind, hword]
    decide
  refine ⟨_, ?_, hload, hload.trans (by decide)⟩
  simp only [forEachReloc, hentry]

/-- Witness of C16 (amended): the state `exState` and the entry
`exReloc R_386_32`. -/
theorem i386_absolute_scenario_witness :
    ∃ st1, forEachReloc (fun r _ s => relocateX86_32_entry exEnv r s) [exReloc R_386_32]
        exState = .ok st1 ∧
      st1.load 0 = 0xEEADBEEF ∧ st1.load 0 = (0xDEADBEEF + 0x10000000) % 4294967296 :=
  i386_absolute_scenario exEnv (exReloc R_386_32) exState exFoo (by decide) (by decide)
    (by decide) (by decide) (by decide) (by decide) (by decide) (by decide)

/-! ## The cases `R_MIPS_NONE` and `R_MIPS_JALR` -/

/-- What an entry of type `R_MIPS_NONE` or `R_MIPS_JALR` returns: the state
left by the common setup. -/
theorem mipsEntry_none (env : Env) (rel : ELFReloc) (rest : List ELFReloc) (st : RelocState)
    (sym : ELFSymbol) (hsym : st.symtab[rel.symTabIndex]? = some sym)
    (hin : st.inBounds rel.offset)
    (ht : rel.type = R_MIPS_NONE ∨ rel.type = R_MIPS_JALR) :
    relocateMIPS_entry env rel rest st = .ok (mipsSetup env rel sym st).2.2 := by
  unfold relocateMIPS_entry
  simp only [hsym, hin, ht, if_true]

/-- Counterexample to C17 as stated: an `R_MIPS_NONE` entry against the
unresolved symbol `bar`, unknown to `find_sym`, calls `find_sym("bar")`, calls
`setAddress` and sets `missingSymbols`; an `R_MIPS_JALR` entry against the
unresolved symbol `foo` calls `find_sym("foo")` and changes the resolved
address of `foo` from null to `0x10000000`. -/
theorem mips_none_jalr_noop_counterexample :
    relocateMIPS_entry exEnv (exReloc R_MIPS_NONE) [] exStateBar =
      .ok { exStateBar with
            missingSymbols := true
            trace := [Event.findSym "bar", Event.setAddress 0 0] } ∧
    exStateBar.missingSymbols = false ∧ exStateBar.trace = [] ∧
    relocateMIPS_entry exEnv (exReloc R_MIPS_JALR) [] exState =
      .ok { exState with
            symtab := [{ exFoo with address := 0x10000000 }]
            trace := [Event.findSym "foo", Event.setAddress 0 0x10000000] } ∧
    exState.symtab = [exFoo] ∧ exFoo.address = 0 ∧ exState.trace = [] := by
  decide

/-- C17 (amended): an entry of type `R_MIPS_NONE` or `R_MIPS_JALR` whose word
lies inside the section is processed without abort and never changes the text
section nor the GOT. When the low word of the symbol's resolved address is not
zero, or the symbol is `_gp_disp`, nothing at all changes: the state after the
entry is the state before it, and `find_sym` is not invoked. Otherwise the
common setup of the loop runs before the switch: `find_sym` is invoked once on
the symbol's name, `missingSymbols` is set when the low word of its value is
zero, and `setAddress` stores that low word (converted to a pointer) in the
symbol; nothing else changes. -/
theorem mips_none_jalr_noop (env : Env) (rel : ELFReloc) (rest : List ELFReloc)
    (st : RelocState) (sym : ELFSymbol) (hsym : st.symtab[rel.symTabIndex]? = some sym)
    (hin : st.inBounds rel.offset)
    (ht : rel.type = R_MIPS_NONE ∨ rel.type = R_MIPS_JALR) :
    (∃ st1, relocateMIPS_entry env rel rest st = .ok st1 ∧
      st1.text = st.text ∧ st1.got = st.got) ∧
    (¬ (sym.address % 4294967296 = 0 ∧ sym.name ≠ "_gp_disp") →
      relocateMIPS_entry env rel rest st = .ok st) ∧
    (sym.address % 4294967296 = 0 ∧ sym.name ≠ "_gp_disp" →
      relocateMIPS_entry env rel rest st =
        .ok { st with
              symtab := st.symtab.modify
                (fun s => { s with
                            address := ptrOfInt32 env.ptrBits (env.find_sym sym.name % 4294967296) })
                rel.symTabIndex
              missingSymbols :=
                (decide (env.find_sym sym.name % 4294967296 = 0) || st.missingSymbols)
              trace := st.trace ++ [Event.findSym sym.name,
                Event.setAddress rel.symTabIndex
                  (ptrOfInt32 env.ptrBits (env.find_sym sym.name % 4294967296))] }) := by
  have hentry := mipsEntry_none env rel rest st sym hsym hin ht
  obtain ⟨htext, hgot, _⟩ := mipsSetup_spec env rel sym st
  refine ⟨⟨_, hentry, htext, hgot⟩, ?_, ?_⟩
  · intro h0
    have h3 : ¬ (u32 sym.getAddress = 0 ∧ sym.name ≠ "_gp_disp") := h0
    have hs : mipsSetup env rel sym st = (false, u32 sym.getAddress, st) := if_neg h3
    rw [hentry, hs]
  · intro h0
    have h3 : (u32 sym.getAddress = 0 ∧ sym.name ≠ "_gp_disp") := h0
    have hs : mipsSetup env rel sym st =
        (true, (resolveSymbol env st rel.symTabIndex sym.name).1,
          (resolveSymbol env st rel.symTabIndex sym.name).2) := if_pos h3
    rw [hentry, hs]
    simp only [resolveSymbol, RelocState.findSym, RelocState.setAddress,
      RelocState.markMissing, u32]
    by_cases hz : env.find_sym sym.name % 4294967296 = 0
    · simp [hz]
    · simp [hz]

/-- Witness of C17 (amended): an `R_MIPS_NONE` entry against the resolved
symbol `var` leaves the state as it is; against the unresolved `bar` it runs
the lookup. -/
theorem mips_none_jalr_noop_witness :
    relocateMIPS_entry exEnv (exReloc R_MIPS_NONE) [] exMipsPair = .ok exMipsPair ∧
    relocateMIPS_entry exEnv (exReloc R_MIPS_NONE) [] exStateBar =
      .ok { exStateBar with
            missingSymbols := true
            trace := [Event.findSym "bar", Event.setAddress 0 0] } :=
  ⟨(mips_none_jalr_noop exEnv (exReloc R_MIPS_NONE) [] exMipsPair exVar (by decide)
      (by decide) (by decide)).2.1 (by decide),
   ((mips_none_jalr_noop exEnv (exReloc R_MIPS_NONE) [] exStateBar exBar (by decide)
      (by decide) (by decide)).2.2 (by decide)).trans (by decide)⟩

/-! ## The stores of `relocateX86_64` are 32 bits wide -/

/-- A 32-bit store leaves every byte outside the four of its word alone. -/
theorem getElem?_write32_of_ne (buf : List Nat) (off v i : Nat)
    (h : i < off ∨ off + 4 ≤ i) : (write32 buf off v)[i]? = buf[i]? := by
  unfold write32
  rw [List.getElem?_set_ne (by omega), List.getElem?_set_ne (by omega),
    List.getElem?_set_ne (by omega), List.getElem?_set_ne (by omega)]

/-- What an absolute entry of `relocateX86_64` returns: the state after the
lookup, if any, with one 32-bit store. -/
theorem x86_64_abs_entry_eq (env : Env) (rel : ELFReloc) (st : RelocState) (sym : ELFSymbol)
    (hsym : st.symtab[rel.symTabIndex]? = some sym) (hin : st.inBounds rel.offset)
    (ht : rel.type = 1 ∨ rel.type = 10 ∨ rel.type = 11) :
    ∃ st0 : RelocState, st0.text = st.text ∧
      relocateX86_64_entry env rel st =
        .ok (st0.store rel.offset
          (add32 (if sym.address % 4294967296 = 0 then env.find_sym sym.name % 4294967296
            else sym.address % 4294967296) (ofInt32 rel.addend))) := by
  unfold relocateX86_64_entry
  simp only [hsym]
  by_cases h0 : sym.address % 4294967296 = 0
  · have h1 : u32 sym.getAddress = 0 := h0
    have hin2 : (resolveSymbol env st rel.symTabIndex sym.name).2.inBounds rel.offset :=
      (inBounds_of_text _ _ (text_resolveSymbol _ _ _ _) _).2 hin
    refine ⟨(resolveSymbol env st rel.symTabIndex sym.name).2, text_resolveSymbol _ _ _ _, ?_⟩
    simp only [h1, h0, if_true, RelocState.storeChecked, hin2, fst_resolveSymbol]
    rcases ht with ht | ht | ht <;> simp [ht]
  · have h1 : ¬ u32 sym.getAddress = 0 := h0
    refine ⟨st, rfl, ?_⟩
    simp only [h1, h0, if_false, RelocState.storeChecked, hin]
    rcases ht with ht | ht | ht <;> simp [ht, u32, ELFSymbol.getAddress]

/-- C14: the absolute relocations of `relocateX86_64` are 32-bit stores. An
entry of type `R_X86_64_64` (1), `R_X86_64_32` (10) or `R_X86_64_32S` (11)
whose word lies inside the section is processed without abort; afterwards the
word made of the 4 bytes at the entry's offset is the low 32 bits of `S + A`,
`A` being the addend of the RELA entry and `S` the low word of the symbol's
address (cached, or looked up when the cached low word is zero); the buffer
keeps its length and every byte at an index outside `offset .. offset + 3` is
unchanged, in particular the bytes at `offset + 4 .. offset + 7` of an
`R_X86_64_64` field. -/
theorem x86_64_absolute_is_32bit_store (env : Env) (rel : ELFReloc) (st : RelocState)
    (sym : ELFSymbol) (hsym : st.symtab[rel.symTabIndex]? = some sym)
    (hin : st.inBounds rel.offset)
    (ht : rel.type = 1 ∨ rel.type = 10 ∨ rel.type = 11) :
    ∃ st1, relocateX86_64_entry env rel st = .ok st1 ∧
      (st1.load rel.offset : Int) =
        (((if sym.address % 4294967296 = 0 then env.find_sym sym.name % 4294967296
           else sym.address % 4294967296 : Nat) : Int) + rel.addend) % 4294967296 ∧
      st1.text.buf.length = st.text.buf.length ∧
      st1.text.address = st.text.address ∧
      (∀ i, i < rel.offset ∨ rel.offset + 4 ≤ i → st1.text.buf[i]? = st.text.buf[i]?) ∧
      (∀ k, 4 ≤ k → st1.text.buf[rel.offset + k]? = st.text.buf[rel.offset + k]?) := by
  obtain ⟨st0, htext, hentry⟩ := x86_64_abs_entry_eq env rel st sym hsym hin ht
  have hin0 : st0.inBounds rel.offset := (inBounds_of_text _ _ htext _).2 hin
  have hframe : ∀ i, i < rel.offset ∨ rel.offset + 4 ≤ i →
      (st0.store rel.offset
        (add32 (if sym.address % 4294967296 = 0 then env.find_sym sym.name % 4294967296
          else sym.address % 4294967296) (ofInt32 rel.addend))).text.buf[i]? =
        st.text.buf[i]? := by
    intro i hi
    simp only [RelocState.store]
    rw [getElem?_write32_of_ne _ _ _ _ hi, htext]
  refine ⟨_, hentry, ?_, ?_, ?_, hframe, fun k hk => hframe _ (Or.inr (by omega))⟩
  · rw [load_store _ _ _ hin0]
    simp only [add32, ofInt32]
    omega
  · simp only [RelocState.store, length_write32, htext]
  · simp only [RelocState.store, htext]

/-- Witness of C14: an `R_X86_64_64` entry with addend `-4` at offset 0 of the
8-byte buffer of `exState`, on a 64-bit host that places `foo` nowhere: the
low 32 bits of `0 - 4` are stored in bytes 0..3 and bytes 4..7 stay. -/
theorem x86_64_absolute_is_32bit_store_witness :
    ∃ st1, relocateX86_64_entry exEnv64 (exReloc 1) exState = .ok st1 ∧
      st1.load 0 = 0xFFFFFFFC ∧ st1.text.buf = [0xFC, 0xFF, 0xFF, 0xFF, 0, 0, 0, 0] ∧
      (∀ k, 4 ≤ k → st1.text.buf[0 + k]? = exState.text.buf[0 + k]?) := by
  obtain ⟨s, h1, _, _, _, _, h6⟩ := x86_64_absolute_is_32bit_store exEnv64 (exReloc 1) exState
    exFoo (by decide) (by decide) (by decide)
  have h7 : relocateX86_64_entry exEnv64 (exReloc 1) exState =
      .ok ({ exState with
             missingSymbols := true
             trace := [Event.findSym "foo", Event.setAddress 0 0] }.store 0 0xFFFFFFFC) := by
    decide
  have h8 : s = { exState with
             missingSymbols := true
             trace := [Event.findSym "foo", Event.setAddress 0 0] }.store 0 0xFFFFFFFC := by
    rw [h7] at h1
    exact (Except.ok.inj h1).symm
  refine ⟨s, h1, ?_, ?_, h6⟩
  · rw [h8]; decide
  · rw [h8]; decide

/-! ## The forward scan of `R_MIPS_HI16` and `R_MIPS_GOT16` leaves the other words alone -/

theorem byteAt_lt (buf : List Nat) (i : Nat) : byteAt buf i < 256 :=
  Nat.mod_lt _ (by decide)

/-- The text of a state after a store depends on the text before it only. -/
theorem text_store_congr (a b : RelocState) (h : a.text = b.text) (off v : Nat) :
    (a.store off v).text = (b.store off v).text := by
  simp only [RelocState.store, h]

/-- Clearing the low halfword of the word at `off` and then OR-ing a 16-bit
value into it keeps the upper halfword, the length of the buffer, and every
byte other than the two low bytes of that word. -/
theorem low16_patch_frame (st q : RelocState) (off g : Nat) (hin : st.inBounds off)
    (hq : q.text = (st.store off (st.load off &&& 0xFFFF0000)).text) :
    (q.store off (q.load off ||| (g &&& 0xFFFF))).load off / 65536 = st.load off / 65536 ∧
    (q.store off (q.load off ||| (g &&& 0xFFFF))).text.buf.length = st.text.buf.length ∧
    (∀ i, i ≠ off → i ≠ off + 1 →
      byteAt (q.store off (q.load off ||| (g &&& 0xFFFF))).text.buf i = byteAt st.text.buf i) := by
  have hw := load_low16_patch st q off g hin hq
  have hlen : q.text.buf.length = st.text.buf.length := by
    rw [hq]; simp only [RelocState.store, length_write32]
  have hinq : q.inBounds off := by
    unfold RelocState.inBounds at hin ⊢; omega
  have hV : (q.load off ||| (g &&& 0xFFFF)) % 4294967296 =
      st.load off / 65536 * 65536 + g % 65536 := by
    rw [← load_store q off _ hinq]; exact hw
  refine ⟨by rw [hw]; omega, by simp only [RelocState.store, length_write32, hlen], ?_⟩
  intro i h1 h2
  have hqb : q.text.buf = write32 st.text.buf off (st.load off &&& 0xFFFF0000) := by
    rw [hq]; rfl
  have hb : byteAt q.text.buf i =
      if i = off + 2 then (st.load off &&& 0xFFFF0000) / 65536 % 256
      else if i = off + 3 then (st.load off &&& 0xFFFF0000) / 16777216 % 256
      else byteAt st.text.buf i := by
    rw [hqb, byteAt_write32 _ _ _ _ hin, if_neg h1, if_neg h2]
  have hf : byteAt (q.store off (q.load off ||| (g &&& 0xFFFF))).text.buf i =
      if i = off + 2 then (q.load off ||| (g &&& 0xFFFF)) / 65536 % 256
      else if i = off + 3 then (q.load off ||| (g &&& 0xFFFF)) / 16777216 % 256
      else byteAt q.text.buf i := by
    simp only [RelocState.store]
    rw [byteAt_write32 _ _ _ _ hinq, if_neg h1, if_neg h2]
  have hld : st.load off = byteAt st.text.buf off + 256 * byteAt st.text.buf (off + 1) +
      65536 * byteAt st.text.buf (off + 2) + 16777216 * byteAt st.text.buf (off + 3) := rfl
  have b0 := byteAt_lt st.text.buf off
  have b1 := byteAt_lt st.text.buf (off + 1)
  have b2 := byteAt_lt st.text.buf (off + 2)
  have b3 := byteAt_lt st.text.buf (off + 3)
  rw [hf]
  by_cases e2 : i = off + 2
  · rw [if_pos e2, e2]
    generalize q.load off ||| (g &&& 0xFFFF) = V at hV
    omega
  · rw [if_neg e2]
    by_cases e3 : i = off + 3
    · rw [if_pos e3, e3]
      generalize q.load off ||| (g &&& 0xFFFF) = V at hV
      omega
    · rw [if_neg e3, hb, if_neg e2, if_neg e3]

/-- The shape of what the case `R_MIPS_HI16` returns: the low halfword of the
entry's own word is cleared, then a 16-bit value is OR-ed into it. -/
theorem mipsCaseHI16_shape (env : Env) (rel : ELFReloc) (rest : List ELFReloc)
    (sym : ELFSymbol) (P A S : Nat) (st st1 : RelocState)
    (h : mipsCaseHI16 env rel rest sym P A S st = .ok st1) :
    ∃ (q : RelocState) (g : Nat), q.text = (st.store rel.offset (st.load rel.offset &&& 0xFFFF0000)).text ∧
      st1 = q.store rel.offset (q.load rel.offset ||| (g &&& 0xFFFF)) := by
  simp only [mipsCaseHI16] at h
  split at h
  · cases h
  · split_ifs at h
    · cases h
      refine ⟨_, _, ?_, rfl⟩
      exact text_setAddress _ _ _
    · cases h
      refine ⟨_, _, ?_, rfl⟩
      rfl

/-- The shape of what the case `R_MIPS_GOT16` / `R_MIPS_CALL16` returns. -/
theorem mipsCaseGOT16_shape (env : Env) (rel : ELFReloc) (rest : List ELFReloc)
    (sym : ELFSymbol) (A S : Nat) (st st1 : RelocState)
    (h : mipsCaseGOT16 env rel rest sym A S st = .ok st1) :
    ∃ (q : RelocState) (g : Nat), q.text = (st.store rel.offset (st.load rel.offset &&& 0xFFFF0000)).text ∧
      st1 = q.store rel.offset (q.load rel.offset ||| (g &&& 0xFFFF)) := by
  simp only [mipsCaseGOT16] at h
  split at h
  · cases h
  · cases h
    refine ⟨_, _, ?_, rfl⟩
    rfl

/-- The shape of what an `R_MIPS_HI16`, `R_MIPS_GOT16` or `R_MIPS_CALL16`
entry returns, in terms of the state before the entry. -/
theorem mipsEntry_hi_got_shape (env : Env) (rel : ELFReloc) (rest : List ELFReloc)
    (st st1 : RelocState)
    (ht : rel.type = R_MIPS_HI16 ∨ rel.type = R_MIPS_GOT16 ∨ rel.type = R_MIPS_CALL16)
    (h : relocateMIPS_entry env rel rest st = .ok st1) :
    st.inBounds rel.offset ∧
    ∃ (q : RelocState) (g : Nat), q.text = (st.store rel.offset (st.load rel.offset &&& 0xFFFF0000)).text ∧
      st1 = q.store rel.offset (q.load rel.offset ||| (g &&& 0xFFFF)) := by
  unfold relocateMIPS_entry at h
  split at h
  · cases h
  · rename_i sym hsym
    have h0 := (mipsSetup_spec env rel sym st).1
    by_cases hin : st.inBounds rel.offset
    · refine ⟨hin, ?_⟩
      simp only [hin, if_true] at h
      have hc : ∀ q : RelocState, q.text =
          ((mipsSetup env rel sym st).2.2.store rel.offset
            ((mipsSetup env rel sym st).2.2.load rel.offset &&& 0xFFFF0000)).text →
          q.text = (st.store rel.offset (st.load rel.offset &&& 0xFFFF0000)).text := by
        intro q hq
        rw [hq, load_eq_of_text _ _ h0]
        exact text_store_congr _ _ h0 _ _
      rcases ht with ht | ht | ht
      · have e1 : ¬ (rel.type = R_MIPS_NONE ∨ rel.type = R_MIPS_JALR) := by rw [ht]; decide
        have e2 : ¬ rel.type = R_MIPS_16 := by rw [ht]; decide
        have e3 : ¬ rel.type = R_MIPS_32 := by rw [ht]; decide
        have e4 : ¬ rel.type = R_MIPS_26 := by rw [ht]; decide
        rw [if_neg e1, if_neg e2, if_neg e3, if_neg e4, if_pos ht] at h
        obtain ⟨q, g, hq, hs⟩ := mipsCaseHI16_shape _ _ _ _ _ _ _ _ _ h
        exact ⟨q, g, hc q hq, hs⟩
      all_goals
        have e1 : ¬ (rel.type = R_MIPS_NONE ∨ rel.type = R_MIPS_JALR) := by rw [ht]; decide
        have e2 : ¬ rel.type = R_MIPS_16 := by rw [ht]; decide
        have e3 : ¬ rel.type = R_MIPS_32 := by rw [ht]; decide
        have e4 : ¬ rel.type = R_MIPS_26 := by rw [ht]; decide
        have e5 : ¬ rel.type = R_MIPS_HI16 := by rw [ht]; decide
        have e6 : ¬ rel.type = R_MIPS_LO16 := by rw [ht]; decide
        have e7 : rel.type = R_MIPS_GOT16 ∨ rel.type = R_MIPS_CALL16 := by simp [ht]
        rw [if_neg e1, if_neg e2, if_neg e3, if_neg e4, if_neg e5, if_neg e6, if_pos e7] at h
        obtain ⟨q, g, hq, hs⟩ := mipsCaseGOT16_shape _ _ _ _ _ _ _ _ h
        exact ⟨q, g, hc q hq, hs⟩
    · simp only [hin, if_false] at h
      cases h

/-- The case `R_MIPS_HI16` returns normally when the companion found by the
forward scan, if any, lies inside the section. -/
theorem mipsEntry_HI16_ok (env : Env) (rel : ELFReloc) (rest : List ELFReloc)
    (st : RelocState) (sym : ELFSymbol) (hsym : st.symtab[rel.symTabIndex]? = some sym)
    (hin : st.inBounds rel.offset) (ht : rel.type = R_MIPS_HI16)
    (hlo : ∀ lo, findLO16 rest rel.symTabIndex = some lo → st.inBounds lo.offset) :
    ∃ st1, relocateMIPS_entry env rel rest st = .ok st1 := by
  have e1 : ¬ (rel.type = R_MIPS_NONE ∨ rel.type = R_MIPS_JALR) := by rw [ht]; decide
  have e2 : ¬ rel.type = R_MIPS_16 := by rw [ht]; decide
  have e3 : ¬ rel.type = R_MIPS_32 := by rw [ht]; decide
  have e4 : ¬ rel.type = R_MIPS_26 := by rw [ht]; decide
  have h0 := sameFrame_mipsSetup env rel sym st
  unfold relocateMIPS_entry
  simp only [hsym, hin, if_true]
  rw [if_neg e1, if_neg e2, if_neg e3, if_neg e4, if_pos ht]
  simp only [mipsCaseHI16, addLO16]
  cases hf : findLO16 rest rel.symTabIndex with
  | none => exact ⟨_, rfl⟩
  | some lo =>
    have hl : ((mipsSetup env rel sym st).2.2.store rel.offset
        ((mipsSetup env rel sym st).2.2.load rel.offset &&& 0xFFFF0000)).inBounds lo.offset :=
      (inBounds_store _ _ _ _).2 ((h0.inBounds _).2 (hlo lo hf))
    simp only [hl, if_true]
    exact ⟨_, rfl⟩

/-- C19: the forward scan does not touch the words it reads. An `R_MIPS_HI16`
or `R_MIPS_GOT16` entry that is processed without abort changes nothing of the
text buffer but the low two bytes (the low 16 bits, the buffer being
little-endian) of the instruction word at its own offset: the upper halfword
of that word, the length of the buffer and every other byte are unchanged, so
every word that does not share these two bytes, in particular the word of the
`R_MIPS_LO16` entry found by the forward scan, still holds its original
immediate. An `R_MIPS_HI16` entry is processed without abort when its own word
and the word of the companion found lie inside the section. -/
theorem mips_forward_scan_frame (env : Env) (rel : ELFReloc) (rest : List ELFReloc)
    (st : RelocState) (ht : rel.type = R_MIPS_HI16 ∨ rel.type = R_MIPS_GOT16) :
    (∀ st1, relocateMIPS_entry env rel rest st = .ok st1 →
      st1.load rel.offset / 65536 = st.load rel.offset / 65536 ∧
      st1.text.buf.length = st.text.buf.length ∧
      (∀ i, i ≠ rel.offset → i ≠ rel.offset + 1 →
        byteAt st1.text.buf i = byteAt st.text.buf i) ∧
      (∀ off2, off2 + 4 ≤ rel.offset ∨ rel.offset + 2 ≤ off2 → st1.load off2 = st.load off2) ∧
      (∀ lo, findLO16 rest rel.symTabIndex = some lo →
        lo.offset + 4 ≤ rel.offset ∨ rel.offset + 2 ≤ lo.offset →
        st1.load lo.offset % 65536 = st.load lo.offset % 65536)) ∧
    (rel.type = R_MIPS_HI16 → ∀ sym, st.symtab[rel.symTabIndex]? = some sym →
      st.inBounds rel.offset →
      (∀ lo, findLO16 rest rel.symTabIndex = some lo → st.inBounds lo.offset) →
      ∃ st1, relocateMIPS_entry env rel rest st = .ok st1) := by
  refine ⟨?_, fun h sym hsym hin hlo => mipsEntry_HI16_ok env rel rest st sym hsym hin h hlo⟩
  intro st1 hok
  have ht3 : rel.type = R_MIPS_HI16 ∨ rel.type = R_MIPS_GOT16 ∨ rel.type = R_MIPS_CALL16 := by
    rcases ht with h | h
    · exact Or.inl h
    · exact Or.inr (Or.inl h)
  obtain ⟨hin, q, g, hq, hs⟩ := mipsEntry_hi_got_shape env rel rest st st1 ht3 hok
  obtain ⟨h1, h2, h3⟩ := low16_patch_frame st q rel.offset g hin hq
  rw [← hs] at h1 h2 h3
  have hword : ∀ off2, off2 + 4 ≤ rel.offset ∨ rel.offset + 2 ≤ off2 →
      st1.load off2 = st.load off2 := by
    intro off2 hd
    simp only [RelocState.load, read32]
    rw [h3 off2 (by omega) (by omega), h3 (off2 + 1) (by omega) (by omega),
      h3 (off2 + 2) (by omega) (by omega), h3 (off2 + 3) (by omega) (by omega)]
  exact ⟨h1, h2, h3, hword, fun lo _ hd => by rw [hword lo.offset hd]⟩

/-- Witness of C19: the entry `exHi` at offset 0, followed by `exLo` at offset
4, on the pair `lui` / `addiu`: the `lui` word gets the immediate `0x1234` and
the `addiu` word is still `0x24210000`. -/
theorem mips_forward_scan_frame_witness :
    relocateMIPS_entry exEnv exHi [exLo] exMipsPair = .ok (exMipsPair.store 0 0x3C011234) ∧
    (exMipsPair.store 0 0x3C011234).load 0 / 65536 = exMipsPair.load 0 / 65536 ∧
    (exMipsPair.store 0 0x3C011234).load 4 = exMipsPair.load 4 ∧
    exMipsPair.load 4 = 0x24210000 :=
  ⟨by decide,
   ((mips_forward_scan_frame exEnv exHi [exLo] exMipsPair (Or.inl rfl)).1
      (exMipsPair.store 0 0x3C011234) (by decide)).1,
   ((mips_forward_scan_frame exEnv exHi [exLo] exMipsPair (Or.inl rfl)).1
      (exMipsPair.store 0 0x3C011234) (by decide)).2.2.2.1 4 (by decide),
   by decide⟩

/-! ## `R_ARM_MOVW_ABS_NC` and `R_ARM_MOVT_ABS` -/

theorem and_FFF (x : Nat) : x &&& 0xFFF = x % 4096 :=
  Nat.and_pow_two_sub_one_eq_mod x 12

theorem and_F000 (x : Nat) : x &&& 0xF000 = (x / 4096 % 16) * 4096 :=
  and_field x 12 4

theorem and_F0000 (x : Nat) : x &&& 0xF0000 = (x / 65536 % 16) * 65536 :=
  and_field x 16 4

theorem and_FFF0F000 (x : Nat) :
    x &&& 0xFFF0F000 = (x / 1048576 % 4096) * 1048576 + (x / 4096 % 16) * 4096 := by
  have hm : (0xFFF0F000 : Nat) = 0xFFF00000 ||| 0xF000 := by decide
  have h1 : x &&& 0xFFF00000 = (x / 1048576 % 4096) * 1048576 := and_field x 20 12
  rw [hm, Nat.and_or_distrib_left, h1, and_F000]
  exact or_field _ _ 20 (by norm_num; omega)

/-- The split-field immediate of a `MOVW` / `MOVT` instruction word. -/
theorem arm_mov_decode (x : Nat) :
    ((x &&& 0xF0000) >>> 4) ||| (x &&& 0xFFF) = (x / 65536 % 16) * 4096 + x % 4096 := by
  rw [and_F0000, and_FFF, Nat.shiftRight_eq_div_pow]
  have h : (x / 65536 % 16) * 65536 / 2 ^ 4 = (x / 65536 % 16) * 2 ^ 12 := by
    norm_num; omega
  rw [h]
  exact or_field _ _ 12 (by norm_num; omega)

/-- The word stored by the `MOVW` / `MOVT` case: the fields of `result` below
the mask `0x000F0FFF`, the bits of `inst` under `0xFFF0F000`. -/
theorem arm_mov_patch (result inst : Nat) (hi : inst < 4294967296) :
    (((result &&& 0xF000) <<< 4) ||| (result &&& 0xFFF)) ||| (inst &&& 0xFFF0F000) =
      (inst / 1048576) * 1048576 + (result / 4096 % 16) * 65536 +
        (inst / 4096 % 16) * 4096 + result % 4096 := by
  rw [and_F000, and_FFF, and_FFF0F000, Nat.shiftLeft_eq]
  have e1 : (result / 4096 % 16) * 4096 * 2 ^ 4 = (result / 4096 % 16) * 2 ^ 16 := by
    norm_num; omega
  have e2 : (inst / 1048576 % 4096) * 1048576 + (inst / 4096 % 16) * 4096 =
      ((inst / 1048576 % 4096) * 2 ^ 20) ||| ((inst / 4096 % 16) * 2 ^ 12) :=
    (or_field _ _ 20 (by norm_num; omega)).symm
  rw [e1, e2]
  have e3 : ((result / 4096 % 16) * 2 ^ 16 ||| result % 4096) |||
        (((inst / 1048576 % 4096) * 2 ^ 20) ||| ((inst / 4096 % 16) * 2 ^ 12)) =
      (((inst / 1048576 % 4096) * 2 ^ 20) ||| ((result / 4096 % 16) * 2 ^ 16)) |||
        (((inst / 4096 % 16) * 2 ^ 12) ||| result % 4096) := by ac_rfl
  rw [e3, or_field _ _ 20 (by norm_num; omega), or_field _ _ 12 (by norm_num; omega)]
  have e4 : (inst / 1048576 % 4096) * 2 ^ 20 + (result / 4096 % 16) * 2 ^ 16 =
      ((inst / 1048576 % 4096) * 16 + result / 4096 % 16) * 2 ^ 16 := by
    norm_num; omega
  rw [e4, or_field _ _ 16 (by norm_num; omega)]
  norm_num
  omega

/-- The arithmetic shift by 16 agrees with the logical one on the low 16 bits
of the result. -/
theorem asr32_16_low (x : Nat) (h : x < 4294967296) :
    asr32 x 16 % 65536 = x / 65536 % 65536 := by
  rw [asr32_16]
  unfold ofInt32 toInt32
  split <;> omega

/-- C13: `R_ARM_MOVW_ABS_NC` and `R_ARM_MOVT_ABS`. An entry of one of these
types whose word lies inside the section is processed without abort. With `A`
the split-field immediate `((original & 0xF0000) >> 4) | (original & 0xFFF)`
and `S` the low word of the symbol's address (the cached one, or the value of
`find_sym` when it is zero and the symbol has type `STT_NOTYPE`), shifted
right by 16 for `MOVT`, the immediate decoded from the patched word by the
same rule is `(S + A) mod 2^16`, and the bits of the word under the mask
`0xFFF0F000` are unchanged. The shift of the source is arithmetic; on the low
16 bits it gives what the logical shift `S / 2^16` gives. -/
theorem arm_movw_movt_immediate (env : Env) (rel : ELFReloc) (st : RelocState)
    (sym : ELFSymbol) (hsym : st.symtab[rel.symTabIndex]? = some sym)
    (hin : st.inBounds rel.offset)
    (ht : rel.type = R_ARM_MOVT_ABS ∨ rel.type = R_ARM_MOVW_ABS_NC) :
    ∃ st1, relocateARM_entry env rel st = .ok st1 ∧
      ((st1.load rel.offset &&& 0xF0000) >>> 4) ||| (st1.load rel.offset &&& 0xFFF) =
        ((if rel.type = R_ARM_MOVT_ABS then
            (if sym.address % 4294967296 = 0 ∧ sym.type = STT_NOTYPE
              then env.find_sym sym.name % 4294967296 else sym.address % 4294967296) / 65536
          else
            (if sym.address % 4294967296 = 0 ∧ sym.type = STT_NOTYPE
              then env.find_sym sym.name % 4294967296 else sym.address % 4294967296)) +
          (((st.load rel.offset &&& 0xF0000) >>> 4) ||| (st.load rel.offset &&& 0xFFF)))
          % 65536 ∧
      st1.load rel.offset &&& 0xFFF0F000 = st.load rel.offset &&& 0xFFF0F000 := by
  have e1 : ¬ rel.type = R_ARM_ABS32 := by rcases ht with h | h <;> rw [h] <;> decide
  have e2 : ¬ rel.type = R_ARM_CALL := by rcases ht with h | h <;> rw [h] <;> decide
  -- the state and the value of `S` after the lookup, if any
  obtain ⟨st0, S0, hr, htext, hS0⟩ : ∃ (st0 : RelocState) (S0 : Nat),
      (if u32 sym.getAddress = 0 ∧ sym.type = STT_NOTYPE then
          (u32 (st.findSym env sym.name).1,
            ((st.findSym env sym.name).2.markMissing ((st.findSym env sym.name).1 == 0)).setAddress
              rel.symTabIndex (st.findSym env sym.name).1)
        else (u32 sym.getAddress, st)) = (S0, st0) ∧ st0.text = st.text ∧
      S0 = (if sym.address % 4294967296 = 0 ∧ sym.type = STT_NOTYPE
        then env.find_sym sym.name % 4294967296 else sym.address % 4294967296) := by
    by_cases h0 : sym.address % 4294967296 = 0 ∧ sym.type = STT_NOTYPE
    · have h3 : u32 sym.getAddress = 0 ∧ sym.type = STT_NOTYPE := h0
      refine ⟨_, _, if_pos h3, ?_, ?_⟩
      · rw [text_setAddress, text_markMissing, text_findSym]
      · rw [if_pos h0]; rfl
    · have h3 : ¬ (u32 sym.getAddress = 0 ∧ sym.type = STT_NOTYPE) := h0
      exact ⟨_, _, if_neg h3, rfl, by rw [if_neg h0]; rfl⟩
  have hin0 : st0.inBounds rel.offset := (inBounds_of_text _ _ htext _).2 hin
  have hld : st0.load rel.offset = st.load rel.offset := load_eq_of_text _ _ htext _
  have hentry : relocateARM_entry env rel st =
      .ok (st0.store rel.offset
        ((((add32 (if rel.type = R_ARM_MOVT_ABS then asr32 S0 16 else S0)
              (((st.load rel.offset &&& 0xF0000) >>> 4) ||| (st.load rel.offset &&& 0xFFF))
            &&& 0xF000) <<< 4) |||
          (add32 (if rel.type = R_ARM_MOVT_ABS then asr32 S0 16 else S0)
              (((st.load rel.offset &&& 0xF0000) >>> 4) ||| (st.load rel.offset &&& 0xFFF))
            &&& 0xFFF)) ||| (st.load rel.offset &&& 0xFFF0F000))) := by
    unfold relocateARM_entry
    simp only [hsym]
    rw [if_neg e1, if_neg e2, if_pos ht]
    simp only [hr, hin0, if_true, hld]
  have hlt := load_lt st rel.offset
  have hS0lt : S0 < 4294967296 := by
    rw [hS0]; split <;> exact Nat.mod_lt _ (by decide)
  refine ⟨_, hentry, ?_, ?_⟩
  · rw [load_store _ _ _ hin0, arm_mov_patch _ _ hlt, arm_mov_decode, arm_mov_decode, ← hS0]
    have hlow := asr32_16_low S0 hS0lt
    generalize st.load rel.offset = x at hlt ⊢
    by_cases hm : rel.type = R_ARM_MOVT_ABS
    · simp only [hm, if_true, add32]
      generalize asr32 S0 16 = T at hlow ⊢
      omega
    · simp only [hm, if_false, add32]
      omega
  · rw [load_store _ _ _ hin0, arm_mov_patch _ _ hlt, and_FFF0F000, and_FFF0F000]
    generalize st.load rel.offset = x at hlt ⊢
    generalize add32 _ _ = r
    omega
/-- Witness of C13: `movw r0, #0` and `movt r0, #0` against the symbol `var`
at `0x12345678` get the immediates `0x5678` and `0x1234`. -/
theorem arm_movw_movt_immediate_witness :
    (∃ st1, relocateARM_entry exEnv (exReloc R_ARM_MOVW_ABS_NC) exArmMov = .ok st1 ∧
      ((st1.load 0 &&& 0xF0000) >>> 4) ||| (st1.load 0 &&& 0xFFF) = 0x5678 ∧
      st1.load 0 &&& 0xFFF0F000 = 0xE3000000) ∧
    (∃ st1, relocateARM_entry exEnv exMovt exArmMov = .ok st1 ∧
      ((st1.load 4 &&& 0xF0000) >>> 4) ||| (st1.load 4 &&& 0xFFF) = 0x1234 ∧
      st1.load 4 &&& 0xFFF0F000 = 0xE3400000) := by
  refine ⟨?_, ?_⟩
  · obtain ⟨s, h1, h2, h3⟩ := arm_movw_movt_immediate exEnv (exReloc R_ARM_MOVW_ABS_NC)
      exArmMov exVar (by decide) (by decide) (by decide)
    exact ⟨s, h1, h2.trans (by decide), h3.trans (by decide)⟩
  · obtain ⟨s, h1, h2, h3⟩ := arm_movw_movt_immediate exEnv exMovt
      exArmMov exVar (by decide) (by decide) (by decide)
    exact ⟨s, h1, h2.trans (by decide), h3.trans (by decide)⟩

/-! ## `R_MIPS_26` -/

theorem and_3FFFFFF (x : Nat) : x &&& 0x3FFFFFF = x % 67108864 :=
  Nat.and_pow_two_sub_one_eq_mod x 26

theorem and_FC000000 (x : Nat) : x &&& 0xFC000000 = (x / 67108864 % 64) * 67108864 :=
  and_field x 26 6

theorem and_F0000000 (x : Nat) : x &&& 0xF0000000 = (x / 268435456 % 16) * 268435456 :=
  and_field x 28 4

/-- The jump field `(A >> 2) & 0x3FFFFFF`: bits 2..27 of `A`, whatever the
sign of `A`. -/
theorem asr32_two_field (a : Nat) (h : a < 4294967296) :
    asr32 a 2 &&& 0x3FFFFFF = a / 4 % 67108864 := by
  rw [and_3FFFFFF, asr32_two]
  unfold ofInt32 toInt32
  split <;> omega

/-- The addend `(A & 0x3FFFFFF) << 2` of the case `R_MIPS_26`. -/
theorem shl32_26 (x : Nat) : shl32 (x &&& 0x3FFFFFF) 2 = x % 67108864 * 4 := by
  unfold shl32
  rw [and_3FFFFFF, Nat.shiftLeft_eq]
  omega

/-- The word after `*inst &= 0xFC000000; *inst |= field` for a 26-bit field. -/
theorem load_jump_patch (st : RelocState) (off f : Nat) (hin : st.inBounds off)
    (hf : f < 67108864) :
    ((st.store off (st.load off &&& 0xFC000000)).store off
      ((st.store off (st.load off &&& 0xFC000000)).load off ||| f)).load off =
      st.load off / 67108864 * 67108864 + f := by
  have hlt := load_lt st off
  have hin1 : (st.store off (st.load off &&& 0xFC000000)).inBounds off :=
    (inBounds_store _ _ _ _).2 hin
  rw [load_store _ _ _ hin1, load_store _ _ _ hin, and_FC000000]
  have e : (st.load off / 67108864 % 64 * 67108864) % 4294967296 =
      (st.load off / 67108864) * 2 ^ 26 := by
    norm_num; omega
  rw [e, or_field _ _ 26 (by norm_num; omega)]
  norm_num
  omega

/-- The common setup of `relocateMIPS` on a symbol whose cached low word is
not zero: no lookup, `need_stub` stays false. -/
theorem mipsSetup_resolved (env : Env) (rel : ELFReloc) (sym : ELFSymbol) (st : RelocState)
    (hS : sym.address % 4294967296 ≠ 0) :
    mipsSetup env rel sym st = (false, sym.address % 4294967296, st) := by
  have h3 : ¬ (u32 sym.getAddress = 0 ∧ sym.name ≠ "_gp_disp") := fun h => hS h.1
  exact if_neg h3

/-- An `R_MIPS_26` entry on a resolved symbol runs the case `R_MIPS_26` with
`need_stub` false. -/
theorem mipsEntry_26_resolved (env : Env) (rel : ELFReloc) (rest : List ELFReloc)
    (st : RelocState) (sym : ELFSymbol) (hsym : st.symtab[rel.symTabIndex]? = some sym)
    (hin : st.inBounds rel.offset) (ht : rel.type = R_MIPS_26)
    (hS : sym.address % 4294967296 ≠ 0) :
    relocateMIPS_entry env rel rest st =
      mipsCase26 env rel sym (u32 (st.text.address + rel.offset)) (st.load rel.offset)
        (sym.address % 4294967296) false st := by
  have e1 : ¬ (rel.type = R_MIPS_NONE ∨ rel.type = R_MIPS_JALR) := by rw [ht]; decide
  have e2 : ¬ rel.type = R_MIPS_16 := by rw [ht]; decide
  have e3 : ¬ rel.type = R_MIPS_32 := by rw [ht]; decide
  unfold relocateMIPS_entry
  simp only [hsym, hin, if_true, mipsSetup_resolved env rel sym st hS]
  rw [if_neg e1, if_neg e2, if_neg e3, if_pos ht]

/-- C20: `R_MIPS_26` on a local symbol. An `R_MIPS_26` entry, its word inside
the section, on a symbol with `STB_LOCAL` binding whose resolved address `S`
is 4-byte-aligned with a non-zero low word, is processed without abort; the
top 6 bits of the instruction are unchanged, and whenever the intended target
`T = (S + ((original & 0x3FFFFFF) << 2)) mod 2^32` lies in the 256 MiB region
of `P + 4`, decoding the patched jump as
`((P + 4) & 0xF0000000) | ((patched & 0x3FFFFFF) << 2)` gives `T`. -/
theorem mips26_local_target (env : Env) (rel : ELFReloc) (rest : List ELFReloc)
    (st : RelocState) (sym : ELFSymbol) (hsym : st.symtab[rel.symTabIndex]? = some sym)
    (hin : st.inBounds rel.offset) (ht : rel.type = R_MIPS_26)
    (hloc : sym.binding = STB_LOCAL)
    (hS : sym.address % 4294967296 ≠ 0) (hal : sym.address % 4 = 0) :
    ∃ st1, relocateMIPS_entry env rel rest st = .ok st1 ∧
      st1.load rel.offset / 67108864 = st.load rel.offset / 67108864 ∧
      (((sym.address % 4294967296 + ((st.load rel.offset &&& 0x3FFFFFF) <<< 2)) % 4294967296)
          >>> 28 = (((st.text.address + rel.offset) % 4294967296 + 4) % 4294967296) >>> 28 →
        ((((st.text.address + rel.offset) % 4294967296 + 4) % 4294967296) &&& 0xF0000000) |||
            ((st1.load rel.offset &&& 0x3FFFFFF) <<< 2) =
          (sym.address % 4294967296 + ((st.load rel.offset &&& 0x3FFFFFF) <<< 2))
            % 4294967296) := by
  have hentry := mipsEntry_26_resolved env rel rest st sym hsym hin ht hS
  have hlt := load_lt st rel.offset
  -- the value of `A` after `A |= ((P + 4) & 0xF0000000); A += S`
  have hA : (shl32 (st.load rel.offset &&& 0x3FFFFFF) 2 |||
      (add32 (u32 (st.text.address + rel.offset)) 4 &&& 0xF0000000)) =
      (add32 (u32 (st.text.address + rel.offset)) 4 / 268435456 % 16) * 2 ^ 28 +
        st.load rel.offset % 67108864 * 4 := by
    rw [shl32_26, and_F0000000, Nat.lor_comm]
    exact or_field _ _ 28 (by norm_num; omega)
  have hcase : mipsCase26 env rel sym (u32 (st.text.address + rel.offset)) (st.load rel.offset)
      (sym.address % 4294967296) false st =
      .ok ((st.store rel.offset (st.load rel.offset &&& 0xFC000000)).store rel.offset
        ((st.store rel.offset (st.load rel.offset &&& 0xFC000000)).load rel.offset |||
          (asr32 (add32 ((add32 (u32 (st.text.address + rel.offset)) 4 / 268435456 % 16) * 2 ^ 28 +
            st.load rel.offset % 67108864 * 4) (sym.address % 4294967296)) 2 &&& 0x3FFFFFF))) := by
    simp only [mipsCase26, hloc, if_true, hA]
  have hfield := asr32_two_field
    (add32 ((add32 (u32 (st.text.address + rel.offset)) 4 / 268435456 % 16) * 2 ^ 28 +
      st.load rel.offset % 67108864 * 4) (sym.address % 4294967296))
    (Nat.mod_lt _ (by decide))
  rw [hfield] at hcase
  have hload := load_jump_patch st rel.offset
    (add32 ((add32 (u32 (st.text.address + rel.offset)) 4 / 268435456 % 16) * 2 ^ 28 +
      st.load rel.offset % 67108864 * 4) (sym.address % 4294967296) / 4 % 67108864)
    hin (Nat.mod_lt _ (by decide))
  refine ⟨_, hentry.trans hcase, ?_, ?_⟩
  · rw [hload]; omega
  · intro hreg
    rw [hload]
    simp only [and_3FFFFFF, and_F0000000, Nat.shiftLeft_eq, Nat.shiftRight_eq_div_pow]
      at hreg ⊢
    have hor : ∀ r b : Nat, b < 268435456 → (r * 268435456) ||| b = r * 268435456 + b :=
      fun r b hb => or_field r b 28 (by norm_num; omega)
    rw [hor _ _ (by norm_num; omega)]
    simp only [add32, u32, Nat.reducePow] at hreg ⊢
    generalize st.load rel.offset = x at hreg ⊢
    generalize (st.text.address + rel.offset) % 4294967296 = P at hreg ⊢
    generalize sym.address = S at hreg hal ⊢
    clear hload hfield hcase hentry hA hsym hin ht hloc hS hor
    omega
/-- Witness of C20: `jal` with the field `0x10` at `0x20000000` against the
local symbol `loc` at `0x20000100`: the target `0x20000140` is in the region
of `P + 4`, and the patched field decodes to it. -/
theorem mips26_local_target_witness :
    ∃ st1, relocateMIPS_entry exEnv (exReloc R_MIPS_26) [] exMipsJal = .ok st1 ∧
      st1.load 0 / 67108864 = 0x0C000010 / 67108864 ∧
      ((((0x20000000 + 0) % 4294967296 + 4) % 4294967296) &&& 0xF0000000) |||
          ((st1.load 0 &&& 0x3FFFFFF) <<< 2) = 0x20000140 := by
  obtain ⟨s, h1, h2, h3⟩ := mips26_local_target exEnv (exReloc R_MIPS_26) [] exMipsJal exLocal
    (by decide) (by decide) (by decide) (by decide) (by decide) (by decide)
  exact ⟨s, h1, h2.trans (by decide), (h3 (by decide)).trans (by decide)⟩

/-- C12: the far external call of `R_MIPS_26` does not encode a branch to the
stub. On `jal` with the field `1` at `P = 0x20000000`, against the global
symbol `far` resolved to `S = 0x10000000`, the target `A = 0x10000004` is not
in the region of `P + 4` and the allocator returns the stub `0x20001000`, which
is. The symbol's address becomes the stub and the top 6 bits are kept, but the
low 26 bits are `0x401`, not `(stub >> 2) & 0x3FFFFFF = 0x400`: the stub field
is OR-ed onto the field `(A >> 2) & 0x3FFFFFF = 1` stored just before, which
is not cleared. The sibling branch of the same case, for a symbol resolved by
`find_sym` in this entry, clears the field first and stores `0x400`. -/
theorem mips26_far_call_stub_field :
    exFar.binding ≠ STB_LOCAL ∧ exFar.address % 4294967296 = 0x10000000 ∧
    add32 (shl32 (exMipsJalFar.load 0 &&& 0x3FFFFFF) 2) 0x10000000 = 0x10000004 ∧
    asr32 (add32 0x20000000 4) 28 ≠ asr32 0x10000004 28 ∧
    exEnvStub.allocateStub exMipsJalFar.text.stubLayout 0x10000004 = 0x20001000 ∧
    asr32 (add32 0x20000000 4) 28 = asr32 0x20001000 28 ∧
    relocateMIPS_entry exEnvStub (exReloc R_MIPS_26) [] exMipsJalFar =
      .ok { exMipsJalFar with
            symtab := [{ exFar with address := 0x20001000 }]
            text := { exMipsJalFar.text with buf := [0x01, 0x04, 0, 0x0C] }
            trace := [Event.setAddress 0 0x20001000] } ∧
    read32 [0x01, 0x04, 0, 0x0C] 0 &&& 0x3FFFFFF = 0x401 ∧
    asr32 0x20001000 2 &&& 0x3FFFFFF = 0x400 ∧
    (relocateMIPS_entry exEnvStub (exReloc R_MIPS_26) [] exMipsJal0).toOption.map
        (fun s => (s.load 0 &&& 0x3FFFFFF, s.symtab.map (fun y => y.address))) =
      some (0x400, [0x20001000]) := by
  decide

/-! ## The scenario of an `R_ARM_CALL` entry 4 KiB below its callee -/

/-- The value of `result` when the stub is 4 KiB above the patch address, the
immediate is zero and the two addresses have the same sign as `int32_t`. -/
theorem arm_call_4k_result (P0 inst : Nat) (hP : P0 < 4294967296)
    (himm : inst % 16777216 = 0)
    (hside : P0 + 0x1000 < 0x80000000 ∨ 0x80000000 ≤ P0) :
    add32 (sub32 (asr32 (u32 (P0 + 0x1000)) 2) (asr32 (u32 P0) 2))
      (SIGN_EXTEND (inst &&& 0xFFFFFF) 24) = 0x400 := by
  rw [arm_call_result]
  unfold toInt32 u32
  simp only [himm]
  split_ifs <;> omega

/-- C15: the in-range scenario of `R_ARM_CALL` fails where `P` and
`P + 0x1000` lie on the two sides of `0x80000000`. At the 4-byte-aligned patch
address `P = 0x7FFFF000`, with the `STT_FUNC` symbol and the stub at
`P + 0x1000 = 0x80000000`, 4 KiB away, the immediate being 0, the entry aborts
with "Stub is still too far": `S` and `P` are `int32_t` values of different
signs, each shifted arithmetically on its own, so `(S >> 2) - (P >> 2)` is
`0xC0000400`, inside the abort window, while the word distance
`(S - P) >> 2` is `0x400`. -/
theorem arm_call_sign_boundary_abort :
    (exArmBoundary.text.address + (exReloc R_ARM_CALL).offset) % 4 = 0 ∧
    exArmBoundary.text.address + (exReloc R_ARM_CALL).offset < 4294967296 ∧
    exArmBoundary.load 0 % 16777216 = 0 ∧
    exArmBoundary.symtab = [{ exFn with address := 0x7FFFF000 + 0x1000 }] ∧
    exFn.type = STT_FUNC ∧
    exEnv.allocateStub exArmBoundary.text.stubLayout (0x7FFFF000 + 0x1000)
      = 0x7FFFF000 + 0x1000 ∧
    add32 (sub32 (asr32 0x80000000 2) (asr32 0x7FFFF000 2)) 0 = 0xC0000400 ∧
    (0x007fffff < 0xC0000400 ∧ 0xC0000400 < 0xff800000) ∧
    asr32 (sub32 0x80000000 0x7FFFF000) 2 = 0x400 ∧
    relocateARM_entry exEnv (exReloc R_ARM_CALL) exArmBoundary = .error Fault.stubTooFar := by
  decide

/-- Away from that boundary the code does what the scenario expects: for
every 32-bit patch address `P` such that `P` and `P + 0x1000` have the same
sign as `int32_t` (`P + 0x1000 < 0x80000000` or `0x80000000 ≤ P`), an
`R_ARM_CALL` entry on an instruction whose 24-bit immediate is 0, against a
`STT_FUNC` symbol whose address is `P + 0x1000`, with the stub allocator
returning a stub at `P + 0x1000`, is relocated without abort; the low 24 bits
of the instruction are then `0x000400` and its top byte is unchanged. -/
theorem arm_call_4k_same_sign (env : Env) (rel : ELFReloc) (st : RelocState)
    (sym : ELFSymbol) (hsym : st.symtab[rel.symTabIndex]? = some sym)
    (hin : st.inBounds rel.offset) (ht : rel.type = R_ARM_CALL)
    (hP : st.text.address + rel.offset < 4294967296)
    (himm : st.load rel.offset % 16777216 = 0)
    (hfunc : sym.type = STT_FUNC)
    (haddr : sym.address = st.text.address + rel.offset + 0x1000)
    (hlayout : st.text.stubLayout ≠ 0)
    (hstub : env.allocateStub st.text.stubLayout (st.text.address + rel.offset + 0x1000) =
      st.text.address + rel.offset + 0x1000)
    (hside : st.text.address + rel.offset + 0x1000 < 0x80000000 ∨
      0x80000000 ≤ st.text.address + rel.offset) :
    ∃ st1, relocateARM_entry env rel st = .ok st1 ∧
      st1.load rel.offset % 16777216 = 0x000400 ∧
      st1.load rel.offset / 16777216 = st.load rel.offset / 16777216 := by
  have hnz : sym.address ≠ 0 := by omega
  have hstub2 : env.allocateStub st.text.stubLayout
      (if sym.address = 0 then env.find_sym sym.name else sym.address) =
      st.text.address + rel.offset + 0x1000 := by
    rw [if_neg hnz, haddr, hstub]
  obtain ⟨st0, htext, hentry⟩ := arm_call_entry_eq env rel st sym hsym hin ht
    (Or.inl ⟨hfunc, hnz⟩) hlayout _ hstub2 (by omega)
  have hres := arm_call_4k_result (st.text.address + rel.offset) (st.load rel.offset) hP himm
    hside
  rw [hres] at hentry
  have hno : ¬ ((0x400 : Nat) > 0x007fffff ∧ (0x400 : Nat) < 0xff800000) := by decide
  rw [if_neg hno] at hentry
  have hin0 : st0.inBounds rel.offset := (inBounds_of_text _ _ htext _).2 hin
  have hlt := load_lt st rel.offset
  refine ⟨_, hentry, ?_, ?_⟩
  · rw [load_store _ _ _ hin0, arm_call_patch _ _ hlt]; omega
  · rw [load_store _ _ _ hin0, arm_call_patch _ _ hlt]; omega

/-- An instance: `BL` with the immediate 0 at `0x20000000`, the function `fn`
and its stub at `0x20001000`. -/
theorem arm_call_4k_same_sign_example :
    ∃ st1, relocateARM_entry exEnv (exReloc R_ARM_CALL) exArmBL0 = .ok st1 ∧
      st1.load 0 % 16777216 = 0x000400 ∧ st1.load 0 / 16777216 = 0xEB :=
  (arm_call_4k_same_sign exEnv (exReloc R_ARM_CALL) exArmBL0 exFn (by decide) (by decide)
    (by decide) (by decide) (by decide) (by decide) (by decide) (by decide) (by decide)
    (by decide)).imp fun _ h => ⟨h.1, h.2.1, h.2.2.trans (by decide)⟩

/-! ## The pair `R_MIPS_HI16` / `R_MIPS_LO16` on `_gp_disp` -/

/-- A pointer of at least 32 bits made from an `int32_t` value keeps the value
in its low word. -/
theorem u32_ptrOfInt32 (b s : Nat) (hb : 32 ≤ b) (hs : s < 4294967296) :
    ptrOfInt32 b s % 4294967296 = s := by
  obtain ⟨m, hm⟩ : ∃ m : Nat, (2 : Int) ^ b = 4294967296 * (m : Int) := by
    refine ⟨2 ^ (b - 32), ?_⟩
    have h1 : (2 : Int) ^ b = 2 ^ 32 * 2 ^ (b - 32) := by
      rw [← pow_add]; congr 1; omega
    rw [h1]; norm_num
  have hm0 : 0 < (m : Int) := by
    have h2 : (0 : Int) < 2 ^ b := by positivity
    rw [hm] at h2
    omega
  unfold ptrOfInt32
  rw [hm]
  have h3 := toInt32_facts s
  generalize toInt32 s = z at h3 ⊢
  have h4 : 0 ≤ z % (4294967296 * (m : Int)) := Int.emod_nonneg _ (by omega)
  have h5 : (z % (4294967296 * (m : Int))) % 4294967296 = z % 4294967296 :=
    Int.emod_emod_of_dvd _ (Dvd.intro _ rfl)
  generalize z % (4294967296 * (m : Int)) = w at h4 h5 ⊢
  omega

/-- The common setup of `relocateMIPS` on the symbol `_gp_disp`: no lookup. -/
theorem mipsSetup_gp (env : Env) (rel : ELFReloc) (sym : ELFSymbol) (st : RelocState)
    (hname : sym.name = "_gp_disp") :
    mipsSetup env rel sym st = (false, u32 sym.getAddress, st) := by
  have h3 : ¬ (u32 sym.getAddress = 0 ∧ sym.name ≠ "_gp_disp") := fun h => h.2 hname
  exact if_neg h3

/-- An `R_MIPS_HI16` entry on `_gp_disp`: `S` is computed from the GOT and the
patch address and cached in the symbol; `find_sym` is not called. -/
theorem mipsEntry_HI16_gp (env : Env) (hi lo : ELFReloc) (tail : List ELFReloc)
    (st : RelocState) (sym : ELFSymbol) (hsym : st.symtab[hi.symTabIndex]? = some sym)
    (hin : st.inBounds hi.offset) (ht : hi.type = R_MIPS_HI16)
    (hname : sym.name = "_gp_disp")
    (hfind : findLO16 tail hi.symTabIndex = some lo) (hinL : st.inBounds lo.offset)
    (hdisj : lo.offset + 4 ≤ hi.offset ∨ hi.offset + 4 ≤ lo.offset) :
    ∃ st1, relocateMIPS_entry env hi tail st = .ok st1 ∧
      st1.load hi.offset = st.load hi.offset / 65536 * 65536 +
        asr32 (add32 (add32
          (sub32 (add32 (u32 env.got_address) env.GP_OFFSET) (u32 (st.text.address + hi.offset)))
          (add32 (st.load hi.offset % 65536 * 65536) (short (st.load lo.offset % 65536))))
          0x8000) 16 % 65536 ∧
      st1.load lo.offset = st.load lo.offset ∧
      st1.symtab = st.symtab.modify
        (fun s => { s with address := (ptrOfInt32 env.ptrBits
          (sub32 (add32 (u32 env.got_address) env.GP_OFFSET)
            (u32 (st.text.address + hi.offset)))) }) hi.symTabIndex ∧
      st1.trace = st.trace ++ [Event.setAddress hi.symTabIndex (ptrOfInt32 env.ptrBits
        (sub32 (add32 (u32 env.got_address) env.GP_OFFSET)
          (u32 (st.text.address + hi.offset))))] := by
  have d1 : ¬ (R_MIPS_HI16 = R_MIPS_NONE ∨ R_MIPS_HI16 = R_MIPS_JALR) := by decide
  have d2 : R_MIPS_HI16 ≠ R_MIPS_16 := by decide
  have d3 : R_MIPS_HI16 ≠ R_MIPS_32 := by decide
  have d4 : R_MIPS_HI16 ≠ R_MIPS_26 := by decide
  have hentry : relocateMIPS_entry env hi tail st =
      mipsCaseHI16 env hi tail sym (u32 (st.text.address + hi.offset)) (st.load hi.offset)
        (u32 sym.getAddress) st := by
    unfold relocateMIPS_entry
    simp only [hsym, hin, ht, if_true, if_false, d1, d2, d3, d4, mipsSetup_gp env hi sym st hname]
  have hinL3 : (st.store hi.offset (st.load hi.offset &&& 0xFFFF0000)).inBounds lo.offset :=
    (inBounds_store _ _ _ _).2 hinL
  have hadd : addLO16 (st.store hi.offset (st.load hi.offset &&& 0xFFFF0000)) tail
      hi.symTabIndex (shl32 (st.load hi.offset &&& 0xFFFF) 16) =
      .ok (add32 (st.load hi.offset % 65536 * 65536) (short (st.load lo.offset % 65536))) := by
    unfold addLO16
    simp only [hfind, hinL3, if_true]
    rw [load_store_disjoint _ _ _ _ hin hdisj, shl32_16, and_FFFF]
  have hcase : mipsCaseHI16 env hi tail sym (u32 (st.text.address + hi.offset))
      (st.load hi.offset) (u32 sym.getAddress) st =
      .ok (((st.store hi.offset (st.load hi.offset &&& 0xFFFF0000)).setAddress hi.symTabIndex
          (ptrOfInt32 env.ptrBits (sub32 (add32 (u32 env.got_address) env.GP_OFFSET)
            (u32 (st.text.address + hi.offset))))).store hi.offset
        (((st.store hi.offset (st.load hi.offset &&& 0xFFFF0000)).setAddress hi.symTabIndex
          (ptrOfInt32 env.ptrBits (sub32 (add32 (u32 env.got_address) env.GP_OFFSET)
            (u32 (st.text.address + hi.offset))))).load hi.offset |||
          (asr32 (add32 (add32
            (sub32 (add32 (u32 env.got_address) env.GP_OFFSET) (u32 (st.text.address + hi.offset)))
            (add32 (st.load hi.offset % 65536 * 65536)
              (short (st.load lo.offset % 65536)))) 0x8000) 16 &&& 0xFFFF))) := by
    simp only [mipsCaseHI16, hadd, hname, if_true]
  refine ⟨_, hentry.trans hcase, ?_, ?_, rfl, rfl⟩
  · rw [load_low16_patch st _ hi.offset _ hin (text_setAddress _ _ _)]
  · rw [load_store_disjoint _ _ _ _
      ((inBounds_of_text _ _ (text_setAddress _ _ _) _).2 ((inBounds_store _ _ _ _).2 hin)) hdisj,
      load_eq_of_text _ _ (text_setAddress _ _ _), load_store_disjoint _ _ _ _ hin hdisj]

/-- An `R_MIPS_LO16` entry on `_gp_disp`: `S` is the low word of the address
cached in the symbol; nothing is looked up nor cached. -/
theorem mipsEntry_LO16_gp (env : Env) (lo : ELFReloc) (rest : List ELFReloc)
    (st : RelocState) (sym : ELFSymbol) (hsym : st.symtab[lo.symTabIndex]? = some sym)
    (hin : st.inBounds lo.offset) (ht : lo.type = R_MIPS_LO16)
    (hname : sym.name = "_gp_disp") :
    ∃ st1, relocateMIPS_entry env lo rest st = .ok st1 ∧
      st1.load lo.offset = st.load lo.offset / 65536 * 65536 +
        add32 (sym.address % 4294967296) (st.load lo.offset % 65536) % 65536 ∧
      (∀ off2, (off2 + 4 ≤ lo.offset ∨ lo.offset + 4 ≤ off2) →
        st1.load off2 = st.load off2) ∧
      st1.symtab = st.symtab ∧ st1.trace = st.trace := by
  have d1 : ¬ (R_MIPS_LO16 = R_MIPS_NONE ∨ R_MIPS_LO16 = R_MIPS_JALR) := by decide
  have d2 : R_MIPS_LO16 ≠ R_MIPS_16 := by decide
  have d3 : R_MIPS_LO16 ≠ R_MIPS_32 := by decide
  have d4 : R_MIPS_LO16 ≠ R_MIPS_26 := by decide
  have d5 : R_MIPS_LO16 ≠ R_MIPS_HI16 := by decide
  have hentry : relocateMIPS_entry env lo rest st =
      mipsCaseLO16 lo sym (st.load lo.offset) (u32 sym.getAddress) st := by
    unfold relocateMIPS_entry
    simp only [hsym, hin, ht, if_true, if_false, d1, d2, d3, d4, d5,
      mipsSetup_gp env lo sym st hname]
  have hcase : mipsCaseLO16 lo sym (st.load lo.offset) (u32 sym.getAddress) st =
      .ok ((st.store lo.offset (st.load lo.offset &&& 0xFFFF0000)).store lo.offset
        ((st.store lo.offset (st.load lo.offset &&& 0xFFFF0000)).load lo.offset |||
          (add32 (u32 sym.getAddress) (st.load lo.offset &&& 0xFFFF) &&& 0xFFFF))) := by
    simp only [mipsCaseLO16, hname, if_true]
  refine ⟨_, hentry.trans hcase, ?_, fun off2 hd => ?_, rfl, rfl⟩
  · rw [load_low16_patch st _ lo.offset _ hin rfl, and_FFFF]
    rfl
  · rw [load_store_disjoint _ _ _ _ ((inBounds_store _ _ _ _).2 hin) hd,
      load_store_disjoint _ _ _ _ hin hd]

/-! ## The calls made by one entry of `relocateMIPS` -/

theorem effect_mipsBranchToStub (env : Env) (rel : ELFReloc) (st st1 : RelocState)
    (P target : Nat) (h : mipsBranchToStub env rel st P target = .ok st1) :
    ∃ a, st1.symtab = (st.setAddress rel.symTabIndex a).symtab ∧
      st1.trace = st.trace ++ [Event.setAddress rel.symTabIndex a] := by
  simp only [mipsBranchToStub] at h
  split_ifs at h
  cases h
  exact ⟨_, rfl, rfl⟩

theorem effect_mipsCase16 (rel : ELFReloc) (A S : Nat) (st st1 : RelocState)
    (h : mipsCase16 rel A S st = .ok st1) :
    st1.symtab = st.symtab ∧ st1.trace = st.trace := by
  simp only [mipsCase16] at h
  split_ifs at h
  cases h
  exact ⟨rfl, rfl⟩

theorem effect_mipsCaseLO16 (rel : ELFReloc) (sym : ELFSymbol) (A S : Nat)
    (st st1 : RelocState) (h : mipsCaseLO16 rel sym A S st = .ok st1) :
    st1.symtab = st.symtab ∧ st1.trace = st.trace := by
  simp only [mipsCaseLO16] at h
  cases h
  exact ⟨rfl, rfl⟩

theorem effect_mipsCaseGOT16 (env : Env) (rel : ELFReloc) (rest : List ELFReloc)
    (sym : ELFSymbol) (A S : Nat) (st st1 : RelocState)
    (h : mipsCaseGOT16 env rel rest sym A S st = .ok st1) :
    st1.symtab = st.symtab ∧ st1.trace = st.trace := by
  simp only [mipsCaseGOT16] at h
  split at h
  · cases h
  · cases h
    exact ⟨rfl, rfl⟩

theorem effect_mipsCaseHI16 (env : Env) (rel : ELFReloc) (rest : List ELFReloc)
    (sym : ELFSymbol) (P A S : Nat) (st st1 : RelocState)
    (h : mipsCaseHI16 env rel rest sym P A S st = .ok st1) :
    (sym.name ≠ "_gp_disp" → st1.symtab = st.symtab ∧ st1.trace = st.trace) ∧
    (sym.name = "_gp_disp" →
      ∃ a, st1.symtab = (st.setAddress rel.symTabIndex a).symtab ∧
        st1.trace = st.trace ++ [Event.setAddress rel.symTabIndex a]) := by
  simp only [mipsCaseHI16] at h
  split at h
  · cases h
  · split_ifs at h with hn
    · cases h
      exact ⟨fun h2 => absurd hn h2, fun _ => ⟨_, rfl, rfl⟩⟩
    · cases h
      exact ⟨fun _ => ⟨rfl, rfl⟩, fun h2 => absurd h2 hn⟩

theorem effect_mipsCase26 (env : Env) (rel : ELFReloc) (sym : ELFSymbol) (P A S : Nat)
    (need_stub : Bool) (st st1 : RelocState)
    (h : mipsCase26 env rel sym P A S need_stub st = .ok st1) :
    (st1.symtab = st.symtab ∧ st1.trace = st.trace) ∨
    ∃ a, st1.symtab = (st.setAddress rel.symTabIndex a).symtab ∧
      st1.trace = st.trace ++ [Event.setAddress rel.symTabIndex a] := by
  simp only [mipsCase26] at h
  split_ifs at h
  all_goals first
    | (injection h with h
       subst h
       exact Or.inl ⟨rfl, rfl⟩)
    | (obtain ⟨a, h1, h2⟩ := effect_mipsBranchToStub _ _ _ _ _ _ h
       exact Or.inr ⟨a, h1, h2⟩)

/-- What one entry of `relocateMIPS` does to the symbol table and to the
trace, after the common setup: nothing, except for the `setAddress` of the
case `R_MIPS_26` (a stub) and of the case `R_MIPS_HI16` on `_gp_disp`. -/
theorem effect_relocateMIPS_entry (env : Env) (rel : ELFReloc) (rest : List ELFReloc)
    (st st1 : RelocState) (sym : ELFSymbol) (hsym : st.symtab[rel.symTabIndex]? = some sym)
    (h : relocateMIPS_entry env rel rest st = .ok st1) :
    ((st1.symtab = (mipsSetup env rel sym st).2.2.symtab ∧
        st1.trace = (mipsSetup env rel sym st).2.2.trace) ∨
      ∃ a, st1.symtab = ((mipsSetup env rel sym st).2.2.setAddress rel.symTabIndex a).symtab ∧
        st1.trace = (mipsSetup env rel sym st).2.2.trace ++
          [Event.setAddress rel.symTabIndex a]) ∧
    (rel.type ≠ R_MIPS_26 → (rel.type = R_MIPS_HI16 → sym.name ≠ "_gp_disp") →
      st1.symtab = (mipsSetup env rel sym st).2.2.symtab ∧
        st1.trace = (mipsSetup env rel sym st).2.2.trace) := by
  unfold relocateMIPS_entry at h
  simp only [hsym] at h
  by_cases hin : st.inBounds rel.offset
  · simp only [hin, if_true] at h
    by_cases t1 : rel.type = R_MIPS_NONE ∨ rel.type = R_MIPS_JALR
    · rw [if_pos t1] at h; cases h; exact ⟨Or.inl ⟨rfl, rfl⟩, fun _ _ => ⟨rfl, rfl⟩⟩
    rw [if_neg t1] at h
    by_cases t2 : rel.type = R_MIPS_16
    · rw [if_pos t2] at h
      have e := effect_mipsCase16 _ _ _ _ _ h
      exact ⟨Or.inl e, fun _ _ => e⟩
    rw [if_neg t2] at h
    by_cases t3 : rel.type = R_MIPS_32
    · rw [if_pos t3] at h; cases h; exact ⟨Or.inl ⟨rfl, rfl⟩, fun _ _ => ⟨rfl, rfl⟩⟩
    rw [if_neg t3] at h
    by_cases t4 : rel.type = R_MIPS_26
    · rw [if_pos t4] at h
      exact ⟨effect_mipsCase26 _ _ _ _ _ _ _ _ _ h, fun hn => absurd t4 hn⟩
    rw [if_neg t4] at h
    by_cases t5 : rel.type = R_MIPS_HI16
    · rw [if_pos t5] at h
      have e := effect_mipsCaseHI16 _ _ _ _ _ _ _ _ _ h
      refine ⟨?_, fun _ hn => e.1 (hn t5)⟩
      by_cases hn : sym.name = "_gp_disp"
      · exact Or.inr (e.2 hn)
      · exact Or.inl (e.1 hn)
    rw [if_neg t5] at h
    by_cases t6 : rel.type = R_MIPS_LO16
    · rw [if_pos t6] at h
      have e := effect_mipsCaseLO16 _ _ _ _ _ _ h
      exact ⟨Or.inl e, fun _ _ => e⟩
    rw [if_neg t6] at h
    by_cases t7 : rel.type = R_MIPS_GOT16 ∨ rel.type = R_MIPS_CALL16
    · rw [if_pos t7] at h
      have e := effect_mipsCaseGOT16 _ _ _ _ _ _ _ _ h
      exact ⟨Or.inl e, fun _ _ => e⟩
    rw [if_neg t7] at h
    by_cases t8 : rel.type = R_MIPS_GPREL32
    · rw [if_pos t8] at h; cases h; exact ⟨Or.inl ⟨rfl, rfl⟩, fun _ _ => ⟨rfl, rfl⟩⟩
    rw [if_neg t8] at h
    cases h
  · simp only [hin, if_false] at h
    cases h

/-- No entry of `relocateMIPS` on the symbol `_gp_disp` calls `find_sym`: the
only call it can record is a `setAddress` on that symbol. -/
theorem mips_gp_no_lookup (env : Env) (rel : ELFReloc) (rest : List ELFReloc)
    (st st1 : RelocState) (sym : ELFSymbol) (hsym : st.symtab[rel.symTabIndex]? = some sym)
    (hname : sym.name = "_gp_disp")
    (h : relocateMIPS_entry env rel rest st = .ok st1) :
    st1.trace = st.trace ∨ ∃ a, st1.trace = st.trace ++ [Event.setAddress rel.symTabIndex a] := by
  have e := (effect_relocateMIPS_entry env rel rest st st1 sym hsym h).1
  rw [mipsSetup_gp env rel sym st hname] at e
  rcases e with e | ⟨a, e⟩
  · exact Or.inl e.2
  · exact Or.inr ⟨a, e.2⟩

/-- Counterexample to C18 as stated: in the table `[HI16 @0, HI16 @8, LO16 @4]`
on `_gp_disp` (three distinct patch sites, the LO16 entry being the nearest
one after the first HI16 entry), the LO16 entry reads the value cached by the
second HI16 entry, `got + GP_OFFSET - (P_hi + 8) = 0x10007FE8`; the first pair
then gives `0x1000 * 2^16 + 0x7FE8 = 0x10007FE8`, not
`got + GP_OFFSET - P_hi + A_combined = 0x10007FF0`. -/
theorem mips_gp_disp_pair_counterexample :
    findLO16 [exHi8, exLo] exHi.symTabIndex = some exLo ∧
    (exMipsGp3.load 0 % 65536, exMipsGp3.load 4 % 65536) = (0, 0) ∧
    (forEachReloc (relocateMIPS_entry exEnv) [exHi, exHi8, exLo] exMipsGp3).toOption.map
        (fun s => (s.load 0 % 65536, s.load 4 % 65536, s.trace)) =
      some (0x1000, 0x7FE8,
        [Event.setAddress 0 0x10007FF0, Event.setAddress 0 0x10007FE8]) ∧
    (((0x1000 * 65536 : Nat) : Int) + toInt32 (short 0x7FE8)) % 4294967296 ≠
      ((exEnv.got_address : Int) + exEnv.GP_OFFSET - (0x20000000 + 0) +
        (((0 * 65536 : Nat) : Int) + toInt32 (short 0))) % 4294967296 := by
  decide

/-- C18 (amended): the pair `R_MIPS_HI16` / `R_MIPS_LO16` on `_gp_disp`. On a
host whose pointers have at least 32 bits, in a table where an `R_MIPS_HI16`
entry on the symbol named `_gp_disp`, at the patch address `P_hi`, is followed
by its nearest `R_MIPS_LO16` entry on the same symbol, the two words inside
the section and not overlapping, the entries between the two not aborting and
leaving the two words and the symbol's cached address as the HI16 entry left
them: the LO16 entry is processed without abort and afterwards
`(patched_hi << 16) + sign_extend_16(patched_lo)` is
`(got_base + GP_OFFSET - P_hi + A_combined) mod 2^32`. The HI16 entry records
one `setAddress` and no `find_sym`; the LO16 entry records no call at all and
leaves the symbol table alone: it reads the value cached for `P_hi`. No entry
of `relocateMIPS` on a symbol named `_gp_disp` calls `find_sym`: the only call
it can record is a `setAddress` on that symbol. -/
theorem mips_gp_disp_pair (env : Env) (hi lo : ELFReloc) (mid rest : List ELFReloc)
    (st0 st1 st2 : RelocState) (sym : ELFSymbol) (hptr : 32 ≤ env.ptrBits)
    (hhi : hi.type = R_MIPS_HI16) (hlo : lo.type = R_MIPS_LO16)
    (hidx : lo.symTabIndex = hi.symTabIndex)
    (hnear : ∀ r ∈ mid, ¬ (r.type = R_MIPS_LO16 ∧ r.symTabIndex = hi.symTabIndex))
    (hsym : st0.symtab[hi.symTabIndex]? = some sym) (hname : sym.name = "_gp_disp")
    (hinH : st0.inBounds hi.offset) (hinL : st0.inBounds lo.offset)
    (hdisj : lo.offset + 4 ≤ hi.offset ∨ hi.offset + 4 ≤ lo.offset)
    (hrunH : relocateMIPS_entry env hi (mid ++ lo :: rest) st0 = .ok st1)
    (hrunM : forEachRelocBefore (relocateMIPS_entry env) mid (lo :: rest) st1 = .ok st2)
    (hkeepH : st2.load hi.offset = st1.load hi.offset)
    (hkeepL : st2.load lo.offset = st1.load lo.offset)
    (hkeepS : st2.symtab[hi.symTabIndex]? = st1.symtab[hi.symTabIndex]?) :
    ∃ st3, relocateMIPS_entry env lo rest st2 = .ok st3 ∧
      (((st3.load hi.offset % 65536 * 65536 : Nat) : Int) +
          toInt32 (short (st3.load lo.offset))) % 4294967296 =
        ((env.got_address : Int) + env.GP_OFFSET
            - (((st0.text.address + hi.offset) % 4294967296 : Nat) : Int) +
          (((st0.load hi.offset % 65536 * 65536 : Nat) : Int) +
            toInt32 (short (st0.load lo.offset)))) % 4294967296 ∧
      (∃ a, st1.trace = st0.trace ++ [Event.setAddress hi.symTabIndex a]) ∧
      st3.trace = st2.trace ∧ st3.symtab = st2.symtab ∧
      (∀ (rel : ELFReloc) (tail : List ELFReloc) (s s1 : RelocState) (y : ELFSymbol),
        s.symtab[rel.symTabIndex]? = some y → y.name = "_gp_disp" →
        relocateMIPS_entry env rel tail s = .ok s1 →
        s1.trace = s.trace ∨ ∃ a, s1.trace = s.trace ++ [Event.setAddress rel.symTabIndex a])
    := by
  obtain ⟨s1, e1, hH1, hL1, hsy1, htr1⟩ := mipsEntry_HI16_gp env hi lo (mid ++ lo :: rest) st0 sym
    hsym hinH hhi hname (findLO16_append mid rest lo hi.symTabIndex hnear hlo hidx) hinL hdisj
  rw [hrunH] at e1
  injection e1 with e1
  subst e1
  have f1 := sameFrame_relocateMIPS_entry env hi (mid ++ lo :: rest) st0 st1 hrunH
  have f2 := sameFrame_forEachRelocBefore (relocateMIPS_entry env)
    (sameFrame_relocateMIPS_entry env) mid (lo :: rest) st1 st2 hrunM
  have hinL2 : st2.inBounds lo.offset := ((f1.trans f2).inBounds _).2 hinL
  -- the symbol as the HI16 entry left it
  have hsym2 : st2.symtab[lo.symTabIndex]? = some { sym with address := (ptrOfInt32 env.ptrBits
      (sub32 (add32 (u32 env.got_address) env.GP_OFFSET) (u32 (st0.text.address + hi.offset)))) } := by
    rw [hidx, hkeepS, hsy1, List.getElem?_modify_eq, hsym]
    rfl
  obtain ⟨st3, e3, hL3, hfr3, hsy3, htr3⟩ := mipsEntry_LO16_gp env lo rest st2 _ hsym2 hinL2 hlo
    hname
  refine ⟨st3, e3, ?_, ⟨_, htr1⟩, htr3, hsy3,
    fun rel tail s s1 y hy hn hr => mips_gp_no_lookup env rel tail s s1 y hy hn hr⟩
  have hH3 : st3.load hi.offset = st1.load hi.offset := by
    rw [hfr3 hi.offset (by omega), hkeepH]
  have hSlt : sub32 (add32 (u32 env.got_address) env.GP_OFFSET)
      (u32 (st0.text.address + hi.offset)) < 4294967296 := Nat.mod_lt _ (by decide)
  have hcached : (ptrOfInt32 env.ptrBits (sub32 (add32 (u32 env.got_address) env.GP_OFFSET)
      (u32 (st0.text.address + hi.offset)))) % 4294967296 =
      sub32 (add32 (u32 env.got_address) env.GP_OFFSET) (u32 (st0.text.address + hi.offset)) :=
    u32_ptrOfInt32 _ _ hptr hSlt
  simp only [hcached] at hL3
  rw [hkeepL, hL1] at hL3
  have ha := hi16_lo16_arith
    (sub32 (add32 (u32 env.got_address) env.GP_OFFSET) (u32 (st0.text.address + hi.offset)))
    (st0.load hi.offset % 65536) (st0.load lo.offset % 65536)
    (st3.load hi.offset % 65536) (st3.load lo.offset % 65536) (by omega)
    (by rw [hH3, hH1]; omega) (by rw [hL3]; omega)
  rw [short_mod, short_mod] at ha
  rw [ha]
  have hS : ((sub32 (add32 (u32 env.got_address) env.GP_OFFSET)
      (u32 (st0.text.address + hi.offset)) : Nat) : Int) % 4294967296 =
      ((env.got_address : Int) + env.GP_OFFSET
        - (((st0.text.address + hi.offset) % 4294967296 : Nat) : Int)) % 4294967296 := by
    unfold sub32 add32 u32
    omega
  generalize ((st0.load hi.offset % 65536 * 65536 : Nat) : Int) +
    toInt32 (short (st0.load lo.offset)) = A
  generalize ((sub32 (add32 (u32 env.got_address) env.GP_OFFSET)
      (u32 (st0.text.address + hi.offset)) : Nat) : Int) = X at hS ⊢
  omega
/-- Witness of C18 (amended): `lui` / `addiu` against `_gp_disp` with the GOT
at `0x30000000`, `GP_OFFSET = 0x7FF0` and `P_hi = 0x20000000`: the immediates
become `0x1000` and `0x7FF0`, which combine to `0x10007FF0`. -/
theorem mips_gp_disp_pair_witness :
    (forEachReloc (relocateMIPS_entry exEnv) [exHi, exLo] exMipsGp).toOption.map
        (fun s => (s.load 0, s.load 4, s.trace)) =
      some (0x3C011000, 0x24217FF0, [Event.setAddress 0 0x10007FF0]) ∧
    ∃ st3, relocateMIPS_entry exEnv exLo [] exMipsGpHi = .ok st3 ∧
      (((st3.load exHi.offset % 65536 * 65536 : Nat) : Int) +
          toInt32 (short (st3.load exLo.offset))) % 4294967296 =
        ((exEnv.got_address : Int) + exEnv.GP_OFFSET
            - (((exMipsGp.text.address + exHi.offset) % 4294967296 : Nat) : Int) +
          (((exMipsGp.load exHi.offset % 65536 * 65536 : Nat) : Int) +
            toInt32 (short (exMipsGp.load exLo.offset)))) % 4294967296 ∧
      (∃ a, exMipsGpHi.trace = exMipsGp.trace ++ [Event.setAddress exHi.symTabIndex a]) ∧
      st3.trace = exMipsGpHi.trace ∧ st3.symtab = exMipsGpHi.symtab :=
  ⟨by decide,
   (mips_gp_disp_pair exEnv exHi exLo [] [] exMipsGp exMipsGpHi exMipsGpHi exGpDisp (by decide)
     rfl rfl rfl (by simp) (by decide) (by decide) (by decide) (by decide) (by decide)
     (by decide) (by decide) rfl rfl rfl).imp
     fun _ h => ⟨h.1, h.2.1, h.2.2.1, h.2.2.2.1, h.2.2.2.2.1⟩⟩

/-! ## Calls recorded by a lookup -/

theorem setAddressCount_lookup (i idx a : Nat) (name : String) (tr : List Event) :
    setAddressCount i (tr ++ [Event.findSym name, Event.setAddress idx a]) =
      setAddressCount i tr + (if idx = i then 1 else 0) := by
  unfold setAddressCount
  rw [List.countP_append]
  simp [List.countP_cons, Event.isSetAddress]

theorem resolved_congr {st st1 : RelocState} {i : Nat} (h : st1.symtab[i]? = st.symtab[i]?) :
    st1.resolved i ↔ st.resolved i := by
  unfold RelocState.resolved
  rw [h]

theorem effect_resolveSymbol (env : Env) (st : RelocState) (idx : Nat) (name : String) :
    (resolveSymbol env st idx name).2.symtab = st.symtab.modify
      (fun s => { s with address := (ptrOfInt32 env.ptrBits (env.find_sym name % 4294967296)) })
      idx ∧
    (resolveSymbol env st idx name).2.trace = st.trace ++ [Event.findSym name,
      Event.setAddress idx (ptrOfInt32 env.ptrBits (env.find_sym name % 4294967296))] := by
  simp only [resolveSymbol, RelocState.findSym, RelocState.setAddress, RelocState.markMissing,
    u32]
  split <;> simp

theorem effect_findSym_setAddress (env : Env) (st : RelocState) (name : String) (c : Bool)
    (idx a : Nat) :
    (((st.findSym env name).2.markMissing c).setAddress idx a).symtab =
      st.symtab.modify (fun s => { s with address := a }) idx ∧
    (((st.findSym env name).2.markMissing c).setAddress idx a).trace =
      st.trace ++ [Event.findSym name, Event.setAddress idx a] := by
  simp only [RelocState.findSym, RelocState.setAddress, RelocState.markMissing]
  split <;> simp

/-- An i386 entry on a resolved symbol makes no call: the address cached in
the symbol is the one read. -/
theorem x86_32_resolved_no_call (env : Env) (rel : ELFReloc) (st st1 : RelocState)
    (hres : st.resolved rel.symTabIndex)
    (h : relocateX86_32_entry env rel st = .ok st1) :
    st1.symtab = st.symtab ∧ st1.trace = st.trace := by
  obtain ⟨sym, hsym, hnz⟩ := hres
  have h0 : ¬ u32 sym.getAddress = 0 := hnz
  unfold relocateX86_32_entry at h
  simp only [hsym, h0, if_false] at h
  split_ifs at h
  all_goals
    cases h
    exact ⟨rfl, rfl⟩

/-- An x86-64 entry on a resolved symbol makes no call. -/
theorem x86_64_resolved_no_call (env : Env) (rel : ELFReloc) (st st1 : RelocState)
    (hres : st.resolved rel.symTabIndex)
    (h : relocateX86_64_entry env rel st = .ok st1) :
    st1.symtab = st.symtab ∧ st1.trace = st.trace := by
  obtain ⟨sym, hsym, hnz⟩ := hres
  have h0 : ¬ u32 sym.getAddress = 0 := hnz
  unfold relocateX86_64_entry at h
  simp only [hsym, h0, if_false, RelocState.storeChecked] at h
  split_ifs at h
  all_goals
    cases h
    exact ⟨rfl, rfl⟩

/-- An ARM entry on a resolved symbol makes no call. -/
theorem arm_resolved_no_call (env : Env) (rel : ELFReloc) (st st1 : RelocState)
    (hres : st.resolved rel.symTabIndex)
    (h : relocateARM_entry env rel st = .ok st1) :
    st1.symtab = st.symtab ∧ st1.trace = st.trace := by
  obtain ⟨sym, hsym, hnz⟩ := hres
  have h0 : ¬ (u32 sym.getAddress = 0 ∧ sym.type = STT_NOTYPE) := fun hh => hnz hh.1
  have ha : ¬ sym.getAddress = 0 := by
    intro hz
    apply hnz
    have : sym.address = 0 := hz
    rw [this]
  unfold relocateARM_entry at h
  simp only [hsym, h0, if_false, armCallee, ha] at h
  split_ifs at h
  all_goals first
    | (cases h
       exact ⟨rfl, rfl⟩)
    | (simp only at h
       split_ifs at h
       cases h
       exact ⟨rfl, rfl⟩)

/-! ## Symbol resolution of `relocateX86_64` -/

/-- The conversion `(void *)S` on a host with 64-bit pointers: the sign
extension of the 32-bit value. -/
theorem ptrOfInt32_64 (s : Nat) (hs : s < 4294967296) :
    ptrOfInt32 64 s = if s < 2147483648 then s else s + 18446744069414584320 := by
  unfold ptrOfInt32 toInt32
  have h64 : (2 : Int) ^ 64 = 18446744073709551616 := by norm_num
  rw [h64]
  split_ifs <;> omega

/-- What a supported entry of `relocateX86_64` returns when the low word of
the cached address is zero: the state after the lookup, with one store. -/
theorem x86_64_lookup_entry_eq (env : Env) (rel : ELFReloc) (st : RelocState) (sym : ELFSymbol)
    (hsym : st.symtab[rel.symTabIndex]? = some sym) (hin : st.inBounds rel.offset)
    (ht : rel.type = 1 ∨ rel.type = 2 ∨ rel.type = 10 ∨ rel.type = 11)
    (hzero : sym.address % 4294967296 = 0) :
    ∃ v, relocateX86_64_entry env rel st =
      .ok ((resolveSymbol env st rel.symTabIndex sym.name).2.store rel.offset v) := by
  have h1 : u32 sym.getAddress = 0 := hzero
  have hin2 : (resolveSymbol env st rel.symTabIndex sym.name).2.inBounds rel.offset :=
    (inBounds_of_text _ _ (text_resolveSymbol _ _ _ _) _).2 hin
  unfold relocateX86_64_entry
  simp only [hsym, h1, if_true, RelocState.storeChecked, hin2]
  rcases ht with t | t | t | t <;> simp only [t] <;> split_ifs <;>
    first | exact ⟨_, rfl⟩ | simp_all

/-- C21: symbol resolution of `relocateX86_64` works on 32 bits. For an entry
of a supported type, its word inside the section, whose symbol's cached
address has zero low 32 bits (null or not), the entry is processed without
abort and: `find_sym` is called once, on the symbol's name; the address stored
in the symbol with `setAddress` is `(void *)S` for `S` the low 32 bits of the
value of `find_sym`, that is their sign extension to the width of a pointer
(on a 64-bit host: the low word itself below `2^31`, the low word plus
`2^64 - 2^32` from `2^31` on), not the value of `find_sym`; `missingSymbols`
is set exactly when these low 32 bits are zero, whatever the upper bits of
the value, and keeps its previous value otherwise. -/
theorem x86_64_resolution_32bit (env : Env) (rel : ELFReloc) (st : RelocState)
    (sym : ELFSymbol) (hsym : st.symtab[rel.symTabIndex]? = some sym)
    (hin : st.inBounds rel.offset)
    (ht : rel.type = 1 ∨ rel.type = 2 ∨ rel.type = 10 ∨ rel.type = 11)
    (hzero : sym.address % 4294967296 = 0) :
    ∃ st1, relocateX86_64_entry env rel st = .ok st1 ∧
      st1.trace = st.trace ++ [Event.findSym sym.name,
        Event.setAddress rel.symTabIndex
          (ptrOfInt32 env.ptrBits (env.find_sym sym.name % 4294967296))] ∧
      st1.symtab[rel.symTabIndex]? = some { sym with
        address := (ptrOfInt32 env.ptrBits (env.find_sym sym.name % 4294967296)) } ∧
      (∀ j, j ≠ rel.symTabIndex → st1.symtab[j]? = st.symtab[j]?) ∧
      st1.missingSymbols =
        (decide (env.find_sym sym.name % 4294967296 = 0) || st.missingSymbols) ∧
      (st.missingSymbols = false →
        (st1.missingSymbols = true ↔ env.find_sym sym.name % 4294967296 = 0)) ∧
      (env.ptrBits = 64 →
        ptrOfInt32 env.ptrBits (env.find_sym sym.name % 4294967296) =
          if env.find_sym sym.name % 4294967296 < 2147483648
          then env.find_sym sym.name % 4294967296
          else env.find_sym sym.name % 4294967296 + 18446744069414584320) := by
  obtain ⟨v, hentry⟩ := x86_64_lookup_entry_eq env rel st sym hsym hin ht hzero
  obtain ⟨e1, e2⟩ := effect_resolveSymbol env st rel.symTabIndex sym.name
  have hm := missing_resolveSymbol env st rel.symTabIndex sym.name
  have hs : ((resolveSymbol env st rel.symTabIndex sym.name).2.store rel.offset v).symtab =
      (resolveSymbol env st rel.symTabIndex sym.name).2.symtab := rfl
  refine ⟨_, hentry, e2, ?_, fun j hj => ?_, hm, fun h0 => ?_, fun h64 => ?_⟩
  · rw [hs, e1, List.getElem?_modify_eq, hsym]
    rfl
  · rw [hs, e1, List.getElem?_modify_ne _ _ (Ne.symm hj)]
  · have hm2 : ((resolveSymbol env st rel.symTabIndex sym.name).2.store rel.offset
        v).missingSymbols =
        (decide (env.find_sym sym.name % 4294967296 = 0) || st.missingSymbols) := hm
    rw [hm2, h0]
    simp
  · rw [h64]
    exact ptrOfInt32_64 _ (Nat.mod_lt _ (by decide))

/-- Witness of C21: on a 64-bit host, `bar` found at `0x180400100` is
stored as `0xFFFFFFFF80400100`, the sign extension of the low word
`0x80400100`, and is not missing; `foo` found at `0x100000000`, not null but
with a zero low word, is stored as null and counts as missing. -/
theorem x86_64_resolution_32bit_witness :
    (exEnv64High.find_sym "bar" = 0x180400100 ∧
      ∃ st1, relocateX86_64_entry exEnv64High (exReloc 10) exState64 = .ok st1 ∧
        st1.symtab[0]? = some { exBar with address := 0xFFFFFFFF80400100 } ∧
        st1.missingSymbols = false) ∧
    (exEnv64High.find_sym "foo" = 0x100000000 ∧
      ∃ st1, relocateX86_64_entry exEnv64High (exReloc 10) exState64Foo = .ok st1 ∧
        st1.symtab[0]? = some { exFoo with address := 0 } ∧
        st1.missingSymbols = true) := by
  refine ⟨⟨by decide, ?_⟩, ⟨by decide, ?_⟩⟩
  · obtain ⟨s, h1, _, h3, _, h5, _⟩ := x86_64_resolution_32bit exEnv64High (exReloc 10)
      exState64 exBar (by decide) (by decide) (by decide) (by decide)
    exact ⟨s, h1, h3.trans (by decide), h5.trans (by decide)⟩
  · obtain ⟨s, h1, _, h3, _, h5, _⟩ := x86_64_resolution_32bit exEnv64High (exReloc 10)
      exState64Foo exFoo (by decide) (by decide) (by decide) (by decide)
    exact ⟨s, h1, h3.trans (by decide), h5.trans (by decide)⟩

/-! ## Lookups that fail -/

theorem ptrOfInt32_zero (b : Nat) : ptrOfInt32 b 0 = 0 := by
  unfold ptrOfInt32 toInt32
  simp

/-- The block run for an unresolved symbol, when `find_sym` returns null. -/
theorem resolveSymbol_failed (env : Env) (st : RelocState) (idx : Nat) (name : String)
    (hfind : env.find_sym name = 0) :
    resolveSymbol env st idx name = (0, st.afterFailedLookup idx name) := by
  simp [resolveSymbol, RelocState.findSym, RelocState.setAddress, RelocState.markMissing,
    RelocState.afterFailedLookup, u32, hfind, ptrOfInt32_zero]

/-- The lookup of the ARM cases, when `find_sym` returns null. -/
theorem armLookup_failed (env : Env) (st : RelocState) (idx : Nat) (name : String)
    (hfind : env.find_sym name = 0) :
    ((st.findSym env name).2.markMissing ((st.findSym env name).1 == 0)).setAddress idx
      (st.findSym env name).1 = st.afterFailedLookup idx name := by
  simp [RelocState.findSym, RelocState.setAddress, RelocState.markMissing,
    RelocState.afterFailedLookup, hfind]

theorem text_afterFailedLookup (st : RelocState) (idx : Nat) (name : String) :
    (st.afterFailedLookup idx name).text = st.text := rfl

/-- An i386 entry of a supported type on an unresolved symbol that `find_sym`
does not know: the lookup, then the store. -/
theorem x86_32_failed_lookup (env : Env) (rel : ELFReloc) (st : RelocState) (sym : ELFSymbol)
    (hsym : st.symtab[rel.symTabIndex]? = some sym) (hin : st.inBounds rel.offset)
    (ht : rel.type = R_386_PC32 ∨ rel.type = R_386_32)
    (hnull : sym.address = 0) (hfind : env.find_sym sym.name = 0) :
    ∃ v, relocateX86_32_entry env rel st =
      .ok ((st.afterFailedLookup rel.symTabIndex sym.name).store rel.offset v) := by
  have h0 : u32 sym.getAddress = 0 := by simp [u32, ELFSymbol.getAddress, hnull]
  unfold relocateX86_32_entry
  simp only [hsym, hin, h0, if_true, resolveSymbol_failed env st _ _ hfind]
  rcases ht with t | t
  · rw [if_pos t]; exact ⟨_, rfl⟩
  · have t2 : ¬ rel.type = R_386_PC32 := by rw [t]; decide
    rw [if_neg t2, if_pos t]; exact ⟨_, rfl⟩

/-- An x86-64 entry of a supported type on an unresolved symbol that
`find_sym` does not know: the lookup, then the store. -/
theorem x86_64_failed_lookup (env : Env) (rel : ELFReloc) (st : RelocState) (sym : ELFSymbol)
    (hsym : st.symtab[rel.symTabIndex]? = some sym) (hin : st.inBounds rel.offset)
    (ht : rel.type = 1 ∨ rel.type = 2 ∨ rel.type = 10 ∨ rel.type = 11)
    (hnull : sym.address = 0) (hfind : env.find_sym sym.name = 0) :
    ∃ v, relocateX86_64_entry env rel st =
      .ok ((st.afterFailedLookup rel.symTabIndex sym.name).store rel.offset v) := by
  have hz : sym.address % 4294967296 = 0 := by rw [hnull]
  obtain ⟨v, hv⟩ := x86_64_lookup_entry_eq env rel st sym hsym hin ht hz
  rw [resolveSymbol_failed env st _ _ hfind] at hv
  exact ⟨v, hv⟩

/-- An `R_ARM_MOVW_ABS_NC` / `R_ARM_MOVT_ABS` entry on an unresolved symbol of
type `STT_NOTYPE` that `find_sym` does not know: the lookup, then the store. -/
theorem arm_movw_failed_lookup (env : Env) (rel : ELFReloc) (st : RelocState) (sym : ELFSymbol)
    (hsym : st.symtab[rel.symTabIndex]? = some sym) (hin : st.inBounds rel.offset)
    (ht : rel.type = R_ARM_MOVT_ABS ∨ rel.type = R_ARM_MOVW_ABS_NC)
    (hty : sym.type = STT_NOTYPE)
    (hnull : sym.address = 0) (hfind : env.find_sym sym.name = 0) :
    ∃ v, relocateARM_entry env rel st =
      .ok ((st.afterFailedLookup rel.symTabIndex sym.name).store rel.offset v) := by
  have e1 : ¬ rel.type = R_ARM_ABS32 := by rcases ht with h | h <;> rw [h] <;> decide
  have e2 : ¬ rel.type = R_ARM_CALL := by rcases ht with h | h <;> rw [h] <;> decide
  have h0 : u32 sym.getAddress = 0 ∧ sym.type = STT_NOTYPE :=
    ⟨by simp [u32, ELFSymbol.getAddress, hnull], hty⟩
  have hin2 : (st.afterFailedLookup rel.symTabIndex sym.name).inBounds rel.offset := hin
  unfold relocateARM_entry
  simp only [hsym]
  rw [if_neg e1, if_neg e2, if_pos ht]
  simp only [h0, and_self, if_true, armLookup_failed env st _ _ hfind, hin2]
  exact ⟨_, rfl⟩

/-- The symbol-type switch of `R_ARM_CALL` on an unresolved symbol of type
`STT_NOTYPE` that `find_sym` does not know returns the null callee. -/
theorem armCallee_failed_lookup (env : Env) (rel : ELFReloc) (sym : ELFSymbol)
    (st : RelocState) (hty : sym.type = STT_NOTYPE) (hnull : sym.address = 0)
    (hfind : env.find_sym sym.name = 0) :
    armCallee env rel sym st = .ok (0, st.afterFailedLookup rel.symTabIndex sym.name) := by
  have d : ¬ STT_NOTYPE = STT_FUNC := by decide
  have ha : sym.getAddress = 0 := hnull
  have hl := armLookup_failed env st rel.symTabIndex sym.name hfind
  have h1 : (st.findSym env sym.name).1 = 0 := hfind
  rw [h1] at hl
  simp only [armCallee, hty, d, if_false, if_true, ha, h1, hl]

/-- An `R_ARM_CALL` entry on such a symbol: the lookup, then the checks on the
stub, then the store. -/
theorem arm_call_failed_lookup (env : Env) (rel : ELFReloc) (st : RelocState) (sym : ELFSymbol)
    (hsym : st.symtab[rel.symTabIndex]? = some sym) (hin : st.inBounds rel.offset)
    (ht : rel.type = R_ARM_CALL) (hty : sym.type = STT_NOTYPE)
    (hnull : sym.address = 0) (hfind : env.find_sym sym.name = 0) :
    ∃ v, relocateARM_entry env rel st =
      if st.text.stubLayout = 0 then .error Fault.noStubLayout
      else if env.allocateStub st.text.stubLayout 0 = 0 then .error Fault.cannotAllocateStub
      else if
        add32 (sub32 (asr32 (u32 (env.allocateStub st.text.stubLayout 0)) 2)
            (asr32 (u32 (st.text.address + rel.offset)) 2))
          (SIGN_EXTEND (st.load rel.offset &&& 0xFFFFFF) 24) > 0x007fffff ∧
        add32 (sub32 (asr32 (u32 (env.allocateStub st.text.stubLayout 0)) 2)
            (asr32 (u32 (st.text.address + rel.offset)) 2))
          (SIGN_EXTEND (st.load rel.offset &&& 0xFFFFFF) 24) < 0xff800000
      then .error Fault.stubTooFar
      else .ok ((st.afterFailedLookup rel.symTabIndex sym.name).store rel.offset v) := by
  have h0 : R_ARM_CALL ≠ R_ARM_ABS32 := by decide
  have hc := armCallee_failed_lookup env rel sym st hty hnull hfind
  unfold relocateARM_entry
  simp only [hsym, ht, h0, hin, if_true, if_false, hc, text_afterFailedLookup]
  exact ⟨_, rfl⟩
/-- The common setup of `relocateMIPS` on an unresolved symbol, not
`_gp_disp`, that `find_sym` does not know. -/
theorem mipsSetup_failed (env : Env) (rel : ELFReloc) (sym : ELFSymbol) (st : RelocState)
    (hname : sym.name ≠ "_gp_disp") (hnull : sym.address = 0)
    (hfind : env.find_sym sym.name = 0) :
    mipsSetup env rel sym st = (true, 0, st.afterFailedLookup rel.symTabIndex sym.name) := by
  have h3 : u32 sym.getAddress = 0 ∧ sym.name ≠ "_gp_disp" :=
    ⟨by simp [u32, ELFSymbol.getAddress, hnull], hname⟩
  have hs : mipsSetup env rel sym st =
      (true, (resolveSymbol env st rel.symTabIndex sym.name).1,
        (resolveSymbol env st rel.symTabIndex sym.name).2) := if_pos h3
  rw [hs, resolveSymbol_failed env st _ _ hfind]

/-- A MIPS entry on such a symbol: the lookup, then the case of its type, run
with `S = 0` and `need_stub` set. -/
theorem mips_failed_lookup_eq (env : Env) (rel : ELFReloc) (rest : List ELFReloc)
    (st : RelocState) (sym : ELFSymbol) (hsym : st.symtab[rel.symTabIndex]? = some sym)
    (hin : st.inBounds rel.offset) (hname : sym.name ≠ "_gp_disp")
    (hnull : sym.address = 0) (hfind : env.find_sym sym.name = 0) :
    relocateMIPS_entry env rel rest st =
      if rel.type = R_MIPS_NONE ∨ rel.type = R_MIPS_JALR then
        .ok (st.afterFailedLookup rel.symTabIndex sym.name)
      else if rel.type = R_MIPS_16 then
        mipsCase16 rel (st.load rel.offset) 0 (st.afterFailedLookup rel.symTabIndex sym.name)
      else if rel.type = R_MIPS_32 then
        .ok ((st.afterFailedLookup rel.symTabIndex sym.name).store rel.offset
          (add32 0 (st.load rel.offset)))
      else if rel.type = R_MIPS_26 then
        mipsCase26 env rel sym (u32 (st.text.address + rel.offset)) (st.load rel.offset) 0 true
          (st.afterFailedLookup rel.symTabIndex sym.name)
      else if rel.type = R_MIPS_HI16 then
        mipsCaseHI16 env rel rest sym (u32 (st.text.address + rel.offset))
          (st.load rel.offset) 0 (st.afterFailedLookup rel.symTabIndex sym.name)
      else if rel.type = R_MIPS_LO16 then
        mipsCaseLO16 rel sym (st.load rel.offset) 0
          (st.afterFailedLookup rel.symTabIndex sym.name)
      else if rel.type = R_MIPS_GOT16 ∨ rel.type = R_MIPS_CALL16 then
        mipsCaseGOT16 env rel rest sym (st.load rel.offset) 0
          (st.afterFailedLookup rel.symTabIndex sym.name)
      else if rel.type = R_MIPS_GPREL32 then
        .ok ((st.afterFailedLookup rel.symTabIndex sym.name).store rel.offset
          (sub32 (add32 (st.load rel.offset) 0) (add32 (u32 env.got_address) env.GP_OFFSET)))
      else .error Fault.notImplementedRelocType := by
  unfold relocateMIPS_entry
  simp only [hsym, hin, if_true, mipsSetup_failed env rel sym st hname hnull hfind]

/-- The case `R_MIPS_16` with `S = 0` never overflows. -/
theorem mipsCase16_zero_ok (rel : ELFReloc) (A : Nat) (st : RelocState) :
    ∃ st1, mipsCase16 rel A 0 st = .ok st1 := by
  have h1 := toInt32_short (A &&& 0xFFFF)
  have h2 : add32 0 (short (A &&& 0xFFFF)) = short (A &&& 0xFFFF) := by
    unfold add32 short
    split_ifs <;> omega
  have h3 : toInt32 (add32 0 (short (A &&& 0xFFFF))) ≥ -32768 ∧
      toInt32 (add32 0 (short (A &&& 0xFFFF))) ≤ 32767 := by
    rw [h2, h1]
    split_ifs <;> omega
  simp only [mipsCase16, h3, and_self, if_true]
  exact ⟨_, rfl⟩

theorem mipsBranchToStub_faults (env : Env) (rel : ELFReloc) (st : RelocState)
    (P target : Nat) (f : Fault) (h : mipsBranchToStub env rel st P target = .error f) :
    f = Fault.undefinedAccess ∨ f = Fault.cannotAllocateStub ∨ f = Fault.stubTooFar := by
  simp only [mipsBranchToStub] at h
  split_ifs at h <;> cases h <;> simp

theorem addLO16_faults (st : RelocState) (rest : List ELFReloc) (idx A : Nat) (f : Fault)
    (h : addLO16 st rest idx A = .error f) : f = Fault.undefinedAccess := by
  unfold addLO16 at h
  split at h
  · cases h
  · split_ifs at h
    cases h
    rfl

theorem mipsCase26_faults (env : Env) (rel : ELFReloc) (sym : ELFSymbol) (P A S : Nat)
    (need_stub : Bool) (st : RelocState) (f : Fault)
    (h : mipsCase26 env rel sym P A S need_stub st = .error f) :
    f = Fault.undefinedAccess ∨ f = Fault.cannotAllocateStub ∨ f = Fault.stubTooFar ∨
      f = Fault.mips26AddendNotZero := by
  simp only [mipsCase26] at h
  split_ifs at h
  all_goals first
    | (cases h; simp)
    | (rcases mipsBranchToStub_faults _ _ _ _ _ _ h with h1 | h1 | h1 <;> simp [h1])

theorem mipsCaseHI16_faults (env : Env) (rel : ELFReloc) (rest : List ELFReloc)
    (sym : ELFSymbol) (P A S : Nat) (st : RelocState) (f : Fault)
    (h : mipsCaseHI16 env rel rest sym P A S st = .error f) : f = Fault.undefinedAccess := by
  simp only [mipsCaseHI16] at h
  split at h
  · rename_i g hg
    cases h
    exact addLO16_faults _ _ _ _ _ hg
  · cases h

theorem mipsCaseGOT16_faults (env : Env) (rel : ELFReloc) (rest : List ELFReloc)
    (sym : ELFSymbol) (A S : Nat) (st : RelocState) (f : Fault)
    (h : mipsCaseGOT16 env rel rest sym A S st = .error f) :
    f = Fault.undefinedAccess ∨ f = Fault.got16AddendNotZero ∨
      f = Fault.call16AddendNotZero := by
  simp only [mipsCaseGOT16] at h
  split at h
  · rename_i g hg
    cases h
    split_ifs at hg
    all_goals first
      | exact Or.inl (addLO16_faults _ _ _ _ _ hg)
      | (cases hg; simp)
  · cases h
theorem addLO16_ok (st : RelocState) (rest : List ELFReloc) (idx A : Nat)
    (h : ∀ lo, findLO16 rest idx = some lo → st.inBounds lo.offset) :
    ∃ a, addLO16 st rest idx A = .ok a := by
  unfold addLO16
  cases hf : findLO16 rest idx with
  | none => exact ⟨_, rfl⟩
  | some lo =>
    simp only [h lo hf, if_true]
    exact ⟨_, rfl⟩

/-- The cases of `relocateMIPS` that pass no check of their own, and the case
`R_MIPS_16`, whose check cannot fail with `S = 0`, return normally after a
lookup that fails. -/
theorem mips_failed_lookup_simple (env : Env) (rel : ELFReloc) (rest : List ELFReloc)
    (st : RelocState) (sym : ELFSymbol) (hsym : st.symtab[rel.symTabIndex]? = some sym)
    (hin : st.inBounds rel.offset) (hname : sym.name ≠ "_gp_disp")
    (hnull : sym.address = 0) (hfind : env.find_sym sym.name = 0)
    (ht : rel.type = R_MIPS_NONE ∨ rel.type = R_MIPS_JALR ∨ rel.type = R_MIPS_16 ∨
      rel.type = R_MIPS_32 ∨ rel.type = R_MIPS_LO16 ∨ rel.type = R_MIPS_GPREL32) :
    ∃ st1, relocateMIPS_entry env rel rest st = .ok st1 := by
  rw [mips_failed_lookup_eq env rel rest st sym hsym hin hname hnull hfind]
  rcases ht with t | t | t | t | t | t
  · rw [if_pos (Or.inl t)]; exact ⟨_, rfl⟩
  · rw [if_pos (Or.inr t)]; exact ⟨_, rfl⟩
  · have e1 : ¬ (rel.type = R_MIPS_NONE ∨ rel.type = R_MIPS_JALR) := by rw [t]; decide
    rw [if_neg e1, if_pos t]
    exact mipsCase16_zero_ok _ _ _
  · have e1 : ¬ (rel.type = R_MIPS_NONE ∨ rel.type = R_MIPS_JALR) := by rw [t]; decide
    have e2 : ¬ rel.type = R_MIPS_16 := by rw [t]; decide
    rw [if_neg e1, if_neg e2, if_pos t]; exact ⟨_, rfl⟩
  · have e1 : ¬ (rel.type = R_MIPS_NONE ∨ rel.type = R_MIPS_JALR) := by rw [t]; decide
    have e2 : ¬ rel.type = R_MIPS_16 := by rw [t]; decide
    have e3 : ¬ rel.type = R_MIPS_32 := by rw [t]; decide
    have e4 : ¬ rel.type = R_MIPS_26 := by rw [t]; decide
    have e5 : ¬ rel.type = R_MIPS_HI16 := by rw [t]; decide
    rw [if_neg e1, if_neg e2, if_neg e3, if_neg e4, if_neg e5, if_pos t]
    exact ⟨_, rfl⟩
  · have e1 : ¬ (rel.type = R_MIPS_NONE ∨ rel.type = R_MIPS_JALR) := by rw [t]; decide
    have e2 : ¬ rel.type = R_MIPS_16 := by rw [t]; decide
    have e3 : ¬ rel.type = R_MIPS_32 := by rw [t]; decide
    have e4 : ¬ rel.type = R_MIPS_26 := by rw [t]; decide
    have e5 : ¬ rel.type = R_MIPS_HI16 := by rw [t]; decide
    have e6 : ¬ rel.type = R_MIPS_LO16 := by rw [t]; decide
    have e7 : ¬ (rel.type = R_MIPS_GOT16 ∨ rel.type = R_MIPS_CALL16) := by rw [t]; decide
    rw [if_neg e1, if_neg e2, if_neg e3, if_neg e4, if_neg e5, if_neg e6, if_neg e7, if_pos t]
    exact ⟨_, rfl⟩

/-- The case `R_MIPS_26` after a lookup that fails returns normally when its
own checks pass: zero addend, a stub layout, a stub, in the region of
`P + 4`. -/
theorem mips_failed_lookup_26 (env : Env) (rel : ELFReloc) (rest : List ELFReloc)
    (st : RelocState) (sym : ELFSymbol) (hsym : st.symtab[rel.symTabIndex]? = some sym)
    (hin : st.inBounds rel.offset) (hname : sym.name ≠ "_gp_disp")
    (hnull : sym.address = 0) (hfind : env.find_sym sym.name = 0)
    (ht : rel.type = R_MIPS_26) (hadd : st.load rel.offset % 67108864 = 0)
    (hlayout : st.text.stubLayout ≠ 0)
    (hstub : env.allocateStub st.text.stubLayout 0 ≠ 0)
    (hnear : asr32 (add32 (u32 (st.text.address + rel.offset)) 4) 28 =
      asr32 (u32 (env.allocateStub st.text.stubLayout 0)) 28) :
    ∃ st1, relocateMIPS_entry env rel rest st = .ok st1 := by
  have e1 : ¬ (rel.type = R_MIPS_NONE ∨ rel.type = R_MIPS_JALR) := by rw [ht]; decide
  have e2 : ¬ rel.type = R_MIPS_16 := by rw [ht]; decide
  have e3 : ¬ rel.type = R_MIPS_32 := by rw [ht]; decide
  have hA : shl32 (st.load rel.offset &&& 0x3FFFFFF) 2 = 0 := by
    rw [shl32_26, hadd]
  rw [mips_failed_lookup_eq env rel rest st sym hsym hin hname hnull hfind,
    if_neg e1, if_neg e2, if_neg e3, if_pos ht]
  simp only [mipsCase26, hA, if_true, mipsBranchToStub, ptrOfInt32_zero]
  have hl : ((st.afterFailedLookup rel.symTabIndex sym.name).store rel.offset
      ((st.afterFailedLookup rel.symTabIndex sym.name).load rel.offset &&&
        0xFC000000)).text.stubLayout = st.text.stubLayout := rfl
  have ha : ((st.afterFailedLookup rel.symTabIndex sym.name).store rel.offset
      ((st.afterFailedLookup rel.symTabIndex sym.name).load rel.offset &&&
        0xFC000000)).text.address = st.text.address := rfl
  simp only [hl, hlayout, hstub, hnear, if_true, if_false, Bool.true_eq_false]
  exact ⟨_, rfl⟩

/-- The cases `R_MIPS_GOT16` and `R_MIPS_CALL16` after a lookup that fails
return normally when their own checks pass: zero addend, or for a local symbol
a companion inside the section. -/
theorem mips_failed_lookup_got16 (env : Env) (rel : ELFReloc) (rest : List ELFReloc)
    (st : RelocState) (sym : ELFSymbol) (hsym : st.symtab[rel.symTabIndex]? = some sym)
    (hin : st.inBounds rel.offset) (hname : sym.name ≠ "_gp_disp")
    (hnull : sym.address = 0) (hfind : env.find_sym sym.name = 0)
    (ht : rel.type = R_MIPS_GOT16 ∨ rel.type = R_MIPS_CALL16)
    (hchk : if rel.type = R_MIPS_GOT16 ∧ sym.binding = STB_LOCAL
      then ∀ lo, findLO16 rest rel.symTabIndex = some lo → st.inBounds lo.offset
      else st.load rel.offset % 65536 = 0) :
    ∃ st1, relocateMIPS_entry env rel rest st = .ok st1 := by
  have e1 : ¬ (rel.type = R_MIPS_NONE ∨ rel.type = R_MIPS_JALR) := by
    rcases ht with t | t <;> rw [t] <;> decide
  have e2 : ¬ rel.type = R_MIPS_16 := by rcases ht with t | t <;> rw [t] <;> decide
  have e3 : ¬ rel.type = R_MIPS_32 := by rcases ht with t | t <;> rw [t] <;> decide
  have e4 : ¬ rel.type = R_MIPS_26 := by rcases ht with t | t <;> rw [t] <;> decide
  have e5 : ¬ rel.type = R_MIPS_HI16 := by rcases ht with t | t <;> rw [t] <;> decide
  have e6 : ¬ rel.type = R_MIPS_LO16 := by rcases ht with t | t <;> rw [t] <;> decide
  rw [mips_failed_lookup_eq env rel rest st sym hsym hin hname hnull hfind,
    if_neg e1, if_neg e2, if_neg e3, if_neg e4, if_neg e5, if_neg e6, if_pos ht]
  by_cases hl : rel.type = R_MIPS_GOT16 ∧ sym.binding = STB_LOCAL
  · rw [if_pos hl] at hchk
    obtain ⟨a, ha⟩ := addLO16_ok
      ((st.afterFailedLookup rel.symTabIndex sym.name).store rel.offset
        ((st.afterFailedLookup rel.symTabIndex sym.name).load rel.offset &&& 0xFFFF0000))
      rest rel.symTabIndex (shl32 (st.load rel.offset &&& 0xFFFF) 16)
      (fun lo h => (inBounds_store _ _ _ _).2 (hchk lo h))
    simp only [mipsCaseGOT16, hl.1, hl.2, if_true, ha]
    exact ⟨_, rfl⟩
  · rw [if_neg hl] at hchk
    have hin2 : (st.afterFailedLookup rel.symTabIndex sym.name).inBounds rel.offset := hin
    have ht2 : rel.type = R_MIPS_CALL16 ∨ (rel.type = R_MIPS_GOT16 ∧ sym.binding ≠ STB_LOCAL) := by
      rcases ht with t | t
      · exact Or.inr ⟨t, fun hb => hl ⟨t, hb⟩⟩
      · exact Or.inl t
    obtain ⟨s1, h1, _⟩ := (mipsCaseGOT16_spec env rel rest sym (st.load rel.offset) 0
      (st.afterFailedLookup rel.symTabIndex sym.name) hin2 (by decide) ht2).2 hchk
    exact ⟨s1, h1⟩

/-- After a lookup that fails, a MIPS entry of a supported type aborts at the
checks of its case only. -/
theorem mips_failed_lookup_faults (env : Env) (rel : ELFReloc) (rest : List ELFReloc)
    (st : RelocState) (sym : ELFSymbol) (hsym : st.symtab[rel.symTabIndex]? = some sym)
    (hin : st.inBounds rel.offset) (hname : sym.name ≠ "_gp_disp")
    (hnull : sym.address = 0) (hfind : env.find_sym sym.name = 0)
    (ht : rel.type = R_MIPS_NONE ∨ rel.type = R_MIPS_JALR ∨ rel.type = R_MIPS_16 ∨
      rel.type = R_MIPS_32 ∨ rel.type = R_MIPS_26 ∨ rel.type = R_MIPS_HI16 ∨
      rel.type = R_MIPS_LO16 ∨ rel.type = R_MIPS_GOT16 ∨ rel.type = R_MIPS_CALL16 ∨
      rel.type = R_MIPS_GPREL32) (f : Fault)
    (h : relocateMIPS_entry env rel rest st = .error f) :
    (rel.type = R_MIPS_26 ∧ (f = Fault.mips26AddendNotZero ∨ f = Fault.undefinedAccess ∨
        f = Fault.cannotAllocateStub ∨ f = Fault.stubTooFar)) ∨
    (rel.type = R_MIPS_HI16 ∧ f = Fault.undefinedAccess) ∨
    ((rel.type = R_MIPS_GOT16 ∨ rel.type = R_MIPS_CALL16) ∧
      (f = Fault.undefinedAccess ∨ f = Fault.got16AddendNotZero ∨
        f = Fault.call16AddendNotZero)) := by
  by_cases hs : rel.type = R_MIPS_NONE ∨ rel.type = R_MIPS_JALR ∨ rel.type = R_MIPS_16 ∨
      rel.type = R_MIPS_32 ∨ rel.type = R_MIPS_LO16 ∨ rel.type = R_MIPS_GPREL32
  · obtain ⟨s1, h1⟩ := mips_failed_lookup_simple env rel rest st sym hsym hin hname hnull hfind hs
    rw [h1] at h
    cases h
  · have e1 : ¬ (rel.type = R_MIPS_NONE ∨ rel.type = R_MIPS_JALR) :=
      fun t => hs (t.elim Or.inl (fun t2 => Or.inr (Or.inl t2)))
    have e2 : ¬ rel.type = R_MIPS_16 := fun t => hs (Or.inr (Or.inr (Or.inl t)))
    have e3 : ¬ rel.type = R_MIPS_32 := fun t => hs (Or.inr (Or.inr (Or.inr (Or.inl t))))
    have e6 : ¬ rel.type = R_MIPS_LO16 :=
      fun t => hs (Or.inr (Or.inr (Or.inr (Or.inr (Or.inl t)))))
    rw [mips_failed_lookup_eq env rel rest st sym hsym hin hname hnull hfind,
      if_neg e1, if_neg e2, if_neg e3] at h
    by_cases t4 : rel.type = R_MIPS_26
    · rw [if_pos t4] at h
      refine Or.inl ⟨t4, ?_⟩
      rcases mipsCase26_faults _ _ _ _ _ _ _ _ _ h with h1 | h1 | h1 | h1 <;> simp [h1]
    rw [if_neg t4] at h
    by_cases t5 : rel.type = R_MIPS_HI16
    · rw [if_pos t5] at h
      exact Or.inr (Or.inl ⟨t5, mipsCaseHI16_faults _ _ _ _ _ _ _ _ _ h⟩)
    rw [if_neg t5, if_neg e6] at h
    by_cases t7 : rel.type = R_MIPS_GOT16 ∨ rel.type = R_MIPS_CALL16
    · rw [if_pos t7] at h
      exact Or.inr (Or.inr ⟨t7, mipsCaseGOT16_faults _ _ _ _ _ _ _ _ h⟩)
    · exfalso
      rcases ht with t | t | t | t | t | t | t | t | t | t
      · exact e1 (Or.inl t)
      · exact e1 (Or.inr t)
      · exact e2 t
      · exact e3 t
      · exact t4 t
      · exact t5 t
      · exact e6 t
      · exact t7 (Or.inl t)
      · exact t7 (Or.inr t)
      · exact hs (Or.inr (Or.inr (Or.inr (Or.inr (Or.inr t)))))
/-- C7, the claim as stated fails: in the MIPS table `[HI16 _gp_disp @0, LO16
_gp_disp @4]` the symbol `_gp_disp` is an unresolved external (null address)
that `find_sym` does not know; the relocator never asks `find_sym` for it and
finishes the table with `missingSymbols` false. -/
theorem missing_symbol_deferred_counterexample :
    exGpDisp.address = 0 ∧ exEnv.find_sym exGpDisp.name = 0 ∧
    (forEachReloc (relocateMIPS_entry exEnv) [exHi, exLo] exMipsGp).toOption.map
        (fun s => (s.missingSymbols, s.trace)) =
      some (false, [Event.setAddress 0 0x10007FF0]) := by
  decide

/-- C7, amended: deferred missing symbols. Let an entry with its word inside
the buffer refer to a symbol whose resolved address is null and for which
`find_sym` returns null.

For an i386 or x86-64 entry of a supported type, and for an ARM entry of type
`R_ARM_MOVW_ABS_NC` or `R_ARM_MOVT_ABS` on a symbol of type `STT_NOTYPE`, the
loop body returns normally, having called `find_sym` on the name of the symbol
and `setAddress` with null (these two calls and no other are added to the
trace), with `missingSymbols` set, and the loop goes on with the remaining
entries.

For an ARM `R_ARM_CALL` entry on a symbol of type `STT_NOTYPE`, the symbol
switch returns the null callee after the same two calls, with `missingSymbols`
set; the entry returns normally exactly when the stub checks pass (a stub
layout, a stub, the branch offset outside the abort window), it aborts with
one of the three faults of these checks otherwise, and when it returns the
trace holds the two calls, `missingSymbols` is set and the loop goes on.

For a MIPS entry on a symbol not named `_gp_disp`, the common setup makes the
same two calls, sets `missingSymbols` and asks for a stub. Entries of type
`NONE`, `JALR`, `16`, `32`, `LO16`, `GPREL32` return normally; an entry of type
`26` does when its addend field is zero and a stub is allocated in the region
of `P + 4`; an entry of type `HI16`, or `GOT16` on a local symbol, does when
the companion found by the forward scan lies in the section; an entry of type
`CALL16`, or `GOT16` on a symbol not local, does when its addend is zero. An
entry of a supported type aborts with the faults of the checks of its own case
only. When the entry returns, `missingSymbols` is set, the trace holds the two
calls, followed for type `26` only by at most one `setAddress` (the stub), and
the loop goes on.

In all these cases `missingSymbols` is true whenever the relocator finishes
the table. A MIPS entry on `_gp_disp` leaves `missingSymbols` as it was and
calls no `find_sym`. -/
theorem missing_symbol_deferred (env : Env) (rel : ELFReloc) (post : List ELFReloc)
    (st : RelocState) (sym : ELFSymbol) (hsym : st.symtab[rel.symTabIndex]? = some sym)
    (hin : st.inBounds rel.offset) (hnull : sym.address = 0)
    (hfind : env.find_sym sym.name = 0) :
    ((rel.type = R_386_PC32 ∨ rel.type = R_386_32) →
      (∃ st1, relocateX86_32_entry env rel st = .ok st1 ∧ st1.missingSymbols = true ∧
        st1.trace = st.trace ++
          [Event.findSym sym.name, Event.setAddress rel.symTabIndex 0] ∧
        forEachReloc (fun r _ s => relocateX86_32_entry env r s) (rel :: post) st =
          forEachReloc (fun r _ s => relocateX86_32_entry env r s) post st1) ∧
      (∀ stF, forEachReloc (fun r _ s => relocateX86_32_entry env r s) (rel :: post) st =
          .ok stF → stF.missingSymbols = true)) ∧
    ((rel.type = 1 ∨ rel.type = 2 ∨ rel.type = 10 ∨ rel.type = 11) →
      (∃ st1, relocateX86_64_entry env rel st = .ok st1 ∧ st1.missingSymbols = true ∧
        st1.trace = st.trace ++
          [Event.findSym sym.name, Event.setAddress rel.symTabIndex 0] ∧
        forEachReloc (fun r _ s => relocateX86_64_entry env r s) (rel :: post) st =
          forEachReloc (fun r _ s => relocateX86_64_entry env r s) post st1) ∧
      (∀ stF, forEachReloc (fun r _ s => relocateX86_64_entry env r s) (rel :: post) st =
          .ok stF → stF.missingSymbols = true)) ∧
    ((rel.type = R_ARM_MOVT_ABS ∨ rel.type = R_ARM_MOVW_ABS_NC) → sym.type = STT_NOTYPE →
      (∃ st1, relocateARM_entry env rel st = .ok st1 ∧ st1.missingSymbols = true ∧
        st1.trace = st.trace ++
          [Event.findSym sym.name, Event.setAddress rel.symTabIndex 0] ∧
        forEachReloc (fun r _ s => relocateARM_entry env r s) (rel :: post) st =
          forEachReloc (fun r _ s => relocateARM_entry env r s) post st1) ∧
      (∀ stF, forEachReloc (fun r _ s => relocateARM_entry env r s) (rel :: post) st =
          .ok stF → stF.missingSymbols = true)) ∧
    (rel.type = R_ARM_CALL → sym.type = STT_NOTYPE →
      (∃ st2, armCallee env rel sym st = .ok (0, st2) ∧ st2.missingSymbols = true ∧
        st2.trace = st.trace ++
          [Event.findSym sym.name, Event.setAddress rel.symTabIndex 0]) ∧
      ((∃ st1, relocateARM_entry env rel st = .ok st1) ↔
        (st.text.stubLayout ≠ 0 ∧ env.allocateStub st.text.stubLayout 0 ≠ 0 ∧
          ¬ (add32 (sub32 (asr32 (u32 (env.allocateStub st.text.stubLayout 0)) 2)
                (asr32 (u32 (st.text.address + rel.offset)) 2))
              (SIGN_EXTEND (st.load rel.offset &&& 0xFFFFFF) 24) > 0x007fffff ∧
            add32 (sub32 (asr32 (u32 (env.allocateStub st.text.stubLayout 0)) 2)
                (asr32 (u32 (st.text.address + rel.offset)) 2))
              (SIGN_EXTEND (st.load rel.offset &&& 0xFFFFFF) 24) < 0xff800000))) ∧
      (∀ f, relocateARM_entry env rel st = .error f →
        f = Fault.noStubLayout ∨ f = Fault.cannotAllocateStub ∨ f = Fault.stubTooFar) ∧
      (∀ st1, relocateARM_entry env rel st = .ok st1 →
        st1.missingSymbols = true ∧
        st1.trace = st.trace ++
          [Event.findSym sym.name, Event.setAddress rel.symTabIndex 0] ∧
        forEachReloc (fun r _ s => relocateARM_entry env r s) (rel :: post) st =
          forEachReloc (fun r _ s => relocateARM_entry env r s) post st1) ∧
      (∀ stF, forEachReloc (fun r _ s => relocateARM_entry env r s) (rel :: post) st =
          .ok stF → stF.missingSymbols = true)) ∧
    (sym.name ≠ "_gp_disp" →
      (∃ st2, mipsSetup env rel sym st = (true, 0, st2) ∧ st2.missingSymbols = true ∧
        st2.trace = st.trace ++
          [Event.findSym sym.name, Event.setAddress rel.symTabIndex 0]) ∧
      ((rel.type = R_MIPS_NONE ∨ rel.type = R_MIPS_JALR ∨ rel.type = R_MIPS_16 ∨
          rel.type = R_MIPS_32 ∨ rel.type = R_MIPS_LO16 ∨ rel.type = R_MIPS_GPREL32) →
        ∃ st1, relocateMIPS_entry env rel post st = .ok st1) ∧
      (rel.type = R_MIPS_26 → st.load rel.offset % 67108864 = 0 →
        st.text.stubLayout ≠ 0 → env.allocateStub st.text.stubLayout 0 ≠ 0 →
        asr32 (add32 (u32 (st.text.address + rel.offset)) 4) 28 =
          asr32 (u32 (env.allocateStub st.text.stubLayout 0)) 28 →
        ∃ st1, relocateMIPS_entry env rel post st = .ok st1) ∧
      (rel.type = R_MIPS_HI16 ∨ (rel.type = R_MIPS_GOT16 ∧ sym.binding = STB_LOCAL) →
        (∀ lo, findLO16 post rel.symTabIndex = some lo → st.inBounds lo.offset) →
        ∃ st1, relocateMIPS_entry env rel post st = .ok st1) ∧
      (rel.type = R_MIPS_CALL16 ∨ (rel.type = R_MIPS_GOT16 ∧ sym.binding ≠ STB_LOCAL) →
        st.load rel.offset % 65536 = 0 →
        ∃ st1, relocateMIPS_entry env rel post st = .ok st1) ∧
      ((rel.type = R_MIPS_NONE ∨ rel.type = R_MIPS_JALR ∨ rel.type = R_MIPS_16 ∨
          rel.type = R_MIPS_32 ∨ rel.type = R_MIPS_26 ∨ rel.type = R_MIPS_HI16 ∨
          rel.type = R_MIPS_LO16 ∨ rel.type = R_MIPS_GOT16 ∨ rel.type = R_MIPS_CALL16 ∨
          rel.type = R_MIPS_GPREL32) →
        ∀ f, relocateMIPS_entry env rel post st = .error f →
          (rel.type = R_MIPS_26 ∧ (f = Fault.mips26AddendNotZero ∨ f = Fault.undefinedAccess ∨
            f = Fault.cannotAllocateStub ∨ f = Fault.stubTooFar)) ∨
          (rel.type = R_MIPS_HI16 ∧ f = Fault.undefinedAccess) ∨
          ((rel.type = R_MIPS_GOT16 ∨ rel.type = R_MIPS_CALL16) ∧
            (f = Fault.undefinedAccess ∨ f = Fault.got16AddendNotZero ∨
              f = Fault.call16AddendNotZero))) ∧
      (∀ st1, relocateMIPS_entry env rel post st = .ok st1 →
        st1.missingSymbols = true ∧
        (st1.trace = st.trace ++
            [Event.findSym sym.name, Event.setAddress rel.symTabIndex 0] ∨
          (rel.type = R_MIPS_26 ∧ ∃ a, st1.trace = st.trace ++
            [Event.findSym sym.name, Event.setAddress rel.symTabIndex 0,
              Event.setAddress rel.symTabIndex a])) ∧
        forEachReloc (relocateMIPS_entry env) (rel :: post) st =
          forEachReloc (relocateMIPS_entry env) post st1) ∧
      (∀ stF, forEachReloc (relocateMIPS_entry env) (rel :: post) st = .ok stF →
        stF.missingSymbols = true)) ∧
    (sym.name = "_gp_disp" →
      ∀ st1, relocateMIPS_entry env rel post st = .ok st1 →
        st1.missingSymbols = st.missingSymbols ∧
        (st1.trace = st.trace ∨
          ∃ a, st1.trace = st.trace ++ [Event.setAddress rel.symTabIndex a])) := by
  have hm32 := fun r (rest : List ELFReloc) s s1 => missing_mono_x86_32 env r s s1
  have hm64 := fun r (rest : List ELFReloc) s s1 => missing_mono_x86_64 env r s s1
  have hmarm := fun r (rest : List ELFReloc) s s1 => missing_mono_arm env r s s1
  refine ⟨fun ht => ?_, fun ht => ?_, fun ht hty => ?_, fun ht hty => ?_, fun hname => ?_,
    fun hname st1 h1 => ?_⟩
  · obtain ⟨v, h1⟩ := x86_32_failed_lookup env rel st sym hsym hin ht hnull hfind
    exact ⟨⟨_, h1, rfl, rfl, forEachReloc_cons_ok _ rel post st _ h1⟩,
      missing_table _ hm32 rel post st (fun s hs => by rw [h1] at hs; cases hs; rfl)⟩
  · obtain ⟨v, h1⟩ := x86_64_failed_lookup env rel st sym hsym hin ht hnull hfind
    exact ⟨⟨_, h1, rfl, rfl, forEachReloc_cons_ok _ rel post st _ h1⟩,
      missing_table _ hm64 rel post st (fun s hs => by rw [h1] at hs; cases hs; rfl)⟩
  · obtain ⟨v, h1⟩ := arm_movw_failed_lookup env rel st sym hsym hin ht hty hnull hfind
    exact ⟨⟨_, h1, rfl, rfl, forEachReloc_cons_ok _ rel post st _ h1⟩,
      missing_table _ hmarm rel post st (fun s hs => by rw [h1] at hs; cases hs; rfl)⟩
  · obtain ⟨v, hv⟩ := arm_call_failed_lookup env rel st sym hsym hin ht hty hnull hfind
    have hok : ∀ st1, relocateARM_entry env rel st = .ok st1 →
        st1.missingSymbols = true ∧
        st1.trace = st.trace ++
          [Event.findSym sym.name, Event.setAddress rel.symTabIndex 0] := by
      intro st1 h1
      rw [hv] at h1
      split_ifs at h1
      cases h1
      exact ⟨rfl, rfl⟩
    refine ⟨⟨_, armCallee_failed_lookup env rel sym st hty hnull hfind, rfl, rfl⟩, ?_, ?_,
      fun st1 h1 => ⟨(hok st1 h1).1, (hok st1 h1).2,
        forEachReloc_cons_ok _ rel post st st1 h1⟩,
      missing_table _ hmarm rel post st (fun s hs => (hok s hs).1)⟩
    · rw [hv]
      constructor
      · rintro ⟨st1, h1⟩
        split_ifs at h1 with a b c
        exact ⟨a, b, c⟩
      · rintro ⟨a, b, c⟩
        rw [if_neg a, if_neg b, if_neg c]
        exact ⟨_, rfl⟩
    · intro f hf
      rw [hv] at hf
      split_ifs at hf <;> cases hf <;> simp
  · have hset := mipsSetup_failed env rel sym st hname hnull hfind
    have hok : ∀ st1, relocateMIPS_entry env rel post st = .ok st1 →
        st1.missingSymbols = true ∧
        (st1.trace = st.trace ++
            [Event.findSym sym.name, Event.setAddress rel.symTabIndex 0] ∨
          (rel.type = R_MIPS_26 ∧ ∃ a, st1.trace = st.trace ++
            [Event.findSym sym.name, Event.setAddress rel.symTabIndex 0,
              Event.setAddress rel.symTabIndex a])) := by
      intro st1 h1
      have hm := missing_relocateMIPS_entry env rel post st st1 sym hsym h1
      have he := effect_relocateMIPS_entry env rel post st st1 sym hsym h1
      rw [hset] at hm he
      refine ⟨hm, ?_⟩
      by_cases t : rel.type = R_MIPS_26
      · rcases he.1 with e | ⟨a, e⟩
        · exact Or.inl e.2
        · refine Or.inr ⟨t, a, ?_⟩
          rw [e.2]
          simp [RelocState.afterFailedLookup]
      · exact Or.inl (he.2 t (fun _ => hname)).2
    refine ⟨⟨_, hset, rfl, rfl⟩,
      mips_failed_lookup_simple env rel post st sym hsym hin hname hnull hfind,
      mips_failed_lookup_26 env rel post st sym hsym hin hname hnull hfind,
      ?_, ?_,
      mips_failed_lookup_faults env rel post st sym hsym hin hname hnull hfind,
      fun st1 h1 => ⟨(hok st1 h1).1, (hok st1 h1).2,
        forEachReloc_cons_ok _ rel post st st1 h1⟩,
      missing_table _ (missing_mono_mips env) rel post st (fun s hs => (hok s hs).1)⟩
    · rintro (t | ⟨t, hb⟩) hlo
      · exact mipsEntry_HI16_ok env rel post st sym hsym hin t hlo
      · refine mips_failed_lookup_got16 env rel post st sym hsym hin hname hnull hfind
          (Or.inl t) ?_
        rw [if_pos ⟨t, hb⟩]
        exact hlo
    · rintro (t | ⟨t, hb⟩) hz
      · refine mips_failed_lookup_got16 env rel post st sym hsym hin hname hnull hfind
          (Or.inr t) ?_
        have hne : R_MIPS_CALL16 ≠ R_MIPS_GOT16 := by decide
        have hn : ¬ (rel.type = R_MIPS_GOT16 ∧ sym.binding = STB_LOCAL) :=
          fun h => hne (t.symm.trans h.1)
        rw [if_neg hn]
        exact hz
      · refine mips_failed_lookup_got16 env rel post st sym hsym hin hname hnull hfind
          (Or.inl t) ?_
        rw [if_neg (fun h => hb h.2)]
        exact hz
  · have hm := missing_relocateMIPS_entry env rel post st st1 sym hsym h1
    rw [mipsSetup_gp env rel sym st hname] at hm
    exact ⟨hm, mips_gp_no_lookup env rel post st st1 sym hsym hname h1⟩
/-- Witness of C7 (amended): against the unresolved symbol `bar`, unknown to
`find_sym`, an `R_386_32` entry and an `R_MIPS_32` entry return with
`missingSymbols` set after the two calls, and an `R_ARM_CALL` entry returns
normally when the allocator hands out a stub near the call. -/
theorem missing_symbol_deferred_witness :
    (exStateBar.symtab[(exReloc R_386_32).symTabIndex]? = some exBar ∧
      exStateBar.inBounds (exReloc R_386_32).offset ∧ exBar.address = 0 ∧
      exEnv.find_sym exBar.name = 0 ∧ exEnvStub.find_sym exBar.name = 0) ∧
    (∃ st1, relocateX86_32_entry exEnv (exReloc R_386_32) exStateBar = .ok st1 ∧
      st1.missingSymbols = true ∧
      st1.trace = exStateBar.trace ++ [Event.findSym "bar", Event.setAddress 0 0] ∧
      forEachReloc (fun r _ s => relocateX86_32_entry exEnv r s)
          (exReloc R_386_32 :: [exReloc R_386_PC32]) exStateBar =
        forEachReloc (fun r _ s => relocateX86_32_entry exEnv r s)
          [exReloc R_386_PC32] st1) ∧
    (∃ st1, relocateMIPS_entry exEnv (exReloc R_MIPS_32) [] exStateBar = .ok st1) ∧
    (∃ st1, relocateARM_entry exEnvStub (exReloc R_ARM_CALL) exStateBar = .ok st1) :=
  ⟨⟨by decide, by decide, rfl, by decide, by decide⟩,
   ((missing_symbol_deferred exEnv (exReloc R_386_32) [exReloc R_386_PC32] exStateBar exBar
      (by decide) (by decide) rfl (by decide)).1 (Or.inr rfl)).1,
   ((missing_symbol_deferred exEnv (exReloc R_MIPS_32) [] exStateBar exBar
      (by decide) (by decide) rfl (by decide)).2.2.2.2.1 (by decide)).2.1
      (Or.inr (Or.inr (Or.inr (Or.inl rfl)))),
   ((missing_symbol_deferred exEnvStub (exReloc R_ARM_CALL) [] exStateBar exBar
      (by decide) (by decide) rfl (by decide)).2.2.2.1 rfl rfl).2.1.2
      (by decide)⟩

/-! ## Caching of resolved addresses -/

theorem setAddressCount_setAddress (i idx a : Nat) (tr : List Event) :
    setAddressCount i (tr ++ [Event.setAddress idx a]) =
      setAddressCount i tr + (if idx = i then 1 else 0) := by
  unfold setAddressCount
  rw [List.countP_append]
  simp [List.countP_cons, Event.isSetAddress]

theorem cachedOnce_refl (i : Nat) (st : RelocState) : CachedOnce i st st :=
  ⟨rfl, Or.inl ⟨rfl, rfl⟩⟩

/-- A step that leaves the symbol `i` and the calls on it alone. -/
theorem cachedOnce_of_eq {i : Nat} {st st1 : RelocState}
    (h1 : st1.symtab[i]? = st.symtab[i]?)
    (h2 : setAddressCount i st1.trace = setAddressCount i st.trace) : CachedOnce i st st1 :=
  ⟨by rw [h1], Or.inl ⟨h1, h2⟩⟩

theorem cachedOnce_trans {i : Nat} {a b c : RelocState} (h1 : CachedOnce i a b)
    (h2 : CachedOnce i b c) : CachedOnce i a c := by
  obtain ⟨n1, k1⟩ := h1
  obtain ⟨n2, k2⟩ := h2
  refine ⟨n2.trans n1, ?_⟩
  rcases k1 with ⟨s1, c1⟩ | ⟨u1, r1, c1⟩
  · rcases k2 with ⟨s2, c2⟩ | ⟨u2, r2, c2⟩
    · exact Or.inl ⟨s2.trans s1, c2.trans c1⟩
    · exact Or.inr ⟨fun h => u2 ((resolved_congr s1).2 h), r2, by omega⟩
  · rcases k2 with ⟨s2, c2⟩ | ⟨u2, r2, c2⟩
    · exact Or.inr ⟨u1, (resolved_congr s2).2 r1, by omega⟩
    · exact absurd r1 u2

/-- A symbol that can be resolved still can after a step of `CachedOnce`. -/
theorem resolvable_of_cachedOnce {env : Env} {i : Nat} {st st1 : RelocState}
    (h : CachedOnce i st st1) (hr : Resolvable env st i) : Resolvable env st1 i := by
  intro sym1 hsym1 hz
  rcases h.2 with ⟨e, _⟩ | ⟨_, r, _⟩
  · exact hr sym1 (e ▸ hsym1) hz
  · obtain ⟨s, hs, hnz⟩ := r
    rw [hsym1] at hs
    cases hs
    exact absurd hz hnz

/-- A resolved symbol can be resolved: nothing looks it up. -/
theorem resolvable_of_resolved {env : Env} {i : Nat} {st : RelocState}
    (h : st.resolved i) : Resolvable env st i := by
  intro sym hsym hz
  obtain ⟨s, hs, hnz⟩ := h
  rw [hsym] at hs
  cases hs
  exact absurd hz hnz

theorem oneLookup_refl (env : Env) (idx : Nat) (st : RelocState) : OneLookup env idx st st :=
  Or.inl ⟨rfl, rfl⟩

/-- A step after the lookup that leaves the symbol table and the trace
alone, such as a store to the text. -/
theorem oneLookup_of_eq {env : Env} {idx : Nat} {st s s1 : RelocState}
    (h : OneLookup env idx st s) (h1 : s1.symtab = s.symtab) (h2 : s1.trace = s.trace) :
    OneLookup env idx st s1 := by
  unfold OneLookup at h ⊢
  rw [h1, h2]
  exact h

theorem oneLookup_store {env : Env} {idx : Nat} {st s : RelocState}
    (h : OneLookup env idx st s) (off v : Nat) : OneLookup env idx st (s.store off v) :=
  oneLookup_of_eq h rfl rfl

/-- The block run for an unresolved symbol is one lookup. -/
theorem oneLookup_resolveSymbol (env : Env) (hptr : 32 ≤ env.ptrBits) (st : RelocState)
    (idx : Nat) (sym : ELFSymbol) (hsym : st.symtab[idx]? = some sym)
    (hun : sym.address % 4294967296 = 0) :
    OneLookup env idx st (resolveSymbol env st idx sym.name).2 := by
  obtain ⟨h1, h2⟩ := effect_resolveSymbol env st idx sym.name
  refine Or.inr ⟨sym, _, hsym, hun, ?_, h1, h2⟩
  exact u32_ptrOfInt32 _ _ hptr (Nat.mod_lt _ (by decide))

/-- The lookup of the ARM cases is one lookup. -/
theorem oneLookup_findSym (env : Env) (st : RelocState) (idx : Nat) (sym : ELFSymbol)
    (hsym : st.symtab[idx]? = some sym) (hun : sym.address % 4294967296 = 0) :
    OneLookup env idx st
      (((st.findSym env sym.name).2.markMissing ((st.findSym env sym.name).1 == 0)).setAddress
        idx (st.findSym env sym.name).1) := by
  obtain ⟨e1, e2⟩ := effect_findSym_setAddress env st sym.name
    ((st.findSym env sym.name).1 == 0) idx (st.findSym env sym.name).1
  exact Or.inr ⟨sym, _, hsym, hun, rfl, e1, e2⟩

/-- One lookup on symbol `idx` is a step of `CachedOnce` for every symbol
that can be resolved. -/
theorem cachedOnce_of_oneLookup {env : Env} {idx i : Nat} {st st1 : RelocState}
    (h : OneLookup env idx st st1) (hr : Resolvable env st i) : CachedOnce i st st1 := by
  rcases h with ⟨h1, h2⟩ | ⟨sym, a, hsym, hun, ha, hs, ht⟩
  · exact cachedOnce_of_eq (by rw [h1]) (by rw [h2])
  · by_cases hi : idx = i
    · subst hi
      have h1 : st1.symtab[idx]? = some { sym with address := a } := by
        rw [hs, List.getElem?_modify_eq, hsym]
        rfl
      have hnz : a % 4294967296 ≠ 0 := by
        rw [ha]
        exact hr sym hsym hun
      refine ⟨by rw [h1, hsym]; rfl, Or.inr ⟨?_, ⟨_, h1, hnz⟩, ?_⟩⟩
      · rintro ⟨s, h2, h3⟩
        rw [hsym] at h2
        cases h2
        exact h3 hun
      · rw [ht, setAddressCount_lookup]
        simp
    · refine cachedOnce_of_eq ?_ ?_
      · rw [hs, List.getElem?_modify_ne _ _ hi]
      · rw [ht, setAddressCount_lookup]
        simp [hi]

/-- One lookup on symbol `idx` makes at most one call `setAddress`, on that
symbol. -/
theorem count_of_oneLookup {env : Env} {idx : Nat} {st st1 : RelocState}
    (h : OneLookup env idx st st1) (i : Nat) :
    setAddressCount i st1.trace ≤ setAddressCount i st.trace + (if idx = i then 1 else 0) := by
  rcases h with ⟨_, h2⟩ | ⟨sym, a, _, _, _, _, ht⟩
  · rw [h2]
    omega
  · rw [ht, setAddressCount_lookup]

theorem oneLookup_x86_32 (env : Env) (hptr : 32 ≤ env.ptrBits) (rel : ELFReloc)
    (st st1 : RelocState) (h : relocateX86_32_entry env rel st = .ok st1) :
    OneLookup env rel.symTabIndex st st1 := by
  unfold relocateX86_32_entry at h
  split at h
  · cases h
  · rename_i sym hsym
    have hr : OneLookup env rel.symTabIndex st
        (if u32 sym.getAddress = 0 then resolveSymbol env st rel.symTabIndex sym.name
          else (u32 sym.getAddress, st)).2 := by
      by_cases h0 : u32 sym.getAddress = 0
      · rw [if_pos h0]
        exact oneLookup_resolveSymbol env hptr st _ sym hsym h0
      · rw [if_neg h0]
        exact oneLookup_refl _ _ st
    simp only at h
    generalize (if u32 sym.getAddress = 0 then resolveSymbol env st rel.symTabIndex sym.name
      else (u32 sym.getAddress, st)) = r at h hr
    split_ifs at h
    · cases h; exact oneLookup_store hr _ _
    · cases h; exact oneLookup_store hr _ _

theorem oneLookup_x86_64 (env : Env) (hptr : 32 ≤ env.ptrBits) (rel : ELFReloc)
    (st st1 : RelocState) (h : relocateX86_64_entry env rel st = .ok st1) :
    OneLookup env rel.symTabIndex st st1 := by
  unfold relocateX86_64_entry at h
  split at h
  · cases h
  · rename_i sym hsym
    have hr : OneLookup env rel.symTabIndex st
        (if u32 sym.getAddress = 0 then resolveSymbol env st rel.symTabIndex sym.name
          else (u32 sym.getAddress, st)).2 := by
      by_cases h0 : u32 sym.getAddress = 0
      · rw [if_pos h0]
        exact oneLookup_resolveSymbol env hptr st _ sym hsym h0
      · rw [if_neg h0]
        exact oneLookup_refl _ _ st
    simp only [RelocState.storeChecked] at h
    generalize (if u32 sym.getAddress = 0 then resolveSymbol env st rel.symTabIndex sym.name
      else (u32 sym.getAddress, st)) = r at h hr
    split_ifs at h
    all_goals
      cases h
      exact oneLookup_store hr _ _

theorem oneLookup_armCallee (env : Env) (rel : ELFReloc) (sym : ELFSymbol)
    (st st1 : RelocState) (c : Nat) (hsym : st.symtab[rel.symTabIndex]? = some sym)
    (h : armCallee env rel sym st = .ok (c, st1)) : OneLookup env rel.symTabIndex st st1 := by
  simp only [armCallee] at h
  by_cases t1 : sym.type = STT_FUNC
  · simp only [t1, if_true] at h
    split_ifs at h
    injection h with h
    injection h with h1 h2
    subst h2
    exact oneLookup_refl _ _ _
  · simp only [t1, if_false] at h
    by_cases t2 : sym.type = STT_NOTYPE
    · simp only [t2, if_true] at h
      by_cases ha : sym.getAddress = 0
      · simp only [ha, if_true] at h
        injection h with h
        injection h with h1 h2
        subst h2
        have hun : sym.address % 4294967296 = 0 := by
          have : sym.address = 0 := ha
          rw [this]
        exact oneLookup_findSym env st _ sym hsym hun
      · simp only [ha, if_false] at h
        injection h with h
        injection h with h1 h2
        subst h2
        exact oneLookup_refl _ _ _
    · simp only [t2, if_false] at h
      cases h

theorem oneLookup_arm (env : Env) (rel : ELFReloc) (st st1 : RelocState)
    (h : relocateARM_entry env rel st = .ok st1) : OneLookup env rel.symTabIndex st st1 := by
  unfold relocateARM_entry at h
  split at h
  · cases h
  · rename_i sym hsym
    by_cases t1 : rel.type = R_ARM_ABS32
    · simp only [t1, if_true] at h
      split_ifs at h
      cases h
      exact oneLookup_store (oneLookup_refl _ _ st) _ _
    simp only [t1, if_false] at h
    by_cases t2 : rel.type = R_ARM_CALL
    · simp only [t2, if_true] at h
      by_cases hin : st.inBounds rel.offset
      · simp only [hin, if_true] at h
        split at h
        · cases h
        · rename_i c st2 hc
          have h2 := oneLookup_armCallee env rel sym st st2 c hsym hc
          split_ifs at h
          injection h with h
          subst h
          exact oneLookup_store h2 _ _
      · simp only [hin, if_false] at h
        cases h
    simp only [t2, if_false] at h
    by_cases t3 : rel.type = R_ARM_MOVT_ABS ∨ rel.type = R_ARM_MOVW_ABS_NC
    · simp only [t3, if_true] at h
      have hr : OneLookup env rel.symTabIndex st
          (if u32 sym.getAddress = 0 ∧ sym.type = STT_NOTYPE then
            (u32 (st.findSym env sym.name).1,
              ((st.findSym env sym.name).2.markMissing
                ((st.findSym env sym.name).1 == 0)).setAddress rel.symTabIndex
                (st.findSym env sym.name).1)
          else (u32 sym.getAddress, st)).2 := by
        by_cases h0 : u32 sym.getAddress = 0 ∧ sym.type = STT_NOTYPE
        · rw [if_pos h0]
          exact oneLookup_findSym env st _ sym hsym h0.1
        · rw [if_neg h0]
          exact oneLookup_refl _ _ st
      generalize (if u32 sym.getAddress = 0 ∧ sym.type = STT_NOTYPE then
            (u32 (st.findSym env sym.name).1,
              ((st.findSym env sym.name).2.markMissing
                ((st.findSym env sym.name).1 == 0)).setAddress rel.symTabIndex
                (st.findSym env sym.name).1)
          else (u32 sym.getAddress, st)) = r at h hr
      split_ifs at h
      all_goals
        cases h
        exact oneLookup_store hr _ _
    · simp only [t3, if_false] at h
      cases h

theorem oneLookup_mipsSetup (env : Env) (hptr : 32 ≤ env.ptrBits) (rel : ELFReloc)
    (sym : ELFSymbol) (st : RelocState) (hsym : st.symtab[rel.symTabIndex]? = some sym) :
    OneLookup env rel.symTabIndex st (mipsSetup env rel sym st).2.2 := by
  by_cases h0 : u32 sym.getAddress = 0 ∧ sym.name ≠ "_gp_disp"
  · have hm : mipsSetup env rel sym st =
        (true, (resolveSymbol env st rel.symTabIndex sym.name).1,
          (resolveSymbol env st rel.symTabIndex sym.name).2) := if_pos h0
    rw [hm]
    exact oneLookup_resolveSymbol env hptr st _ sym hsym h0.1
  · have hm : mipsSetup env rel sym st = (false, u32 sym.getAddress, st) := if_neg h0
    rw [hm]
    exact oneLookup_refl _ _ st
/-- An entry of `relocateMIPS` that does not set the address by itself leaves
the symbol table and the trace as the common setup left them. -/
theorem mips_keeps_entry (env : Env) (rel : ELFReloc) (rest : List ELFReloc)
    (st st1 : RelocState) (sym : ELFSymbol) (hsym : st.symtab[rel.symTabIndex]? = some sym)
    (hk : mipsSetsAddress rel st = false)
    (h : relocateMIPS_entry env rel rest st = .ok st1) :
    st1.symtab = (mipsSetup env rel sym st).2.2.symtab ∧
      st1.trace = (mipsSetup env rel sym st).2.2.trace := by
  simp only [mipsSetsAddress, hsym, decide_eq_false_iff_not, not_or, not_and] at hk
  obtain ⟨hk1, hk2⟩ := hk
  by_cases t : rel.type = R_MIPS_26
  · obtain ⟨k1, k2⟩ := hk2 t
    have hm : mipsSetup env rel sym st = (false, u32 sym.getAddress, st) :=
      if_neg (fun hh => k1 hh.1 hh.2)
    have e1 : ¬ (rel.type = R_MIPS_NONE ∨ rel.type = R_MIPS_JALR) := by rw [t]; decide
    have e2 : ¬ rel.type = R_MIPS_16 := by rw [t]; decide
    have e3 : ¬ rel.type = R_MIPS_32 := by rw [t]; decide
    rw [hm]
    unfold relocateMIPS_entry at h
    simp only [hsym, hm] at h
    by_cases hin : st.inBounds rel.offset
    · simp only [hin, if_true] at h
      rw [if_neg e1, if_neg e2, if_neg e3, if_pos t] at h
      simp only [mipsCase26, if_true] at h
      by_cases hb : sym.binding = STB_LOCAL
      · simp only [hb, if_true] at h
        cases h
        exact ⟨rfl, rfl⟩
      · have k3 := k2 hb
        simp only [hb, if_false] at h
        rw [if_neg k3] at h
        cases h
        exact ⟨rfl, rfl⟩
    · simp only [hin, if_false] at h
      cases h
  · exact (effect_relocateMIPS_entry env rel rest st st1 sym hsym h).2 t
      (fun ht hn => hk1 ht hn)

/-- A MIPS entry on a resolved symbol makes no call, unless it sets the
address by itself. -/
theorem mips_resolved_no_call (env : Env) (rel : ELFReloc) (rest : List ELFReloc)
    (st st1 : RelocState) (hres : st.resolved rel.symTabIndex)
    (hk : mipsSetsAddress rel st = false)
    (h : relocateMIPS_entry env rel rest st = .ok st1) :
    st1.symtab = st.symtab ∧ st1.trace = st.trace := by
  obtain ⟨sym, hsym, hnz⟩ := hres
  have e := mips_keeps_entry env rel rest st st1 sym hsym hk h
  rw [mipsSetup_resolved env rel sym st hnz] at e
  exact e

/-- One entry of `relocateMIPS` that does not set the address of symbol `i`
by itself: one lookup, then nothing that touches symbol `i`. -/
theorem mips_entry_step (env : Env) (hptr : 32 ≤ env.ptrBits) (i : Nat) (rel : ELFReloc)
    (rest : List ELFReloc) (st st1 : RelocState)
    (hk : ¬ (rel.symTabIndex = i ∧ mipsSetsAddress rel st = true))
    (h : relocateMIPS_entry env rel rest st = .ok st1) :
    ∃ s, OneLookup env rel.symTabIndex st s ∧ st1.symtab[i]? = s.symtab[i]? ∧
      setAddressCount i st1.trace = setAddressCount i s.trace := by
  cases hsy : st.symtab[rel.symTabIndex]? with
  | none =>
    unfold relocateMIPS_entry at h
    simp only [hsy] at h
    cases h
  | some sym =>
    refine ⟨(mipsSetup env rel sym st).2.2, oneLookup_mipsSetup env hptr rel sym st hsy, ?_⟩
    by_cases hs : mipsSetsAddress rel st = true
    · have hi : rel.symTabIndex ≠ i := fun e => hk ⟨e, hs⟩
      rcases (effect_relocateMIPS_entry env rel rest st st1 sym hsy h).1 with e | ⟨a, e1, e2⟩
      · rw [e.1, e.2]
        exact ⟨rfl, rfl⟩
      · rw [e1, e2, setAddressCount_setAddress]
        simp only [RelocState.setAddress, hi, if_false, Nat.add_zero, and_true]
        exact List.getElem?_modify_ne _ _ hi
    · have hs2 : mipsSetsAddress rel st = false := by simpa using hs
      obtain ⟨e1, e2⟩ := mips_keeps_entry env rel rest st st1 sym hsy hs2 h
      rw [e1, e2]
      exact ⟨rfl, rfl⟩

/-- The loop of a relocator whose body makes one lookup per entry and nothing
else that touches symbol `i`, as long as the guard `G` holds: a symbol that can
be resolved is cached once, and the calls `setAddress` on symbol `i` are at
most as many as the entries on it. -/
theorem cachedOnce_forEachReloc (env : Env) (i : Nat)
    (body : ELFReloc → List ELFReloc → RelocState → Except Fault RelocState)
    (G : List ELFReloc → RelocState → Prop)
    (hstep : ∀ rel rest st st1, G (rel :: rest) st → body rel rest st = .ok st1 →
      G rest st1 ∧ ∃ s, OneLookup env rel.symTabIndex st s ∧
        st1.symtab[i]? = s.symtab[i]? ∧
        setAddressCount i st1.trace = setAddressCount i s.trace)
    (l : List ELFReloc) (st stF : RelocState) (hG : G l st)
    (h : forEachReloc body l st = .ok stF) :
    (Resolvable env st i → CachedOnce i st stF) ∧
    setAddressCount i stF.trace ≤
      setAddressCount i st.trace + l.countP (fun r => r.symTabIndex == i) := by
  induction l generalizing st with
  | nil =>
    unfold forEachReloc at h
    cases h
    exact ⟨fun _ => cachedOnce_refl _ _, by simp⟩
  | cons rel l ih =>
    unfold forEachReloc at h
    split at h
    · cases h
    · rename_i st2 h2
      obtain ⟨hG2, s, hs, e1, e2⟩ := hstep rel l st st2 hG h2
      obtain ⟨ih1, ih2⟩ := ih st2 hG2 h
      have hc := count_of_oneLookup hs i
      refine ⟨fun hr => ?_, ?_⟩
      · have c1 : CachedOnce i st st2 :=
          cachedOnce_trans (cachedOnce_of_oneLookup hs hr) (cachedOnce_of_eq e1 e2)
        exact cachedOnce_trans c1 (ih1 (resolvable_of_cachedOnce c1 hr))
      · rw [List.countP_cons]
        by_cases hi : rel.symTabIndex = i
        · simp only [hi, if_true, beq_self_eq_true] at hc ⊢
          omega
        · have hb : (rel.symTabIndex == i) = false := by simpa using hi
          simp only [hi, if_false, hb] at hc ⊢
          omega

/-- The guard of the loop of `relocateMIPS`, one entry further. -/
theorem mipsKeepsAddress_cons (env : Env) (i : Nat) (rel : ELFReloc) (rest : List ELFReloc)
    (st st1 : RelocState) (hk : mipsKeepsAddress env i (rel :: rest) st = true)
    (h : relocateMIPS_entry env rel rest st = .ok st1) :
    ¬ (rel.symTabIndex = i ∧ mipsSetsAddress rel st = true) ∧
      mipsKeepsAddress env i rest st1 = true := by
  simp only [mipsKeepsAddress, h, Bool.and_eq_true, Bool.not_eq_true', Bool.and_eq_false_imp,
    decide_eq_true_eq] at hk
  refine ⟨fun hh => ?_, hk.2⟩
  have := hk.1 hh.1
  rw [hh.2] at this
  cases this
/-- Counterexample to C11 as stated: four tables in which `setAddress` is
called twice on symbol 0. An i386 table with two entries on `bar`, unknown to
`find_sym`: the null result is stored and the lookup is repeated. A MIPS table
with one `R_MIPS_26` entry on the unresolved `foo`: the entry stores the value
of `find_sym` and then the address of the stub, which is what later entries
read. A MIPS table with an `R_MIPS_32` entry on the unresolved `foo`, which
looks it up, and an `R_MIPS_26` entry on `foo`, now resolved but outside the
region of the call: the second entry replaces the address by the one of the
stub. A MIPS table with two `R_MIPS_HI16` entries on `_gp_disp`: each one
stores the value computed from its own patch address. -/
theorem resolved_address_cached_counterexample :
    (forEachReloc (fun r _ s => relocateX86_32_entry exEnv r s)
        [exReloc R_386_32, exReloc R_386_32] exStateBar).toOption.map
        (fun s => (s.trace, setAddressCount 0 s.trace)) =
      some ([Event.findSym "bar", Event.setAddress 0 0, Event.findSym "bar",
        Event.setAddress 0 0], 2) ∧
    (forEachReloc (relocateMIPS_entry exEnvStub) [exReloc R_MIPS_26] exMipsJal0).toOption.map
        (fun s => (s.trace, setAddressCount 0 s.trace, s.symtab.map (fun y => y.address))) =
      some ([Event.findSym "foo", Event.setAddress 0 0x10000000,
        Event.setAddress 0 0x20001000], 2, [0x20001000]) ∧
    (forEachReloc (relocateMIPS_entry exEnvStub) [exMid32, exReloc R_MIPS_26]
        exMipsJalData).toOption.map
        (fun s => (s.trace, setAddressCount 0 s.trace, s.symtab.map (fun y => y.address))) =
      some ([Event.findSym "foo", Event.setAddress 0 0x10000000,
        Event.setAddress 0 0x20001000], 2, [0x20001000]) ∧
    (forEachReloc (relocateMIPS_entry exEnv) [exHi, exHi8] exMipsGp3).toOption.map
        (fun s => (s.trace, setAddressCount 0 s.trace)) =
      some ([Event.setAddress 0 0x10007FF0, Event.setAddress 0 0x10007FE8], 2) := by
  decide

/-- C11 (amended): resolved addresses are cached. On a host whose pointers
have at least 32 bits, let `st` be the state at any point of a relocation
table, `table` the entries that remain, run to the end by the loop of
`relocateX86_32`, `relocateX86_64`, `relocateARM` or `relocateMIPS`, and `i` a
symbol; for `relocateMIPS`, no entry on symbol `i` sets the address by itself
when the loop reaches it (an `R_MIPS_HI16` entry on `_gp_disp`, an `R_MIPS_26`
entry that branches to a stub). Nothing is asked of the other symbols and of
the entries on them. Then:

* if symbol `i` is resolved in `st` (non-zero low 32 bits), `setAddress` is
  never called on it and its entry of the symbol table is the same at the end;
* if symbol `i` is resolved in `st` or known to `find_sym` (non-zero low 32
  bits), `setAddress` is called on it at most once; when it is called, the
  symbol was unresolved and is resolved at the end, and when it is not, the
  entry of the symbol table is the same at the end;
* whatever `find_sym` returns, `setAddress` is called on symbol `i` at most
  once for each entry of the table on symbol `i`;
* one entry on a resolved symbol makes no call at all (`find_sym`,
  `setAddress`), unless it is a MIPS entry that sets the address by itself: it
  reads the cached address. -/
theorem resolved_address_cached (env : Env) (hptr : 32 ≤ env.ptrBits) (i : Nat)
    (table : List ELFReloc) (st stF : RelocState)
    (hrun : forEachReloc (fun r _ s => relocateX86_32_entry env r s) table st = .ok stF ∨
      forEachReloc (fun r _ s => relocateX86_64_entry env r s) table st = .ok stF ∨
      forEachReloc (fun r _ s => relocateARM_entry env r s) table st = .ok stF ∨
      (forEachReloc (relocateMIPS_entry env) table st = .ok stF ∧
        mipsKeepsAddress env i table st = true)) :
    (st.resolved i → stF.symtab[i]? = st.symtab[i]? ∧
      setAddressCount i stF.trace = setAddressCount i st.trace) ∧
    (Resolvable env st i →
      setAddressCount i stF.trace ≤ setAddressCount i st.trace + 1 ∧
      (setAddressCount i stF.trace = setAddressCount i st.trace + 1 →
        ¬ st.resolved i ∧ stF.resolved i) ∧
      (setAddressCount i stF.trace = setAddressCount i st.trace →
        stF.symtab[i]? = st.symtab[i]?)) ∧
    setAddressCount i stF.trace ≤
      setAddressCount i st.trace + table.countP (fun r => r.symTabIndex == i) ∧
    (∀ (rel : ELFReloc) (rest : List ELFReloc) (s s1 : RelocState),
      s.resolved rel.symTabIndex →
      (relocateX86_32_entry env rel s = .ok s1 ∨ relocateX86_64_entry env rel s = .ok s1 ∨
        relocateARM_entry env rel s = .ok s1 ∨
        (relocateMIPS_entry env rel rest s = .ok s1 ∧ mipsSetsAddress rel s = false)) →
      s1.symtab = s.symtab ∧ s1.trace = s.trace) := by
  have hc : (Resolvable env st i → CachedOnce i st stF) ∧
      setAddressCount i stF.trace ≤
        setAddressCount i st.trace + table.countP (fun r => r.symTabIndex == i) := by
    rcases hrun with h | h | h | ⟨h, hm⟩
    · exact cachedOnce_forEachReloc env i _ (fun _ _ => True)
        (fun rel _ s s1 _ e => ⟨trivial, s1, oneLookup_x86_32 env hptr rel s s1 e, rfl, rfl⟩)
        table st stF trivial h
    · exact cachedOnce_forEachReloc env i _ (fun _ _ => True)
        (fun rel _ s s1 _ e => ⟨trivial, s1, oneLookup_x86_64 env hptr rel s s1 e, rfl, rfl⟩)
        table st stF trivial h
    · exact cachedOnce_forEachReloc env i _ (fun _ _ => True)
        (fun rel _ s s1 _ e => ⟨trivial, s1, oneLookup_arm env rel s s1 e, rfl, rfl⟩)
        table st stF trivial h
    · exact cachedOnce_forEachReloc env i _ (fun l s => mipsKeepsAddress env i l s = true)
        (fun rel rest s s1 g e =>
          ⟨(mipsKeepsAddress_cons env i rel rest s s1 g e).2,
            mips_entry_step env hptr i rel rest s s1
              (mipsKeepsAddress_cons env i rel rest s s1 g e).1 e⟩)
        table st stF hm h
  refine ⟨fun hres => ?_, fun hr => ?_, hc.2, fun rel rest s s1 hres hs => ?_⟩
  · rcases (hc.1 (resolvable_of_resolved hres)).2 with e | ⟨u, _, _⟩
    · exact e
    · exact absurd hres u
  · rcases (hc.1 hr).2 with ⟨e1, e2⟩ | ⟨u, r, e2⟩
    · exact ⟨by omega, fun e3 => by omega, fun _ => e1⟩
    · exact ⟨by omega, fun _ => ⟨u, r⟩, fun e3 => by omega⟩
  · rcases hs with h | h | h | ⟨h, hm⟩
    · exact x86_32_resolved_no_call env rel s s1 hres h
    · exact x86_64_resolved_no_call env rel s s1 hres h
    · exact arm_resolved_no_call env rel s s1 hres h
    · exact mips_resolved_no_call env rel rest s s1 hres hm h

/-- Witness of C11 (amended). The i386 table `[R_386_32 bar, R_386_32 foo,
R_386_PC32 foo]` over the symbols `[bar, foo]`, `bar` unknown to `find_sym`:
`foo` is assigned once. The MIPS table `[HI16 _gp_disp, LO16 _gp_disp, HI16
_gp_disp, 32 foo, LO16 foo, 26 loc]` over `[_gp_disp, foo, loc]`: `_gp_disp`
is assigned twice, `foo` once, and `loc`, resolved and near the call, is never
assigned. -/
theorem resolved_address_cached_witness :
    (forEachReloc (fun r _ s => relocateX86_32_entry exEnv r s)
        [exReloc R_386_32, exRelocFoo R_386_32, exRelocFoo R_386_PC32] exBarFoo =
      .ok exBarFooDone ∧
      exEnv.find_sym exBar.name = 0 ∧
      setAddressCount 1 exBarFooDone.trace ≤ setAddressCount 1 exBarFoo.trace + 1) ∧
    (forEachReloc (relocateMIPS_entry exEnv)
        [exHi, exLo, exHi, exRelocFoo R_MIPS_32, exRelocFoo R_MIPS_LO16, exJalLoc]
        exThreeSymbols = .ok exThreeSymbolsDone ∧
      mipsKeepsAddress exEnv 1
        [exHi, exLo, exHi, exRelocFoo R_MIPS_32, exRelocFoo R_MIPS_LO16, exJalLoc]
        exThreeSymbols = true ∧
      setAddressCount 1 exThreeSymbolsDone.trace ≤
        setAddressCount 1 exThreeSymbols.trace + 1) ∧
    (mipsKeepsAddress exEnv 2
        [exHi, exLo, exHi, exRelocFoo R_MIPS_32, exRelocFoo R_MIPS_LO16, exJalLoc]
        exThreeSymbols = true ∧
      exThreeSymbolsDone.symtab[2]? = exThreeSymbols.symtab[2]? ∧
      setAddressCount 2 exThreeSymbolsDone.trace = setAddressCount 2 exThreeSymbols.trace) :=
  ⟨⟨by decide, by decide,
    ((resolved_address_cached exEnv (by decide) 1
      [exReloc R_386_32, exRelocFoo R_386_32, exRelocFoo R_386_PC32] exBarFoo exBarFooDone
      (Or.inl (by decide))).2.1
      (fun sym h _ => by
        have h2 : sym = exFoo := by simpa [exBarFoo, exThreeSymbols] using h.symm
        rw [h2]; decide)).1⟩,
   ⟨by decide, by decide,
    ((resolved_address_cached exEnv (by decide) 1
      [exHi, exLo, exHi, exRelocFoo R_MIPS_32, exRelocFoo R_MIPS_LO16, exJalLoc] exThreeSymbols
      exThreeSymbolsDone (Or.inr (Or.inr (Or.inr ⟨by decide, by decide⟩)))).2.1
      (fun sym h _ => by
        have h2 : sym = exFoo := by simpa [exThreeSymbols] using h.symm
        rw [h2]; decide)).1⟩,
   ⟨by decide,
    (resolved_address_cached exEnv (by decide) 2
      [exHi, exLo, exHi, exRelocFoo R_MIPS_32, exRelocFoo R_MIPS_LO16, exJalLoc] exThreeSymbols
      exThreeSymbolsDone (Or.inr (Or.inr (Or.inr ⟨by decide, by decide⟩)))).1
      ⟨exLocal, rfl, by decide⟩⟩⟩

end LinkLoader
